import Mathlib

/-!
# chainlink-solana: chain-client core

A shallow embedding of `pkg/solana/chain.go`, `pkg/solana/client/client.go` and
`pkg/solana/contract.go`.

Conventions of the embedding

* A Go result `(value, error)` is a pair `α × Option Error`; an error is
  represented by its message, and `none` is Go's `nil` error.
* A Go pointer that may be `nil` is an `Option`.
* `uint64` values are natural numbers; where Go arithmetic can wrap, the
  operation is written with an explicit `% 2 ^ 64`.
* The remote side of an interface (`client.ReaderWriter`, `rpc.Client`) is an
  oracle: a record of answer functions.  For the stateful wrapper the answers
  are indexed by the number of calls made on the peer so far, so that a peer
  may answer differently over time.
* Locks are modelled by atomic sections: the body executed under one lock
  acquisition is one step.
-/

/-- An error, represented by its message. -/
abbrev Error := String

/-- A Go result `(value, error)`. -/
abbrev Result (α : Type) := α × Option Error

/-- The largest `uint64` plus one. -/
def uint64Size : Nat := 2 ^ 64

namespace strings

/-- The lower-casing of Go's standard library, a parameter of the development:
`lower` is the function `strings.ToLower` of the Go run time, which maps every
Unicode upper-case letter to its lower case.  Every general theorem below holds
for an arbitrary `lower`. -/
class Lowering where
  lower : String → String

/-- Go's `strings.ToLower`. -/
def ToLower [Lowering] (s : String) : String := Lowering.lower s

/-- The lower-casing used to evaluate the definitions at concrete inputs: it
lowers the letters `A`..`Z` and agrees with Go's `strings.ToLower` on every
string of ASCII characters, which all strings of the evaluations are. -/
instance asciiLowering : Lowering := ⟨fun s => String.mk (s.data.map Char.toLower)⟩

end strings

namespace solanago

/-- A base58 rendered public key. -/
abbrev PublicKey := String

/-- A base58 rendered hash (`solana.Hash.String()`). -/
abbrev Hash := String

/-- A transaction signature: 64 bytes. -/
abbrev Signature := List Nat

/-- The zero value `[64]byte{}`. -/
def Signature.zero : Signature := List.replicate 64 0

/-- An instruction of a transaction: a transfer of the system program, as
`system.NewTransferInstruction(lamports, funding, recipient).Build()` builds
it, or any other instruction. -/
inductive Instruction where
  | systemTransfer (lamports : Nat) (funding recipient : PublicKey)
  | other (programID : PublicKey) (data : List Nat)
deriving DecidableEq, Repr

/-- The message of a transaction: its instructions, the recent blockhash and
the fee payer. -/
structure Message where
  Instructions : List Instruction
  RecentBlockhash : Hash
  FeePayer : PublicKey
deriving DecidableEq, Repr

/-- A transaction: its message and its signatures. -/
structure Transaction where
  Message : Message
  Signatures : List Signature
deriving DecidableEq, Repr

/-- The call `solana.NewTransaction(instructions, blockhash,
solana.TransactionPayer(payer))`: an unsigned transaction, an error when there
is no instruction. -/
def NewTransaction (instructions : List Instruction) (recentBlockHash : Hash)
    (payer : PublicKey) : Option Transaction × Option String :=
  if instructions.length = 0 then
    (none, some "requires at-least one instruction to create a transaction")
  else
    (some { Message := { Instructions := instructions, RecentBlockhash := recentBlockHash,
                         FeePayer := payer },
            Signatures := [] }, none)

/-- A transfer of one lamport from `payer` to itself. -/
def sampleTx : Transaction :=
  { Message := { Instructions := [Instruction.systemTransfer 1 "payer" "payer"],
                 RecentBlockhash := "blockhash", FeePayer := "payer" },
    Signatures := [] }

end solanago

namespace rpc

/-- Commitment levels: `processed`, `confirmed`, `finalized`. -/
inductive CommitmentType where
  | processed
  | confirmed
  | finalized
  | unset
deriving DecidableEq, Repr

/-- The constant `rpc.CommitmentProcessed`. -/
def CommitmentProcessed : CommitmentType := CommitmentType.processed

structure GetBalanceResult where
  Value : Nat
deriving DecidableEq, Repr

structure LatestBlockhashValue where
  Blockhash : solanago.Hash
  LastValidBlockHeight : Nat
deriving DecidableEq, Repr

structure GetLatestBlockhashResult where
  Value : Option LatestBlockhashValue
deriving DecidableEq, Repr

structure GetFeeForMessageResult where
  Value : Option Nat
deriving DecidableEq, Repr

structure SignatureStatusesResult where
  Slot : Nat
  Confirmations : Option Nat
  Err : Option String
  ConfirmationStatus : String
deriving DecidableEq, Repr

structure GetSignatureStatusesResult where
  Value : Option (List (Option SignatureStatusesResult))
deriving DecidableEq, Repr

structure SimulateTransactionAccountsOpts where
  Encoding : String
  Addresses : List solanago.PublicKey
deriving DecidableEq, Repr

/-- The struct `rpc.SimulateTransactionOpts`; the defaults are Go's zero
values. -/
structure SimulateTransactionOpts where
  SigVerify : Bool := false
  Commitment : CommitmentType := CommitmentType.unset
  ReplaceRecentBlockhash : Bool := false
  Accounts : Option SimulateTransactionAccountsOpts := none
deriving DecidableEq, Repr

structure SimulateTransactionResult where
  Err : Option String
  Logs : List String
  UnitsConsumed : Option Nat
deriving DecidableEq, Repr

structure SimulateTransactionResponse where
  Value : Option SimulateTransactionResult
deriving DecidableEq, Repr

structure TransactionOpts where
  SkipPreflight : Bool
  PreflightCommitment : CommitmentType
  MaxRetries : Option Nat
deriving DecidableEq, Repr

structure DataSlice where
  Offset : Option Nat
  Length : Option Nat
deriving DecidableEq, Repr

/-- The struct `rpc.GetAccountInfoOpts`; the defaults are Go's zero values. -/
structure GetAccountInfoOpts where
  Encoding : String := ""
  Commitment : CommitmentType := CommitmentType.unset
  DataSlice : Option DataSlice := none
  MinContextSlot : Option Nat := none
deriving DecidableEq, Repr

/-- The struct `rpc.Account`, as far as it is read: lamports, owner and the
binary data. -/
structure Account where
  Lamports : Nat
  Owner : solanago.PublicKey
  Data : List Nat
deriving DecidableEq, Repr

/-- The struct `rpc.GetAccountInfoResult`: the slot of the RPC context and the
account, a pointer. -/
structure GetAccountInfoResult where
  Slot : Nat
  Value : Option Account
deriving DecidableEq, Repr

structure GetBlockOpts where
  Commitment : CommitmentType
  MaxSupportedTransactionVersion : Option Nat
deriving DecidableEq, Repr

structure GetBlockResult where
  Blockhash : solanago.Hash
  BlockHeight : Option Nat
  BlockTime : Option Int
deriving DecidableEq, Repr

/-- The slots returned by `getBlocksWithLimit`. -/
abbrev BlocksResult := List Nat

/-- The JSON-RPC endpoint behind a `Client`: what each method answers. -/
structure Client where
  GetBalance : solanago.PublicKey → CommitmentType → Result (Option GetBalanceResult) :=
    fun _ _ => (none, some "unreachable")
  GetSlot : CommitmentType → Result Nat := fun _ => (0, some "unreachable")
  GetAccountInfoWithOpts : solanago.PublicKey → Option GetAccountInfoOpts →
      Result (Option GetAccountInfoResult) := fun _ _ => (none, some "unreachable")
  GetLatestBlockhash : CommitmentType → Result (Option GetLatestBlockhashResult) :=
    fun _ => (none, some "unreachable")
  GetGenesisHash : Result solanago.Hash := ("", some "unreachable")
  GetFeeForMessage : String → CommitmentType → Result (Option GetFeeForMessageResult) :=
    fun _ _ => (none, some "unreachable")
  GetSignatureStatuses : Bool → List solanago.Signature →
      Result (Option GetSignatureStatusesResult) := fun _ _ => (none, some "unreachable")
  SimulateTransactionWithOpts : solanago.Transaction → Option SimulateTransactionOpts →
      Result (Option SimulateTransactionResponse) := fun _ _ => (none, some "unreachable")
  SendTransactionWithOpts : solanago.Transaction → TransactionOpts →
      Result solanago.Signature := fun _ _ => (solanago.Signature.zero, some "unreachable")
  GetBlockWithOpts : Nat → Option GetBlockOpts → Result (Option GetBlockResult) :=
    fun _ _ => (none, some "unreachable")
  GetBlocksWithLimit : Nat → Nat → CommitmentType → Result (Option BlocksResult) :=
    fun _ _ _ => (none, some "unreachable")

end rpc

namespace client

/-- The constant `DevnetGenesisHash`. -/
def DevnetGenesisHash : String := "EtWTRABZaYq6iMfeYKouRu166VU2xqa1wcaWoxPkrZBG"

/-- The constant `TestnetGenesisHash`. -/
def TestnetGenesisHash : String := "4uhcVJyU9pJkvQyS88uRDiswHXSCkY3zQawwpjk2NsNY"

/-- The constant `MainnetGenesisHash`. -/
def MainnetGenesisHash : String := "5eykt4UsFv8P8NJdTREpY1vzqKqZKvdpKuc147dw2N9d"

/-- One call of a method of the `ReaderWriter` interface, with the arguments
that identify it. -/
inductive Call where
  | SendTx (tx : solanago.Transaction)
  | SimulateTx (tx : solanago.Transaction)
  | SignatureStatuses (sigs : List solanago.Signature)
  | Balance (addr : solanago.PublicKey)
  | SlotHeight
  | LatestBlockhash
  | ChainID
  | GetFeeForMessage (msg : String)
  | GetAccountInfoWithOpts (addr : solanago.PublicKey)
  | GetLatestBlock
  | GetBlocksWithLimit (startSlot limit : Nat)
  | GetBlock (slot : Nat)
deriving DecidableEq, Repr

/-- The interface `ReaderWriter` (`Writer` and `Reader`), as an oracle: the
first argument of every method is the number of calls made on the peer before
this one. -/
structure ReaderWriter where
  SendTx : Nat → solanago.Transaction → Result solanago.Signature
  SimulateTx : Nat → solanago.Transaction → Option rpc.SimulateTransactionOpts →
    Result (Option rpc.SimulateTransactionResult)
  SignatureStatuses : Nat → List solanago.Signature →
    Result (Option (List (Option rpc.SignatureStatusesResult)))
  Balance : Nat → solanago.PublicKey → Result Nat
  SlotHeight : Nat → Result Nat
  LatestBlockhash : Nat → Result (Option rpc.GetLatestBlockhashResult)
  ChainID : Nat → Result String
  GetFeeForMessage : Nat → String → Result Nat
  GetAccountInfoWithOpts : Nat → solanago.PublicKey → Option rpc.GetAccountInfoOpts →
    Result (Option rpc.GetAccountInfoResult)
  GetLatestBlock : Nat → Result (Option rpc.GetBlockResult)
  GetBlocksWithLimit : Nat → Nat → Nat → Result (Option rpc.BlocksResult)
  GetBlock : Nat → Nat → Result (Option rpc.GetBlockResult)

end client

namespace solana

/-- The struct `verifiedCachedClient`.  The embedded `client.ReaderWriter` is
the wrapped peer; `calls` records, oldest first, the calls made on it. -/
structure verifiedCachedClient where
  chainID : String
  expectedChainID : String
  nodeURL : String
  chainIDVerified : Bool
  ReaderWriter : client.ReaderWriter
  calls : List client.Call

namespace verifiedCachedClient

/-- The outcome of the wrapped peer's next call is indexed by the number of
calls already made on it. -/
def now (v : verifiedCachedClient) : Nat := v.calls.length

/-- Record one more call on the wrapped peer. -/
def record (v : verifiedCachedClient) (c : client.Call) : verifiedCachedClient :=
  { v with calls := v.calls ++ [c] }

/-- The read-locked section of `verifyChainID` (between `RLock` and `RUnlock`):
the value of `chainIDVerified` it observes. -/
def readSection (v : verifiedCachedClient) : Bool := v.chainIDVerified

/-- The write-locked section of `verifyChainID` (from `Lock` to the `Unlock`
that runs on return): fetch the chain id of the peer, store it, compare it with
the lowercased expected id. -/
def writeSection [strings.Lowering] (v : verifiedCachedClient) : verifiedCachedClient × Bool × Option Error :=
  let (strID, err) := v.ReaderWriter.ChainID v.now
  let v1 := { v.record client.Call.ChainID with chainID := strID }
  match err with
  | some e =>
    let v2 := { v1 with chainIDVerified := false }
    (v2, v2.chainIDVerified, some ("failed to fetch ChainID in verifiedCachedClient: " ++ e))
  | none =>
    let expectedChainID := strings.ToLower v1.expectedChainID
    if v1.chainID ≠ expectedChainID then
      let v2 := { v1 with chainIDVerified := false }
      (v2, v2.chainIDVerified,
        some ("client returned mismatched chain id (expected: " ++ expectedChainID ++
          ", got: " ++ v1.chainID ++ "): " ++ v1.nodeURL))
    else
      let v2 := { v1 with chainIDVerified := true }
      (v2, v2.chainIDVerified, none)

/-- The method `verifyChainID`, run without interference between its two
sections. -/
def verifyChainID [strings.Lowering] (v : verifiedCachedClient) : verifiedCachedClient × Bool × Option Error :=
  if v.readSection then (v, true, none) else v.writeSection

/-- The method `SendTx` of the verifier. -/
def SendTx [strings.Lowering] (v : verifiedCachedClient) (tx : solanago.Transaction) :
    verifiedCachedClient × Result solanago.Signature :=
  let (v1, verified, err) := v.verifyChainID
  if !verified then (v1, (solanago.Signature.zero, err))
  else ((v1.record (client.Call.SendTx tx)), v1.ReaderWriter.SendTx v1.now tx)

/-- The method `SimulateTx` of the verifier. -/
def SimulateTx [strings.Lowering] (v : verifiedCachedClient) (tx : solanago.Transaction)
    (opts : Option rpc.SimulateTransactionOpts) :
    verifiedCachedClient × Result (Option rpc.SimulateTransactionResult) :=
  let (v1, verified, err) := v.verifyChainID
  if !verified then (v1, (none, err))
  else ((v1.record (client.Call.SimulateTx tx)), v1.ReaderWriter.SimulateTx v1.now tx opts)

/-- The method `SignatureStatuses` of the verifier. -/
def SignatureStatuses [strings.Lowering] (v : verifiedCachedClient) (sigs : List solanago.Signature) :
    verifiedCachedClient × Result (Option (List (Option rpc.SignatureStatusesResult))) :=
  let (v1, verified, err) := v.verifyChainID
  if !verified then (v1, (none, err))
  else ((v1.record (client.Call.SignatureStatuses sigs)),
    v1.ReaderWriter.SignatureStatuses v1.now sigs)

/-- The method `Balance` of the verifier. -/
def Balance [strings.Lowering] (v : verifiedCachedClient) (addr : solanago.PublicKey) :
    verifiedCachedClient × Result Nat :=
  let (v1, verified, err) := v.verifyChainID
  if !verified then (v1, (0, err))
  else ((v1.record (client.Call.Balance addr)), v1.ReaderWriter.Balance v1.now addr)

/-- The method `SlotHeight` of the verifier. -/
def SlotHeight [strings.Lowering] (v : verifiedCachedClient) : verifiedCachedClient × Result Nat :=
  let (v1, verified, err) := v.verifyChainID
  if !verified then (v1, (0, err))
  else ((v1.record client.Call.SlotHeight), v1.ReaderWriter.SlotHeight v1.now)

/-- The method `LatestBlockhash` of the verifier. -/
def LatestBlockhash [strings.Lowering] (v : verifiedCachedClient) :
    verifiedCachedClient × Result (Option rpc.GetLatestBlockhashResult) :=
  let (v1, verified, err) := v.verifyChainID
  if !verified then (v1, (none, err))
  else ((v1.record client.Call.LatestBlockhash), v1.ReaderWriter.LatestBlockhash v1.now)

/-- The method `ChainID` of the verifier: the stored chain id, no call on the
peer once verified. -/
def ChainID [strings.Lowering] (v : verifiedCachedClient) : verifiedCachedClient × Result String :=
  let (v1, verified, err) := v.verifyChainID
  if !verified then (v1, ("", err))
  else (v1, (v1.chainID, none))

/-- The method `GetFeeForMessage` of the verifier. -/
def GetFeeForMessage [strings.Lowering] (v : verifiedCachedClient) (msg : String) :
    verifiedCachedClient × Result Nat :=
  let (v1, verified, err) := v.verifyChainID
  if !verified then (v1, (0, err))
  else ((v1.record (client.Call.GetFeeForMessage msg)),
    v1.ReaderWriter.GetFeeForMessage v1.now msg)

/-- The method `GetAccountInfoWithOpts` of the verifier. -/
def GetAccountInfoWithOpts [strings.Lowering] (v : verifiedCachedClient) (addr : solanago.PublicKey)
    (opts : Option rpc.GetAccountInfoOpts) :
    verifiedCachedClient × Result (Option rpc.GetAccountInfoResult) :=
  let (v1, verified, err) := v.verifyChainID
  if !verified then (v1, (none, err))
  else ((v1.record (client.Call.GetAccountInfoWithOpts addr)),
    v1.ReaderWriter.GetAccountInfoWithOpts v1.now addr opts)

/-- The method `GetLatestBlock` of the verifier.  `chain.go` declares no such
method on `verifiedCachedClient`: the call is promoted to the embedded
`client.ReaderWriter`. -/
def GetLatestBlock (v : verifiedCachedClient) :
    verifiedCachedClient × Result (Option rpc.GetBlockResult) :=
  ((v.record client.Call.GetLatestBlock), v.ReaderWriter.GetLatestBlock v.now)

/-- The method `GetBlock` of the verifier, promoted from the embedded
`client.ReaderWriter` like `GetLatestBlock`. -/
def GetBlock (v : verifiedCachedClient) (slot : Nat) :
    verifiedCachedClient × Result (Option rpc.GetBlockResult) :=
  ((v.record (client.Call.GetBlock slot)), v.ReaderWriter.GetBlock v.now slot)

/-- The method `GetBlocksWithLimit` of the verifier, promoted from the embedded
`client.ReaderWriter` like `GetLatestBlock`. -/
def GetBlocksWithLimit (v : verifiedCachedClient) (startSlot limit : Nat) :
    verifiedCachedClient × Result (Option rpc.BlocksResult) :=
  ((v.record (client.Call.GetBlocksWithLimit startSlot limit)),
    v.ReaderWriter.GetBlocksWithLimit v.now startSlot limit)

end verifiedCachedClient

/-- A peer that answers every call successfully with fixed values, and reports
the chain name `name`. -/
def steadyPeer (name : String) : client.ReaderWriter where
  SendTx := fun _ _ => ([1], none)
  SimulateTx := fun _ _ _ => (some ⟨none, [], none⟩, none)
  SignatureStatuses := fun _ _ => (some [], none)
  Balance := fun _ _ => (1000, none)
  SlotHeight := fun _ => (42, none)
  LatestBlockhash := fun _ => (some ⟨none⟩, none)
  ChainID := fun _ => (name, none)
  GetFeeForMessage := fun _ _ => (5000, none)
  GetAccountInfoWithOpts := fun _ _ _ => (some ⟨42, some ⟨1, "owner", []⟩⟩, none)
  GetLatestBlock := fun _ => (some ⟨"hash", some 7, some 1700000000⟩, none)
  GetBlocksWithLimit := fun _ s _ => (some [s], none)
  GetBlock := fun _ slot => (some ⟨"hash", some slot, some 1700000000⟩, none)

/-- The verifier built by `verifiedClient` for a node: unverified, no chain id
observed, no call made. -/
def newVerifier (url expected : String) (peer : client.ReaderWriter) : verifiedCachedClient where
  chainID := ""
  expectedChainID := expected
  nodeURL := url
  chainIDVerified := false
  ReaderWriter := peer
  calls := []

end solana

namespace solana

/-- A user-facing operation of the verifier that passes through
`verifyChainID` (the nine methods `chain.go` declares on
`verifiedCachedClient`), or `verifyChainID` itself. -/
inductive Op where
  | verifyChainID
  | SendTx (tx : solanago.Transaction)
  | SimulateTx (tx : solanago.Transaction) (opts : Option rpc.SimulateTransactionOpts)
  | SignatureStatuses (sigs : List solanago.Signature)
  | Balance (addr : solanago.PublicKey)
  | SlotHeight
  | LatestBlockhash
  | ChainID
  | GetFeeForMessage (msg : String)
  | GetAccountInfoWithOpts (addr : solanago.PublicKey) (opts : Option rpc.GetAccountInfoOpts)

/-- Run one operation on the verifier; the error it returns. -/
def Op.run [strings.Lowering] : Op → verifiedCachedClient → verifiedCachedClient × Option Error
  | Op.verifyChainID, v => (v.verifyChainID.1, v.verifyChainID.2.2)
  | Op.SendTx tx, v => ((v.SendTx tx).1, (v.SendTx tx).2.2)
  | Op.SimulateTx tx opts, v => ((v.SimulateTx tx opts).1, (v.SimulateTx tx opts).2.2)
  | Op.SignatureStatuses sigs, v => ((v.SignatureStatuses sigs).1, (v.SignatureStatuses sigs).2.2)
  | Op.Balance addr, v => ((v.Balance addr).1, (v.Balance addr).2.2)
  | Op.SlotHeight, v => (v.SlotHeight.1, v.SlotHeight.2.2)
  | Op.LatestBlockhash, v => (v.LatestBlockhash.1, v.LatestBlockhash.2.2)
  | Op.ChainID, v => (v.ChainID.1, v.ChainID.2.2)
  | Op.GetFeeForMessage msg, v => ((v.GetFeeForMessage msg).1, (v.GetFeeForMessage msg).2.2)
  | Op.GetAccountInfoWithOpts addr opts, v =>
    ((v.GetAccountInfoWithOpts addr opts).1, (v.GetAccountInfoWithOpts addr opts).2.2)

/-- Run a sequence of operations one after the other on the same verifier; the
final verifier and the error of each operation, in order. -/
def runOps [strings.Lowering] (v : verifiedCachedClient) : List Op → verifiedCachedClient × List (Option Error)
  | [] => (v, [])
  | op :: rest =>
    let r := op.run v
    let rs := runOps r.1 rest
    (rs.1, r.2 :: rs.2)

/-- Where one caller of `verifyChainID` stands: before the read-locked check,
between the two sections (the flag was seen false, the write lock not yet
taken), or returned. -/
inductive VerifyPc where
  | entry
  | awaitingLock
  | returned (verified : Bool) (err : Option Error)
deriving DecidableEq, Repr

/-- Several callers of `verifyChainID` on one verifier. -/
structure VerifyRun where
  v : verifiedCachedClient
  pcs : List VerifyPc

/-- One step of caller `i`: its next lock-protected section, executed
atomically.  A caller that has returned starts a new call. -/
def VerifyRun.step [strings.Lowering] (s : VerifyRun) (i : Nat) : VerifyRun :=
  match s.pcs[i]? with
  | none => s
  | some VerifyPc.awaitingLock =>
    let r := s.v.writeSection
    { v := r.1, pcs := s.pcs.set i (VerifyPc.returned r.2.1 r.2.2) }
  | some _ =>
    if s.v.readSection then { s with pcs := s.pcs.set i (VerifyPc.returned true none) }
    else { s with pcs := s.pcs.set i VerifyPc.awaitingLock }

/-- Run the callers in the order of a schedule. -/
def VerifyRun.run [strings.Lowering] (s : VerifyRun) (schedule : List Nat) : VerifyRun :=
  schedule.foldl VerifyRun.step s

/-- A peer that reports the given chain names in turn, and fails to answer
afterwards. -/
def scriptedPeer (names : List String) : client.ReaderWriter :=
  { steadyPeer "" with
    ChainID := fun n => match names[n]? with
      | some name => (name, none)
      | none => ("", some "connection refused") }

end solana

namespace client

/-- A JSON-RPC request issued through `c.rpc`, with its arguments. -/
inductive Request where
  | GetBalance (addr : solanago.PublicKey) (commitment : rpc.CommitmentType)
  | GetSlot (commitment : rpc.CommitmentType)
  | GetAccountInfoWithOpts (addr : solanago.PublicKey) (opts : Option rpc.GetAccountInfoOpts)
  | GetLatestBlockhash (commitment : rpc.CommitmentType)
  | GetGenesisHash
  | GetFeeForMessage (msg : String) (commitment : rpc.CommitmentType)
  | GetSignatureStatuses (searchTransactionHistory : Bool) (sigs : List solanago.Signature)
  | SimulateTransactionWithOpts (tx : solanago.Transaction)
      (opts : Option rpc.SimulateTransactionOpts)
  | SendTransactionWithOpts (tx : solanago.Transaction) (opts : rpc.TransactionOpts)
  | GetBlockWithOpts (slot : Nat) (opts : Option rpc.GetBlockOpts)
  | GetBlocksWithLimit (startSlot limit : Nat) (commitment : rpc.CommitmentType)
deriving DecidableEq, Repr

/-- What a `Client` method does besides computing its result, in program
order: the latency label it registers, the timeout it wraps the context in,
the key it hands to `requestGroup.Do`, the request it issues, a warning it
logs. -/
inductive Event where
  | latency (name : String)
  | WithTimeout (d : Nat)
  | Do (key : String)
  | Rpc (req : Request)
  | Warnf (msg : String)
deriving DecidableEq, Repr

/-- The outcome of a `Client` method: its events and its Go result, `none`
when the method panics (nil pointer dereference). -/
structure Outcome (α : Type) where
  events : List Event
  out : Option (Result α)

/-- The keys handed to `requestGroup.Do`, in order. -/
def doKeys : List Event → List String
  | [] => []
  | Event.Do key :: rest => key :: doKeys rest
  | _ :: rest => doKeys rest

/-- The struct `Client`; durations are in nanoseconds. -/
structure Client where
  url : String
  skipPreflight : Bool
  commitment : rpc.CommitmentType
  maxRetries : Option Nat
  txTimeout : Nat
  contextDuration : Nat
  rpc : rpc.Client

namespace Client

/-- The method `Client.Balance`. -/
def Balance (c : Client) (addr : solanago.PublicKey) : Outcome Nat :=
  let ev := [Event.latency "balance", Event.WithTimeout c.contextDuration,
    Event.Do ("GetBalance(" ++ addr ++ ")"), Event.Rpc (Request.GetBalance addr c.commitment)]
  match c.rpc.GetBalance addr c.commitment with
  | (_, some err) => ⟨ev, some (0, some err)⟩
  | (none, none) => ⟨ev, none⟩
  | (some res, none) => ⟨ev, some (res.Value, none)⟩

/-- The method `Client.SlotHeightWithCommitment`. -/
def SlotHeightWithCommitment (c : Client) (commitment : rpc.CommitmentType) : Outcome Nat :=
  let ev := [Event.latency "slot_height", Event.WithTimeout c.contextDuration,
    Event.Do "GetSlotHeight", Event.Rpc (Request.GetSlot commitment)]
  ⟨ev, some (c.rpc.GetSlot commitment)⟩

/-- The method `Client.SlotHeight`. -/
def SlotHeight (c : Client) : Outcome Nat :=
  c.SlotHeightWithCommitment rpc.CommitmentProcessed

/-- The method `Client.GetAccountInfoWithOpts`: writing `opts.Commitment`
through a nil `opts` panics. -/
def GetAccountInfoWithOpts (c : Client) (addr : solanago.PublicKey)
    (opts : Option rpc.GetAccountInfoOpts) : Outcome (Option rpc.GetAccountInfoResult) :=
  let ev := [Event.latency "account_info", Event.WithTimeout c.contextDuration]
  match opts with
  | none => ⟨ev, none⟩
  | some o =>
    let o1 := { o with Commitment := c.commitment }
    ⟨ev ++ [Event.Rpc (Request.GetAccountInfoWithOpts addr (some o1))],
      some (c.rpc.GetAccountInfoWithOpts addr (some o1))⟩

/-- The method `Client.LatestBlockhash`. -/
def LatestBlockhash (c : Client) : Outcome (Option rpc.GetLatestBlockhashResult) :=
  let ev := [Event.latency "latest_blockhash", Event.WithTimeout c.contextDuration,
    Event.Do "GetLatestBlockhash", Event.Rpc (Request.GetLatestBlockhash c.commitment)]
  ⟨ev, some (c.rpc.GetLatestBlockhash c.commitment)⟩

/-- The method `Client.ChainID`. -/
def ChainID (c : Client) : Outcome String :=
  let ev := [Event.latency "chain_id", Event.WithTimeout c.contextDuration,
    Event.Do "GetGenesisHash", Event.Rpc Request.GetGenesisHash]
  match c.rpc.GetGenesisHash with
  | (_, some err) => ⟨ev, some ("", some err)⟩
  | (hash, none) =>
    if hash = DevnetGenesisHash then ⟨ev, some ("devnet", none)⟩
    else if hash = TestnetGenesisHash then ⟨ev, some ("testnet", none)⟩
    else if hash = MainnetGenesisHash then ⟨ev, some ("mainnet", none)⟩
    else ⟨ev ++ [Event.Warnf "unknown genesis hash - assuming solana chain is 'localnet'"],
      some ("localnet", none)⟩

/-- The method `Client.GetFeeForMessage`. -/
def GetFeeForMessage (c : Client) (msg : String) : Outcome Nat :=
  let ev := [Event.latency "fee_for_message", Event.WithTimeout c.contextDuration,
    Event.Rpc (Request.GetFeeForMessage msg c.commitment)]
  match c.rpc.GetFeeForMessage msg c.commitment with
  | (_, some err) => ⟨ev, some (0, some ("error in GetFeeForMessage: " ++ err))⟩
  | (none, none) => ⟨ev, some (0, some "nil pointer in GetFeeForMessage")⟩
  | (some res, none) =>
    match res.Value with
    | none => ⟨ev, some (0, some "nil pointer in GetFeeForMessage")⟩
    | some fee => ⟨ev, some (fee, none)⟩

/-- The method `Client.SignatureStatuses`. -/
def SignatureStatuses (c : Client) (sigs : List solanago.Signature) :
    Outcome (Option (List (Option rpc.SignatureStatusesResult))) :=
  let ev := [Event.latency "signature_statuses", Event.WithTimeout c.contextDuration,
    Event.Rpc (Request.GetSignatureStatuses false sigs)]
  match c.rpc.GetSignatureStatuses false sigs with
  | (_, some err) => ⟨ev, some (none, some ("error in GetSignatureStatuses: " ++ err))⟩
  | (none, none) => ⟨ev, some (none, some "nil pointer in GetSignatureStatuses")⟩
  | (some res, none) =>
    match res.Value with
    | none => ⟨ev, some (none, some "nil pointer in GetSignatureStatuses")⟩
    | some statuses => ⟨ev, some (some statuses, none)⟩

/-- The method `Client.SimulateTx`. -/
def SimulateTx (c : Client) (tx : solanago.Transaction)
    (opts : Option rpc.SimulateTransactionOpts) :
    Outcome (Option rpc.SimulateTransactionResult) :=
  let opts1 : rpc.SimulateTransactionOpts := match opts with
    | none => { SigVerify := true, Commitment := c.commitment }
    | some o => o
  let ev := [Event.latency "simulate_tx", Event.WithTimeout c.contextDuration,
    Event.Rpc (Request.SimulateTransactionWithOpts tx (some opts1))]
  match c.rpc.SimulateTransactionWithOpts tx (some opts1) with
  | (_, some err) => ⟨ev, some (none, some ("error in SimulateTransactionWithOpts: " ++ err))⟩
  | (none, none) => ⟨ev, some (none, some "nil pointer in SimulateTransactionWithOpts")⟩
  | (some res, none) =>
    match res.Value with
    | none => ⟨ev, some (none, some "nil pointer in SimulateTransactionWithOpts")⟩
    | some value => ⟨ev, some (some value, none)⟩

/-- The method `Client.SendTx`. -/
def SendTx (c : Client) (tx : solanago.Transaction) : Outcome solanago.Signature :=
  let opts : rpc.TransactionOpts :=
    { SkipPreflight := c.skipPreflight, PreflightCommitment := c.commitment,
      MaxRetries := c.maxRetries }
  ⟨[Event.latency "send_tx", Event.WithTimeout c.txTimeout,
      Event.Rpc (Request.SendTransactionWithOpts tx opts)],
    some (c.rpc.SendTransactionWithOpts tx opts)⟩

/-- The method `Client.GetLatestBlock`. -/
def GetLatestBlock (c : Client) : Outcome (Option rpc.GetBlockResult) :=
  let slotOutcome := c.SlotHeightWithCommitment c.commitment
  match slotOutcome.out with
  | none => ⟨slotOutcome.events, none⟩
  | some (_, some err) =>
    ⟨slotOutcome.events, some (none, some ("GetLatestBlock.SlotHeight: " ++ err))⟩
  | some (slot, none) =>
    let opts : rpc.GetBlockOpts :=
      { Commitment := c.commitment, MaxSupportedTransactionVersion := some 0 }
    ⟨slotOutcome.events ++ [Event.latency "latest_block", Event.WithTimeout c.txTimeout,
        Event.Do "GetBlockWithOpts", Event.Rpc (Request.GetBlockWithOpts slot (some opts))],
      some (c.rpc.GetBlockWithOpts slot (some opts))⟩

/-- The method `Client.GetBlock`. -/
def GetBlock (c : Client) (slot : Nat) : Outcome (Option rpc.GetBlockResult) :=
  let opts : rpc.GetBlockOpts :=
    { Commitment := c.commitment, MaxSupportedTransactionVersion := some 0 }
  ⟨[Event.latency "get_block", Event.WithTimeout c.txTimeout,
      Event.Do "GetBlockWithOpts", Event.Rpc (Request.GetBlockWithOpts slot (some opts))],
    some (c.rpc.GetBlockWithOpts slot (some opts))⟩

/-- The method `Client.GetBlocksWithLimit`. -/
def GetBlocksWithLimit (c : Client) (startSlot limit : Nat) : Outcome (Option rpc.BlocksResult) :=
  ⟨[Event.latency "get_blocks_with_limit", Event.WithTimeout c.txTimeout,
      Event.Do "GetBlocksWithLimit",
      Event.Rpc (Request.GetBlocksWithLimit startSlot limit c.commitment)],
    some (c.rpc.GetBlocksWithLimit startSlot limit c.commitment)⟩

end Client

/-- A coalesced call on a peer: an operation that goes through
`requestGroup.Do`, with its arguments. -/
inductive CoalescedCall where
  | Balance (addr : solanago.PublicKey)
  | SlotHeightWithCommitment (commitment : rpc.CommitmentType)
  | LatestBlockhash
  | ChainID
  | GetLatestBlock
  | GetBlock (slot : Nat)
  | GetBlocksWithLimit (startSlot limit : Nat)
deriving DecidableEq, Repr

/-- The events of a coalesced call on the client `c`. -/
def CoalescedCall.events (c : Client) : CoalescedCall → List Event
  | CoalescedCall.Balance addr => (c.Balance addr).events
  | CoalescedCall.SlotHeightWithCommitment commitment =>
    (c.SlotHeightWithCommitment commitment).events
  | CoalescedCall.LatestBlockhash => c.LatestBlockhash.events
  | CoalescedCall.ChainID => c.ChainID.events
  | CoalescedCall.GetLatestBlock => c.GetLatestBlock.events
  | CoalescedCall.GetBlock slot => (c.GetBlock slot).events
  | CoalescedCall.GetBlocksWithLimit startSlot limit => (c.GetBlocksWithLimit startSlot limit).events

/-- The single-flight key under which a coalesced call issues its own request:
the last key it hands to `requestGroup.Do`. -/
def CoalescedCall.key (c : Client) (call : CoalescedCall) : Option String :=
  (doKeys (call.events c)).getLast?

/-- A client for the endpoint `remote` with the default request timeout. -/
def sampleClient (remote : rpc.Client) : Client where
  url := "http://localhost:8899"
  rpc := remote
  skipPreflight := false
  commitment := rpc.CommitmentType.confirmed
  maxRetries := none
  txTimeout := 60000000000
  contextDuration := 30000000000

end client

namespace config

/-- Modelled from the spec: the endpoint descriptor `{name, url, send_only}` of
the configuration (package `config` is not among the sources); `Name` and `URL`
are pointers. -/
structure Node where
  Name : Option String
  URL : Option String
  SendOnly : Bool
deriving DecidableEq, Repr

/-- Modelled from the spec: the option `multi_node.enabled`. -/
structure MultiNodeConfig where
  enabled : Bool
deriving DecidableEq, Repr

/-- Modelled from the spec: the recognised configuration options that
`chain.go` and `client.NewClient` read (`commitment`, `skip_preflight`,
`max_retries`, `tx_timeout` in nanoseconds). -/
structure TOMLConfig where
  ChainID : Option String
  Enabled : Option Bool
  Nodes : List (Option Node)
  MultiNode : MultiNodeConfig
  commitment : rpc.CommitmentType := rpc.CommitmentType.confirmed
  skipPreflight : Bool := true
  maxRetries : Option Nat := none
  txTimeout : Nat := 60000000000
deriving DecidableEq, Repr

/-- Modelled from the spec: `Commitment()`. -/
def TOMLConfig.Commitment (cfg : TOMLConfig) : rpc.CommitmentType := cfg.commitment

/-- Modelled from the spec: `SkipPreflight()`. -/
def TOMLConfig.SkipPreflight (cfg : TOMLConfig) : Bool := cfg.skipPreflight

/-- Modelled from the spec: `MaxRetries()`, nil when the option is missing. -/
def TOMLConfig.MaxRetries (cfg : TOMLConfig) : Option Nat := cfg.maxRetries

/-- Modelled from the spec: `TxTimeout()`. -/
def TOMLConfig.TxTimeout (cfg : TOMLConfig) : Nat := cfg.txTimeout

/-- Modelled from the spec: `ListNodes`, the endpoint list `nodes[]` in
configuration order. -/
def TOMLConfig.ListNodes (cfg : TOMLConfig) : List (Option Node) := cfg.Nodes

/-- Modelled from the spec: `MultiNode.Enabled()`. -/
def MultiNodeConfig.Enabled (m : MultiNodeConfig) : Bool := m.enabled

end config

namespace mn

/-- Modelled from the spec: the peer of the multi-node pool (package
`multinode` is not among the sources); it implements `client.ReaderWriter`. -/
structure MultiNodeClient where
  url : String
  peer : client.ReaderWriter
  calls : List client.Call

/-- Modelled from the spec: a live peer of the pool, as `newChain` builds it
with `mn.NewNode`: the endpoint URL and name, its index in the endpoint list,
the chain id and the client. -/
structure Node where
  url : String
  name : String
  order : Nat
  chainID : String
  rpc : MultiNodeClient

/-- Modelled from the spec: a send-only peer of the pool, as `newChain` builds
it with `mn.NewSendOnlyNode`. -/
structure SendOnlyNode where
  url : String
  name : String
  chainID : String
  rpc : MultiNodeClient

/-- Modelled from the spec: the pool `{live_peers[], send_only_peers[]}`. -/
structure MultiNode where
  nodes : List Node
  sendOnlyNodes : List SendOnlyNode
  chainID : String

end mn

namespace client

/-- The function `NewClient`: a client for the endpoint, never an error;
`remote` is the endpoint `rpc.New(endpoint)` connects to. -/
def NewClient (endpoint : String) (cfg : config.TOMLConfig) (requestTimeout : Nat)
    (remote : rpc.Client) : Option Client × Option Error :=
  (some { url := endpoint, rpc := remote, skipPreflight := cfg.SkipPreflight,
          commitment := cfg.Commitment, maxRetries := cfg.MaxRetries,
          txTimeout := cfg.TxTimeout, contextDuration := requestTimeout }, none)

end client

namespace types

/-- The struct `types.Head`. -/
structure Head where
  Height : String
  Hash : List Nat
  Timestamp : Nat
deriving DecidableEq, Repr

/-- The zero value `types.Head{}`. -/
def Head.zero : Head := ⟨"", [], 0⟩

end types

namespace solana

/-- The constant `DefaultRequestTimeout`, 30 seconds in nanoseconds. -/
def DefaultRequestTimeout : Nat := 30 * 1000000000

/-- What lies outside `chain.go`: the remote endpoint behind each URL (`net`:
as the client built for it answers through the interface `ReaderWriter`;
`remote`: as it answers JSON-RPC requests), the error of
`client.NewMultiNodeClient`, the pool's `SelectRPC`, and the text `%+v` prints
for a node (`formatNode`: it shows the addresses of the name and of the URL,
which the run decides). -/
structure Env where
  net : String → client.ReaderWriter
  remote : String → rpc.Client := fun _ => {}
  NewMultiNodeClientErr : String → Option Error := fun _ => none
  SelectRPC : Option mn.MultiNode → Result (Option mn.MultiNodeClient) :=
    fun _ => (none, some "no live nodes available")
  formatNode : config.Node → String := fun _ => "&\x7bName:0xc000014250 URL:<nil>\x7d"

/-- The struct `chain`: `clientCache` maps a URL to its verifier (insertion
order kept, at most one entry per URL is ever looked up). -/
structure chain where
  id : String
  cfg : config.TOMLConfig
  multiNode : Option mn.MultiNode
  clientCache : List (String × verifiedCachedClient)

/-- The handle `client.ReaderWriter` that `getClient` returns: a verifier of
the client cache, or a peer selected by the pool. -/
inductive Handle where
  | verified (v : verifiedCachedClient)
  | multiNode (c : mn.MultiNodeClient)

/-- The URL of the endpoint behind a handle. -/
def Handle.url : Handle → String
  | Handle.verified v => v.nodeURL
  | Handle.multiNode c => c.url

/-- The call `GetLatestBlock` on a handle. -/
def Handle.GetLatestBlock : Handle → Handle × Result (Option rpc.GetBlockResult)
  | Handle.verified v => (Handle.verified v.GetLatestBlock.1, v.GetLatestBlock.2)
  | Handle.multiNode c =>
    (Handle.multiNode { c with calls := c.calls ++ [client.Call.GetLatestBlock] },
      c.peer.GetLatestBlock c.calls.length)

/-- The call `Balance` on a handle. -/
def Handle.Balance [strings.Lowering] : Handle → solanago.PublicKey → Handle × Result Nat
  | Handle.verified v, addr => (Handle.verified (v.Balance addr).1, (v.Balance addr).2)
  | Handle.multiNode c, addr =>
    (Handle.multiNode { c with calls := c.calls ++ [client.Call.Balance addr] },
      c.peer.Balance c.calls.length addr)

/-- The call `GetFeeForMessage` on a handle. -/
def Handle.GetFeeForMessage [strings.Lowering] : Handle → String → Handle × Result Nat
  | Handle.verified v, msg =>
    (Handle.verified (v.GetFeeForMessage msg).1, (v.GetFeeForMessage msg).2)
  | Handle.multiNode c, msg =>
    (Handle.multiNode { c with calls := c.calls ++ [client.Call.GetFeeForMessage msg] },
      c.peer.GetFeeForMessage c.calls.length msg)

/-- The method `chain.verifiedClient`, run without interference: the cached
verifier of the node's URL, built and inserted when absent. -/
def chain.verifiedClient (c : chain) (env : Env) (node : Option config.Node) :
    chain × Result (Option verifiedCachedClient) :=
  match node with
  | none => (c, (none, some "nil node"))
  | some node =>
    match node.Name, node.URL with
    | some _, some url =>
      match c.clientCache.lookup url with
      | some cl => (c, (some cl, none))
      | none =>
        let cl : verifiedCachedClient :=
          { chainID := "", expectedChainID := c.id, nodeURL := url, chainIDVerified := false,
            ReaderWriter := env.net url, calls := [] }
        match (client.NewClient url c.cfg DefaultRequestTimeout (env.remote url)).2 with
        | some err => (c, (none, some ("failed to create client: " ++ err)))
        | none =>
          match c.clientCache.lookup url with
          | none => ({ c with clientCache := c.clientCache ++ [(url, cl)] }, (some cl, none))
          | some cached => (c, (some cached, none))
    | _, _ => (c, (none, some ("node config contains nil: " ++ env.formatNode node)))

/-- The loop of `getClient` over the node indexes to try: the first node whose
`verifiedClient` succeeds; `none` when the loop panics.  After a failed
`verifiedClient` the warning evaluates `node.Name` and `node.URL`, which
panics on a nil node; indexing `nodes[i]` outside the list (which `rand.Perm`
never yields) panics as well. -/
def chain.tryNodes (c : chain) (env : Env) (nodes : List (Option config.Node)) :
    List Nat → Option (chain × Option verifiedCachedClient)
  | [] => some (c, none)
  | i :: rest =>
    match nodes[i]? with
    | none => none
    | some node =>
      match c.verifiedClient env node with
      | (c1, (_, some _)) =>
        match node with
        | none => none
        | some _ => chain.tryNodes c1 env nodes rest
      | (c1, (cl, none)) => some (c1, cl)

/-- The method `chain.getClient`; `perm` is the outcome of
`rand.Perm(len(nodes))`, and `none` is a panic in the loop over the nodes. -/
def chain.getClient (c : chain) (env : Env) (perm : List Nat) :
    Option (chain × Result (Option Handle)) :=
  if c.cfg.MultiNode.Enabled then
    match env.SelectRPC c.multiNode with
    | (some rpcClient, err) => some (c, (some (Handle.multiNode rpcClient), err))
    | (none, err) => some (c, (none, err))
  else
    let nodes := c.cfg.ListNodes
    if nodes.length = 0 then some (c, (none, some "no nodes available"))
    else
      match c.tryNodes env nodes perm with
      | none => none
      | some (c1, none) => some (c1, (none, some "no node valid nodes available"))
      | some (c1, some cl) => some (c1, (some (Handle.verified cl), none))

/-- The method `chain.Reader`. -/
def chain.Reader (c : chain) (env : Env) (perm : List Nat) :
    Option (chain × Result (Option Handle)) :=
  c.getClient env perm

/-- The loop of `newChain` over `cfg.ListNodes()` in multi-node mode, from
index `i` on: the live nodes and the send-only nodes, or the error of
`NewMultiNodeClient`; `none` when a node, its name or its URL is nil (nil
dereference). -/
def newChain.splitNodes (env : Env) (id : String) :
    Nat → List (Option config.Node) → Option (Result (List mn.Node × List mn.SendOnlyNode))
  | _, [] => some (([], []), none)
  | i, nodeInfo :: rest =>
    match nodeInfo with
    | none => none
    | some info =>
      match info.Name, info.URL with
      | some name, some url =>
        match env.NewMultiNodeClientErr url with
        | some err => some (([], []), some ("failed to create client: " ++ err))
        | none =>
          let rpcClient : mn.MultiNodeClient := { url := url, peer := env.net url, calls := [] }
          match newChain.splitNodes env id (i + 1) rest with
          | none => none
          | some (r, some err) => some (r, some err)
          | some ((nodes, sendOnlyNodes), none) =>
            if info.SendOnly then
              some ((nodes, { url := url, name := name, chainID := id, rpc := rpcClient } ::
                sendOnlyNodes), none)
            else
              some (({ url := url, name := name, order := i, chainID := id, rpc := rpcClient } ::
                nodes, sendOnlyNodes), none)
      | _, _ => none

/-- The function `newChain`, as far as the chain's own fields go (the
transaction manager and the balance monitor are built from the chain and are
not part of it here). -/
def newChain (env : Env) (id : String) (cfg : config.TOMLConfig) : Option (Result (Option chain)) :=
  let ch : chain := { id := id, cfg := cfg, multiNode := none, clientCache := [] }
  if cfg.MultiNode.Enabled then
    match newChain.splitNodes env id 0 cfg.ListNodes with
    | none => none
    | some (_, some err) => some (none, some err)
    | some ((nodes, sendOnlyNodes), none) =>
      let multiNode : mn.MultiNode :=
        { nodes := nodes, sendOnlyNodes := sendOnlyNodes, chainID := id }
      some (some { ch with multiNode := some multiNode, clientCache := [] }, none)
  else some (some ch, none)

/-- The text encoding `Blockhash.MarshalText()`: the bytes of the base58
rendering, never an error. -/
def MarshalText (h : solanago.Hash) : Result (List Nat) := (h.data.map Char.toNat, none)

/-- The conversion `uint64(x)` of a signed 64-bit value. -/
def uint64OfInt (x : Int) : Nat := (x % (2 ^ 64 : Int)).toNat

/-- The method `chain.LatestHead`; `none` when it panics (in `getClient`, on a
nil client or on a nil block with a nil error). -/
def chain.LatestHead (c : chain) (env : Env) (perm : List Nat) : Option (Result types.Head) :=
  match (c.getClient env perm).map Prod.snd with
  | none => none
  | some (_, some err) => some (types.Head.zero, some err)
  | some (none, none) => none
  | some (some sc, none) =>
    match sc.GetLatestBlock.2 with
    | (_, some _) => some (types.Head.zero, none)
    | (none, none) => none
    | (some latestBlock, none) =>
      match latestBlock.BlockHeight with
      | none => some (types.Head.zero, some "client returned nil latest block height")
      | some height =>
        match latestBlock.BlockTime with
        | none => some (types.Head.zero, some "client returned nil block time")
        | some blockTime =>
          match MarshalText latestBlock.Blockhash with
          | (_, some err) => some (types.Head.zero, some err)
          | (hashBytes, none) =>
            some ({ Height := toString height, Hash := hashBytes,
                    Timestamp := uint64OfInt blockTime }, none)

/-- The function `solanaValidateBalance`; `amount + fee` is a `uint64` sum. -/
def solanaValidateBalance [strings.Lowering] (reader : Handle) (sender : solanago.PublicKey) (amount : Nat)
    (msg : String) : Option Error :=
  match reader.Balance sender with
  | (_, (_, some err)) => some err
  | (reader1, (balance, none)) =>
    match (reader1.GetFeeForMessage msg).2 with
    | (_, some err) => some err
    | (fee, none) =>
      if balance < (amount + fee) % uint64Size then
        some ("balance " ++ toString balance ++
          " is too low for this transaction to be executed: amount " ++ toString amount ++
          " + fee " ++ toString fee)
      else none

/-- A verified handle on a peer that reports the given balance and fee. -/
def fundedReader (balance fee : Nat) : Handle :=
  Handle.verified
    { chainID := "mainnet", expectedChainID := "mainnet", nodeURL := "http://localhost:8899",
      chainIDVerified := true, calls := [],
      ReaderWriter := { steadyPeer "mainnet" with
        Balance := fun _ _ => (balance, none)
        GetFeeForMessage := fun _ _ => (fee, none) } }

end solana

namespace solana

/-- The verifier after an unsuccessful fetch-and-compare: the reported name is
stored, the call is recorded, the flag is false. -/
def rejected (v : verifiedCachedClient) (strID : String) : verifiedCachedClient :=
  { v with chainID := strID, chainIDVerified := false, calls := v.calls ++ [client.Call.ChainID] }

/-- The verifier after a successful fetch-and-compare. -/
def accepted (v : verifiedCachedClient) (strID : String) : verifiedCachedClient :=
  { v with chainID := strID, chainIDVerified := true, calls := v.calls ++ [client.Call.ChainID] }

/-- The message of the mismatch error of a verifier for a reported name. -/
def mismatchMessage [strings.Lowering] (v : verifiedCachedClient) (strID : String) : String :=
  "client returned mismatched chain id (expected: " ++ strings.ToLower v.expectedChainID ++
    ", got: " ++ strID ++ "): " ++ v.nodeURL

/-- A verifier expecting `mainnet` at `http://rpc.example` on the given peer. -/
def mainnetVerifier (peer : client.ReaderWriter) : verifiedCachedClient :=
  newVerifier "http://rpc.example" "mainnet" peer

/-- Two callers about to call `verifyChainID` on a fresh verifier whose peer
reports `mainnet` once and is unreachable afterwards. -/
def twoCallers : VerifyRun :=
  { v := mainnetVerifier (scriptedPeer ["mainnet"]), pcs := [VerifyPc.entry, VerifyPc.entry] }

/-- A single-node chain `mainnet` with the given endpoints. -/
def singleNodeChain (nodes : List (Option config.Node)) : chain :=
  { id := "mainnet",
    cfg := { ChainID := some "mainnet", Enabled := some true, Nodes := nodes,
             MultiNode := { enabled := false } },
    multiNode := none, clientCache := [] }

/-- An environment in which every endpoint reports the given chain name and
answers every call. -/
def steadyEnv (name : String) : Env := { net := fun _ => steadyPeer name }

/-- An environment in which every endpoint is verified as `mainnet` but fails
to fetch the latest block. -/
def blocklessEnv : Env :=
  { net := fun _ => { steadyPeer "mainnet" with
      GetLatestBlock := fun _ => (none, some "GetLatestBlock.SlotHeight: timeout") } }

end solana

namespace solana

/-- A configuration `mainnet` in multi-node mode with one live endpoint and one
send-only endpoint. -/
def poolConfig : config.TOMLConfig :=
  { ChainID := some "mainnet", Enabled := some true,
    Nodes := [some ⟨some "primary", some "http://rpc.example", false⟩,
              some ⟨some "backup", some "http://send-only.example", true⟩],
    MultiNode := { enabled := true } }

/-- The chain `newChain` builds from `poolConfig`. -/
def poolChain : chain :=
  { id := "mainnet", cfg := poolConfig, clientCache := [],
    multiNode := some
      { nodes := [{ url := "http://rpc.example", name := "primary", order := 0,
                    chainID := "mainnet",
                    rpc := { url := "http://rpc.example", peer := steadyPeer "mainnet",
                             calls := [] } }],
        sendOnlyNodes := [{ url := "http://send-only.example", name := "backup",
                            chainID := "mainnet",
                            rpc := { url := "http://send-only.example",
                                     peer := steadyPeer "mainnet", calls := [] } }],
        chainID := "mainnet" } }

end solana

namespace client

/-- The requests among the events, in order. -/
def requests : List Event → List Request
  | [] => []
  | Event.Rpc req :: rest => req :: requests rest
  | _ :: rest => requests rest

/-- Whether every request among the events is issued by the callback of
`requestGroup.Do`: each `Rpc` event comes right after a `Do` event. -/
def throughRequestGroup : List Event → Bool
  | [] => true
  | Event.Do _ :: Event.Rpc _ :: rest => throughRequestGroup rest
  | Event.Rpc _ :: _ => false
  | _ :: rest => throughRequestGroup rest

/-- The timeout in force at each request among the events, in order: the
duration of the latest `context.WithTimeout` before it, `cur` when there is
none. -/
def timeoutsFrom (cur : Option Nat) : List Event → List (Option Nat)
  | [] => []
  | Event.WithTimeout d :: rest => timeoutsFrom (some d) rest
  | Event.Rpc _ :: rest => cur :: timeoutsFrom cur rest
  | _ :: rest => timeoutsFrom cur rest

/-- The timeout in force at each request among the events of one method. -/
def requestTimeouts (events : List Event) : List (Option Nat) := timeoutsFrom none events

/-- The options `Client.SimulateTx` simulates with. -/
def simulateOpts (c : Client) (opts : Option rpc.SimulateTransactionOpts) :
    rpc.SimulateTransactionOpts :=
  match opts with
  | none => { SigVerify := true, Commitment := c.commitment }
  | some o => o

/-- An endpoint whose JSON-RPC result is `null` for every request; the slot it
reports is 5.  The library's client hands the absent (nil) payload on with a
nil error for `getBalance`, `getLatestBlockhash`, `getFeeForMessage`,
`simulateTransaction` and `getBlocksWithLimit`; for `getBlock` it returns
`ErrNotConfirmed`, and for `getSignatureStatuses` and `getAccountInfo`
`ErrNotFound`. -/
def nilRemote : rpc.Client where
  GetBalance := fun _ _ => (none, none)
  GetSlot := fun _ => (5, none)
  GetAccountInfoWithOpts := fun _ _ => (none, some "not found")
  GetLatestBlockhash := fun _ => (none, none)
  GetGenesisHash := ("", none)
  GetFeeForMessage := fun _ _ => (none, none)
  GetSignatureStatuses := fun _ _ => (none, some "not found")
  SimulateTransactionWithOpts := fun _ _ => (none, none)
  SendTransactionWithOpts := fun _ _ => (solanago.Signature.zero, none)
  GetBlockWithOpts := fun _ _ => (none, some "not confirmed")
  GetBlocksWithLimit := fun _ _ _ => (none, none)

/-- An endpoint that answers with a payload whose value is absent (nil) where
the payload has a value (`getFeeForMessage`, `getSignatureStatuses`,
`simulateTransaction`), and as `nilRemote` elsewhere. -/
def nilValueRemote : rpc.Client :=
  { nilRemote with
    GetFeeForMessage := fun _ _ => (some ⟨none⟩, none)
    GetSignatureStatuses := fun _ _ => (some ⟨none⟩, none)
    SimulateTransactionWithOpts := fun _ _ => (some ⟨none⟩, none) }

end client

namespace strconv

/-- Parsing of decimal digits, most significant first, onto an accumulator:
`none` at a character that is not a digit. -/
def parseDigits (acc : Nat) : List Char → Option Nat
  | [] => some acc
  | ch :: rest =>
    if 48 ≤ ch.toNat ∧ ch.toNat ≤ 57 then parseDigits (acc * 10 + (ch.toNat - 48)) rest
    else none

/-- Parsing of an unsigned decimal numeral (`strconv.ParseUint(s, 10, _)`
without the size bound): `none` for the empty string and at a character that is
not a digit. -/
def parseDecimal (s : String) : Option Nat :=
  if s.data = [] then none else parseDigits 0 s.data

end strconv

namespace txm

/-- Modelled from the spec: the struct `TxConfig` of package `txm` (whose
sources are absent; `TestSetTxConfig` names its fields): timeout, fee-bump
period, base, minimum and maximum compute-unit price, compute-unit limit. -/
structure TxConfig where
  Timeout : Nat
  FeeBumpPeriod : Nat
  BaseComputeUnitPrice : Nat
  ComputeUnitPriceMin : Nat
  ComputeUnitPriceMax : Nat
  ComputeUnitLimit : Nat
deriving DecidableEq, Repr

/-- The empty configuration `TxConfig{}`. -/
def TxConfig.empty : TxConfig := ⟨0, 0, 0, 0, 0, 0⟩

/-- Modelled from the spec: the type `SetTxConfig`, an option applied to a
configuration. -/
abbrev SetTxConfig := TxConfig → TxConfig

/-- Modelled from the spec: `SetTimeout` sets the timeout. -/
def SetTimeout (v : Nat) : SetTxConfig := fun cfg => { cfg with Timeout := v }

/-- Modelled from the spec: `SetFeeBumpPeriod` sets the fee-bump period. -/
def SetFeeBumpPeriod (v : Nat) : SetTxConfig := fun cfg => { cfg with FeeBumpPeriod := v }

/-- Modelled from the spec: `SetBaseComputeUnitPrice` sets the base
compute-unit price. -/
def SetBaseComputeUnitPrice (v : Nat) : SetTxConfig :=
  fun cfg => { cfg with BaseComputeUnitPrice := v }

/-- Modelled from the spec: `SetComputeUnitPriceMin` sets the minimum
compute-unit price. -/
def SetComputeUnitPriceMin (v : Nat) : SetTxConfig :=
  fun cfg => { cfg with ComputeUnitPriceMin := v }

/-- Modelled from the spec: `SetComputeUnitPriceMax` sets the maximum
compute-unit price. -/
def SetComputeUnitPriceMax (v : Nat) : SetTxConfig :=
  fun cfg => { cfg with ComputeUnitPriceMax := v }

/-- Modelled from the spec: `SetComputeUnitLimit` sets the compute-unit
limit. -/
def SetComputeUnitLimit (v : Nat) : SetTxConfig := fun cfg => { cfg with ComputeUnitLimit := v }

/-- The options applied in order to a configuration, as the loop of
`TestSetTxConfig` applies them. -/
def applyAll (opts : List SetTxConfig) (cfg : TxConfig) : TxConfig :=
  opts.foldl (fun acc v => v acc) cfg

/-- One call of `Enqueue`: the account id, the transaction, the transaction id
and the options. -/
structure Enqueued where
  accountID : String
  tx : solanago.Transaction
  txID : Option String
  txCfgs : List SetTxConfig

end txm

namespace solana

/-- The call `LatestBlockhash` on a handle. -/
def Handle.LatestBlockhash [strings.Lowering] : Handle → Handle × Result (Option rpc.GetLatestBlockhashResult)
  | Handle.verified v => (Handle.verified v.LatestBlockhash.1, v.LatestBlockhash.2)
  | Handle.multiNode c =>
    (Handle.multiNode { c with calls := c.calls ++ [client.Call.LatestBlockhash] },
      c.peer.LatestBlockhash c.calls.length)

/-- What `sendTx` calls outside this repository's sources: the base58 decoding
of a public key, the base64 rendering of a message, and the error of the
transaction manager's `Enqueue`. -/
structure TxEnv where
  PublicKeyFromBase58 : String → Result solanago.PublicKey :=
    fun s => if s.isEmpty then ("", some "decode: zero length string") else (s, none)
  ToBase64 : solanago.Message → String := fun m => m.RecentBlockhash
  EnqueueErr : txm.Enqueued → Option Error := fun _ => none

/-- The options `sendTx` passes to `Enqueue`, in order. -/
def sendTxOptions : List txm.SetTxConfig :=
  [txm.SetComputeUnitLimit 500, txm.SetComputeUnitPriceMax 0, txm.SetComputeUnitPriceMin 0,
    txm.SetBaseComputeUnitPrice 0, txm.SetFeeBumpPeriod 0]

/-- The call of `Enqueue` that `sendTx` makes for a transfer: the unsigned
transaction with the one transfer instruction and the from-key as payer, the
empty account id, no transaction id and the options of `sendTxOptions`. -/
def transferCall (amount : Nat) (fromKey toKey : solanago.PublicKey)
    (blockhash : solanago.Hash) : txm.Enqueued :=
  { accountID := "",
    tx := { Message := { Instructions := [solanago.Instruction.systemTransfer amount fromKey toKey],
                         RecentBlockhash := blockhash, FeePayer := fromKey },
            Signatures := [] },
    txID := none, txCfgs := sendTxOptions }

/-- The outcome of `sendTx`: its error, the calls of `Enqueue` it made and
whether it fetched a blockhash. -/
structure SendTxOutcome where
  err : Option Error
  enqueued : List txm.Enqueued
  fetchedBlockhash : Bool

/-- The method `chain.sendTx` (`Transact`); `amount` is the `*big.Int`; `none`
when it panics (in `Reader`, on a nil reader at its first use, on a nil
blockhash result or value with a nil error, on a nil transaction with a nil
error). -/
def chain.sendTx [strings.Lowering] (c : chain) (env : Env) (txEnv : TxEnv) (perm : List Nat)
    (sender recipient : String) (amount : Int) (balanceCheck : Bool) : Option SendTxOutcome :=
  match (c.Reader env perm).map Prod.snd with
  | none => none
  | some (_, some err) => some ⟨some ("chain unreachable: " ++ err), [], false⟩
  | some (reader, none) =>
    match txEnv.PublicKeyFromBase58 sender with
    | (_, some err) => some ⟨some ("failed to parse from key: " ++ err), [], false⟩
    | (fromKey, none) =>
      match txEnv.PublicKeyFromBase58 recipient with
      | (_, some err) => some ⟨some ("failed to parse to key: " ++ err), [], false⟩
      | (toKey, none) =>
        if ¬ (0 ≤ amount ∧ amount < (uint64Size : Int)) then
          some ⟨some ("amount " ++ toString amount ++ " overflows uint64"), [], false⟩
        else
          let amountI := amount.toNat
          match reader.map Handle.LatestBlockhash with
          | none => none
          | some (_, (_, some err)) =>
            some ⟨some ("failed to get latest block hash: " ++ err), [], true⟩
          | some (_, (none, none)) => none
          | some (reader1, (some blockhash, none)) =>
            match blockhash.Value with
            | none => none
            | some value =>
              match solanago.NewTransaction
                  [solanago.Instruction.systemTransfer amountI fromKey toKey]
                  value.Blockhash fromKey with
              | (_, some err) => some ⟨some ("failed to create tx: " ++ err), [], true⟩
              | (none, none) => none
              | (some tx, none) =>
                match (if balanceCheck then
                    solanaValidateBalance reader1 fromKey amountI (txEnv.ToBase64 tx.Message)
                  else none) with
                | some err => some ⟨some ("failed to validate balance: " ++ err), [], true⟩
                | none =>
                  let call : txm.Enqueued :=
                    { accountID := "", tx := tx, txID := none, txCfgs := sendTxOptions }
                  match txEnv.EnqueueErr call with
                  | some err => some ⟨some ("transaction failed: " ++ err), [call], true⟩
                  | none => some ⟨none, [call], true⟩

/-- The method `chain.Transact`. -/
def chain.Transact [strings.Lowering] (c : chain) (env : Env) (txEnv : TxEnv) (perm : List Nat)
    (sender recipient : String) (amount : Int) (balanceCheck : Bool) : Option SendTxOutcome :=
  c.sendTx env txEnv perm sender recipient amount balanceCheck

/-- The URL under which `verifiedClient` can build a verifier for a node: the
node, its name and its URL are not nil. -/
def constructible (node : Option config.Node) : Option String :=
  match node with
  | none => none
  | some node =>
    match node.Name, node.URL with
    | some _, some url => some url
    | _, _ => none

/-- The first node, in the order of the indexes `perm`, that is
constructible: `some (some url)` with its URL, `some none` when every node
tried is present and not constructible, and `none` when a nil node (or an
index outside the list) comes before any constructible node. -/
def firstConstructible (nodes : List (Option config.Node)) : List Nat → Option (Option String)
  | [] => some none
  | i :: rest =>
    match nodes[i]? with
    | none => none
    | some none => none
    | some (some node) =>
      match constructible (some node) with
      | some url => some (some url)
      | none => firstConstructible nodes rest

/-- The registry after a request for the URL, and the verifier it answers
with: the cached verifier when there is one, else a fresh unverified verifier
expecting the chain's id, appended to the cache. -/
def chain.lookupOrInsert (c : chain) (env : Env) (url : String) : chain × verifiedCachedClient :=
  match c.clientCache.lookup url with
  | some cl => (c, cl)
  | none =>
    ({ c with clientCache := c.clientCache ++ [(url, newVerifier url c.id (env.net url))] },
      newVerifier url c.id (env.net url))

/-- A cache entry as `verifiedClient` inserts it for a chain id: under its
own URL, unverified, expecting the chain id, with no chain id observed and no
call made. -/
def freshEntry (id : String) (p : String × verifiedCachedClient) : Prop :=
  p.2.chainIDVerified = false ∧ p.2.expectedChainID = id ∧ p.2.nodeURL = p.1 ∧
    p.2.chainID = "" ∧ p.2.calls = []

/-- The chain `c1` is `c` with fresh entries appended to the client cache. -/
def chain.extendedBy (c c1 : chain) : Prop :=
  c1.id = c.id ∧ c1.cfg = c.cfg ∧
    ∃ extra, c1.clientCache = c.clientCache ++ extra ∧ ∀ p ∈ extra, freshEntry c.id p

/-- A single-node chain with two endpoints `a` and `b`. -/
def twoNodeChain : chain :=
  singleNodeChain [some ⟨some "a", some "http://a.example", false⟩,
    some ⟨some "b", some "http://b.example", false⟩]

/-- A single-node chain with one endpoint whose peer reports `mainnet`,
balance 1000 and fee 5000, and a latest blockhash. -/
def transferChain : chain :=
  singleNodeChain [some ⟨some "primary", some "http://rpc.example", false⟩]

/-- An environment whose endpoints report `mainnet`, a latest blockhash and a
balance of 1000000. -/
def transferEnv : Env :=
  { net := fun _ => { steadyPeer "mainnet" with
      Balance := fun _ _ => (1000000, none)
      LatestBlockhash := fun _ => (some ⟨some ⟨"blockhash", 100⟩⟩, none) } }

/-- The outcome of a checked transfer of 7 lamports from `alice` to `bob` on
`transferChain`. -/
def transferOutcome : SendTxOutcome :=
  { err := none, fetchedBlockhash := true,
    enqueued :=
      [{ accountID := "",
         tx := { Message := { Instructions := [solanago.Instruction.systemTransfer 7 "alice" "bob"],
                              RecentBlockhash := "blockhash", FeePayer := "alice" },
                 Signatures := [] },
         txID := none, txCfgs := sendTxOptions }] }

/-- A call on the registry: `verifiedClient` for a node, or `Reader()` with the
outcome of its random permutation. -/
inductive RegistryCall where
  | verifiedClient (node : Option config.Node)
  | Reader (perm : List Nat)

/-- Run one call on the registry; the verifier it returns, if any.  A
`Reader()` that panics returns nothing, and leaves the registry as the loop
had made it when it panicked: that is the registry before the call, since
only a successful `verifiedClient`, which ends the loop, inserts. -/
def RegistryCall.run (env : Env) : RegistryCall → chain → chain × Option verifiedCachedClient
  | RegistryCall.verifiedClient node, c =>
    ((c.verifiedClient env node).1, (c.verifiedClient env node).2.1)
  | RegistryCall.Reader perm, c =>
    match c.Reader env perm with
    | none => (c, none)
    | some (c1, (some (Handle.verified v), _)) => (c1, some v)
    | some (c1, _) => (c1, none)

/-- Run a sequence of calls on the registry. -/
def runRegistry (env : Env) (c : chain) (calls : List RegistryCall) : chain :=
  calls.foldl (fun acc call => (call.run env acc).1) c

/-- The URLs of the client cache, in insertion order. -/
def chain.cachedURLs (c : chain) : List String := c.clientCache.map Prod.fst

end solana

namespace chains

/-- The error `chains.ErrOutOfRange`. -/
def ErrOutOfRange : Error := "out of range"

end chains

namespace types

/-- The struct `types.NodeStatus`. -/
structure NodeStatus where
  ChainID : String
  Name : String
  Config : String
  State : String
deriving DecidableEq, Repr

end types

namespace solana

/-- The loop of `listNodeStatuses` over the nodes of a page: the statuses
collected so far and the first conversion error; `NodeStatus` is
`config.NodeStatus`, whose source is absent. -/
def collectNodeStatuses (NodeStatus : Option config.Node → String → Result types.NodeStatus)
    (chainID : String) : List (Option config.Node) → List types.NodeStatus →
    List types.NodeStatus × Option Error
  | [], stats => (stats, none)
  | node :: rest, stats =>
    match NodeStatus node chainID with
    | (_, some err) => (stats, some err)
    | (stat, none) => collectNodeStatuses NodeStatus chainID rest (stats ++ [stat])

/-- The method `chain.listNodeStatuses`: the statuses, the total and the
error; `none` when the slice `Nodes[start:end]` panics (negative start, or end
below start). -/
def chain.listNodeStatuses (c : chain)
    (NodeStatus : Option config.Node → String → Result types.NodeStatus) (start stop : Int) :
    Option (List types.NodeStatus × Int × Option Error) :=
  let total : Int := c.cfg.Nodes.length
  if start ≥ total then some ([], total, some chains.ErrOutOfRange)
  else
    let stop1 := if stop > total then total else stop
    if start < 0 ∨ stop1 < start then none
    else
      let nodes := (c.cfg.Nodes.drop start.toNat).take (stop1 - start).toNat
      let r := collectNodeStatuses NodeStatus c.id nodes []
      some (r.1, total, r.2)

/-- A conversion of nodes that never fails: the status carries the name and the
URL of the node. -/
def plainNodeStatus (node : Option config.Node) (chainID : String) : Result types.NodeStatus :=
  match node with
  | none => (⟨"", "", "", ""⟩, some "nil node")
  | some n => (⟨chainID, n.Name.getD "", n.URL.getD "", ""⟩, none)

end solana

namespace time

/-- The smallest `Duration`, in nanoseconds. -/
def minDuration : Int := -(2 ^ 63)

/-- The largest `Duration`, in nanoseconds. -/
def maxDuration : Int := 2 ^ 63 - 1

/-- The method `Time.Sub`: the difference `t - u` in nanoseconds, saturated to
the range of `Duration` (`int64`); instants are nanoseconds on one time line. -/
def Sub (t u : Int) : Int :=
  if t - u > maxDuration then maxDuration
  else if t - u < minDuration then minDuration
  else t - u

/-- The function `time.Since` when the current time is `now`. -/
def Since (now t : Int) : Int := Sub now t

end time

namespace errors

/-- The function `errors.Wrap` of `github.com/pkg/errors`: nil for a nil
error, else the message in front of the error. -/
def Wrap (err : Option Error) (message : String) : Option Error :=
  match err with
  | none => none
  | some e => some (message ++ ": " ++ e)

/-- The function `errors.Wrapf` of `github.com/pkg/errors`, with the message
already formatted: nil for a nil error. -/
def Wrapf (err : Option Error) (message : String) : Option Error := Wrap err message

end errors

namespace solana

/-- The size of `uint32`. -/
def uint32Size : Nat := 2 ^ 32

/-- The struct `State` of the tracked contract, as far as `contract.go` reads
it (its declaration is absent): the version and the latest config digest. -/
structure State where
  Version : Nat
  LatestConfigDigest : List Nat
deriving DecidableEq, Repr

/-- The struct `Answer`: the data (a `*big.Int`) and the timestamp. -/
structure Answer where
  Data : Option Int
  Timestamp : Nat
deriving DecidableEq, Repr

/-- The zero value `Answer{}`. -/
def Answer.zero : Answer := ⟨none, 0⟩

/-- The struct `TransmissionsHeader`, as far as `GetLatestTransmission` reads
it (its declaration is absent): the version, and the live length and live
cursor, 32-bit unsigned. -/
structure TransmissionsHeader where
  Version : Nat
  LiveLength : Nat
  LiveCursor : Nat
deriving DecidableEq, Repr

/-- The struct `Transmission`: the answer and the timestamp. -/
structure Transmission where
  Answer : Int
  Timestamp : Nat
deriving DecidableEq, Repr

/-- What `GetLatestTransmission` uses and `contract.go` does not declare: the
constants `HeaderLen` and `TransmissionLen` (`uint64`) and the binary decoders
of the header and of a transmission. -/
structure FeedLayout where
  HeaderLen : Nat
  TransmissionLen : Nat
  decodeHeader : List Nat → Result TransmissionsHeader
  decodeTransmission : List Nat → Result Transmission

/-- The struct `ContractTracker`, as far as `ReadState` and `ReadAnswer` read
it: the tracked state and answer, the instants they were stored at and the
stale timeout, in nanoseconds. -/
structure ContractTracker where
  state : State
  answer : Answer
  stateTime : Int
  ansTime : Int
  staleTimeout : Int
deriving DecidableEq, Repr

/-- The method `ContractTracker.ReadState` when the current time is `now`: the
tracker after the call, the state and the error. -/
def ContractTracker.ReadState (c : ContractTracker) (now : Int) :
    ContractTracker × State × Option Error :=
  let err : Option Error :=
    if time.Since now c.stateTime > c.staleTimeout then
      some "error in ReadState: stale state data, polling is likely experiencing errors"
    else none
  (c, c.state, err)

/-- The method `ContractTracker.ReadAnswer` when the current time is `now`. -/
def ContractTracker.ReadAnswer (c : ContractTracker) (now : Int) :
    ContractTracker × Answer × Option Error :=
  let err : Option Error :=
    if time.Since now c.ansTime > c.staleTimeout then
      some "error in ReadAnswer: stale answer data, polling is likely experiencing errors"
    else none
  (c, c.answer, err)

/-- A tracker that has stored nothing yet (both instants are the zero time)
and whose stale timeout is the largest `Duration`. -/
def patientTracker : ContractTracker :=
  { state := ⟨0, []⟩, answer := Answer.zero, stateTime := 0, ansTime := 0,
    staleTimeout := 9223372036854775807 }

/-- A tracker whose state and answer were stored at instant 1000, with a stale
timeout of one minute. -/
def minuteTracker : ContractTracker :=
  { state := ⟨1, [1, 2]⟩, answer := ⟨some 5, 7⟩, stateTime := 1000, ansTime := 1000,
    staleTimeout := 60000000000 }

/-- The index of the latest answer that `GetLatestTransmission` computes from
the header (`cursor` after the wrap handling and the decrement), in `uint32`
arithmetic. -/
def latestCursor (header : TransmissionsHeader) : Nat :=
  let cursor := if header.LiveCursor = 0 then header.LiveLength else header.LiveCursor
  (cursor + uint32Size - 1) % uint32Size

/-- The byte offset `transmissionOffset` that `GetLatestTransmission` computes,
in `uint64` arithmetic. -/
def transmissionOffset (layout : FeedLayout) (header : TransmissionsHeader) : Nat :=
  (8 + 192 + (latestCursor header * layout.TransmissionLen) % uint64Size) % uint64Size

/-- The outcome of `GetLatestTransmission`: the options of the requests it
made, in order, and its result (answer, slot, error), `none` when it panics
(a nil result or a nil account with a nil error). -/
structure TransmissionOutcome where
  requests : List rpc.GetAccountInfoOpts
  out : Option (Answer × Nat × Option Error)

/-- The function `GetLatestTransmission`. -/
def GetLatestTransmission (remote : rpc.Client) (layout : FeedLayout)
    (account : solanago.PublicKey) (rpcCommitment : rpc.CommitmentType) : TransmissionOutcome :=
  let opts1 : rpc.GetAccountInfoOpts :=
    { Encoding := "base64", Commitment := rpcCommitment,
      DataSlice := some { Offset := some 8, Length := some layout.HeaderLen } }
  match remote.GetAccountInfoWithOpts account (some opts1) with
  | (_, some err) =>
    ⟨[opts1], some (Answer.zero, 0, errors.Wrap (some err) "error on rpc.GetAccountInfo [cursor]")⟩
  | (res, none) =>
    match res.bind (fun r => r.Value) with
    | none => ⟨[opts1], none⟩
    | some account1 =>
      match layout.decodeHeader account1.Data with
      | (_, some err) =>
        ⟨[opts1], some (Answer.zero, 0,
          errors.Wrap (some err) "failed to decode transmission account header")⟩
      | (header, none) =>
        if header.Version ≠ 2 then
          -- the wrapped `err` is the error of the request, nil on this path
          ⟨[opts1], some (Answer.zero, 0,
            errors.Wrapf none ("can't parse feed version " ++ toString header.Version))⟩
        else
          let opts2 : rpc.GetAccountInfoOpts :=
            { Encoding := "base64", Commitment := rpcCommitment,
              DataSlice := some { Offset := some (transmissionOffset layout header),
                                  Length := some layout.TransmissionLen } }
          match remote.GetAccountInfoWithOpts account (some opts2) with
          | (_, some err) =>
            ⟨[opts1, opts2], some (Answer.zero, 0,
              errors.Wrap (some err) "error on rpc.GetAccountInfo [transmission]")⟩
          | (res2, none) =>
            match res2 with
            | none => ⟨[opts1, opts2], none⟩
            | some r2 =>
              match r2.Value with
              | none => ⟨[opts1, opts2], none⟩
              | some account2 =>
                match layout.decodeTransmission account2.Data with
                | (_, some err) =>
                  ⟨[opts1, opts2], some (Answer.zero, 0,
                    errors.Wrap (some err) "failed to decode transmission")⟩
                | (t, none) =>
                  ⟨[opts1, opts2],
                    some ({ Data := some t.Answer, Timestamp := t.Timestamp }, r2.Slot, none)⟩

/-- A layout with a header of 192 bytes and transmissions of 48 bytes, whose
decoders read the header fields from the first three bytes and the
transmission from the first two. -/
def sampleLayout : FeedLayout where
  HeaderLen := 192
  TransmissionLen := 48
  decodeHeader := fun data =>
    match data with
    | v :: l :: c :: _ => (⟨v, l, c⟩, none)
    | _ => (⟨0, 0, 0⟩, some "unexpected EOF")
  decodeTransmission := fun data =>
    match data with
    | a :: t :: _ => (⟨a, t⟩, none)
    | _ => (⟨0, 0⟩, some "unexpected EOF")

/-- An endpoint whose transmissions account starts with the given header bytes
and holds the transmission `(7, 9)` at every requested offset. -/
def feedRemote (headerBytes : List Nat) : rpc.Client :=
  { GetAccountInfoWithOpts := fun _ opts =>
      match opts.bind (fun o => o.DataSlice) with
      | some ⟨some 8, _⟩ => (some ⟨100, some ⟨1, "store", headerBytes⟩⟩, none)
      | _ => (some ⟨100, some ⟨1, "store", [7, 9]⟩⟩, none) }

/-- An endpoint holding one account with the given data, read at slot 100: a
request with a data slice is answered with the bytes of that slice of the
data. -/
def sliceRemote (data : List Nat) : rpc.Client :=
  { GetAccountInfoWithOpts := fun _ opts =>
      match opts.bind (fun o => o.DataSlice) with
      | some ⟨some offset, some length⟩ =>
        (some ⟨100, some ⟨1, "store", (data.drop offset).take length⟩⟩, none)
      | _ => (some ⟨100, some ⟨1, "store", data⟩⟩, none) }

/-- The data of a transmissions account in `sampleLayout`: the discriminator
(8 bytes), the header area (192 bytes) with a header of version 2, live length
5 and the given live cursor, and a ring of 5 transmissions of 48 bytes, the
one at index `i` with answer `10 + i` and timestamp `20 + i`. -/
def ringAccount (cursor : Nat) : List Nat :=
  List.replicate 8 0 ++ ([2, 5, cursor] ++ List.replicate 189 0) ++
    ([10, 20] ++ List.replicate 46 0) ++ ([11, 21] ++ List.replicate 46 0) ++
    ([12, 22] ++ List.replicate 46 0) ++ ([13, 23] ++ List.replicate 46 0) ++
    ([14, 24] ++ List.replicate 46 0)

end solana

/-! ## The chain-ID verifier -/

namespace solana

open verifiedCachedClient

/-- The write-locked section when the fetch fails. -/
theorem writeSection_fetch_failed [strings.Lowering] (v : verifiedCachedClient) (strID : String) (e : Error)
    (h : v.ReaderWriter.ChainID v.now = (strID, some e)) :
    v.writeSection = (rejected v strID, false,
      some ("failed to fetch ChainID in verifiedCachedClient: " ++ e)) := by
  simp [writeSection, h, record, rejected]

/-- The write-locked section when the reported name differs from the lowercased
expected id. -/
theorem writeSection_mismatch [strings.Lowering] (v : verifiedCachedClient) (strID : String)
    (h : v.ReaderWriter.ChainID v.now = (strID, none))
    (hne : strID ≠ strings.ToLower v.expectedChainID) :
    v.writeSection = (rejected v strID, false, some (mismatchMessage v strID)) := by
  simp [writeSection, h, record, rejected, mismatchMessage, hne]

/-- The write-locked section when the reported name is the lowercased expected
id. -/
theorem writeSection_match [strings.Lowering] (v : verifiedCachedClient) (strID : String)
    (h : v.ReaderWriter.ChainID v.now = (strID, none))
    (heq : strID = strings.ToLower v.expectedChainID) :
    v.writeSection = (accepted v strID, true, none) := by
  simp [writeSection, h, record, heq, accepted]

/-- The three outcomes of the write-locked section. -/
theorem writeSection_cases [strings.Lowering] (v : verifiedCachedClient) :
    (∃ strID e, v.ReaderWriter.ChainID v.now = (strID, some e) ∧
      v.writeSection = (rejected v strID, false,
        some ("failed to fetch ChainID in verifiedCachedClient: " ++ e))) ∨
    (∃ strID, v.ReaderWriter.ChainID v.now = (strID, none) ∧
      strID ≠ strings.ToLower v.expectedChainID ∧
      v.writeSection = (rejected v strID, false, some (mismatchMessage v strID))) ∨
    (∃ strID, v.ReaderWriter.ChainID v.now = (strID, none) ∧
      strID = strings.ToLower v.expectedChainID ∧
      v.writeSection = (accepted v strID, true, none)) := by
  rcases hc : v.ReaderWriter.ChainID v.now with ⟨strID, _ | e⟩
  · by_cases hm : strID = strings.ToLower v.expectedChainID
    · exact Or.inr (Or.inr ⟨strID, rfl, hm, writeSection_match v strID hc hm⟩)
    · exact Or.inr (Or.inl ⟨strID, rfl, hm, writeSection_mismatch v strID hc hm⟩)
  · exact Or.inl ⟨strID, e, rfl, writeSection_fetch_failed v strID e hc⟩

/-- The fast path: a verified verifier answers without touching anything. -/
theorem verifyChainID_of_verified [strings.Lowering] (v : verifiedCachedClient) (h : v.chainIDVerified = true) :
    v.verifyChainID = (v, true, none) := by
  simp [verifyChainID, readSection, h]

/-- The slow path: an unverified verifier runs the write-locked section. -/
theorem verifyChainID_of_unverified [strings.Lowering] (v : verifiedCachedClient) (h : v.chainIDVerified = false) :
    v.verifyChainID = v.writeSection := by
  simp [verifyChainID, readSection, h]

/-- The flag `verifyChainID` leaves in the verifier is the one it returns. -/
theorem verifyChainID_flag [strings.Lowering] (v : verifiedCachedClient) :
    v.verifyChainID.1.chainIDVerified = v.verifyChainID.2.1 := by
  cases h : v.chainIDVerified
  · rw [verifyChainID_of_unverified v h]
    rcases writeSection_cases v with ⟨s, e, -, hw⟩ | ⟨s, -, -, hw⟩ | ⟨s, -, -, hw⟩ <;>
      simp [hw, rejected, accepted]
  · simp [verifyChainID_of_verified v h, h]

/-- The error `verifyChainID` returns is nil exactly when it returns true. -/
theorem verifyChainID_err [strings.Lowering] (v : verifiedCachedClient) :
    v.verifyChainID.2.2 = none ↔ v.verifyChainID.2.1 = true := by
  cases h : v.chainIDVerified
  · rw [verifyChainID_of_unverified v h]
    rcases writeSection_cases v with ⟨s, e, -, hw⟩ | ⟨s, -, -, hw⟩ | ⟨s, -, -, hw⟩ <;>
      simp [hw]
  · simp [verifyChainID_of_verified v h]

/-- The call `verifyChainID` keeps the peer, the expected id and the URL. -/
theorem verifyChainID_frame [strings.Lowering] (v : verifiedCachedClient) :
    v.verifyChainID.1.ReaderWriter = v.ReaderWriter ∧
    v.verifyChainID.1.expectedChainID = v.expectedChainID ∧
    v.verifyChainID.1.nodeURL = v.nodeURL := by
  cases h : v.chainIDVerified
  · rw [verifyChainID_of_unverified v h]
    rcases writeSection_cases v with ⟨s, e, -, hw⟩ | ⟨s, -, -, hw⟩ | ⟨s, -, -, hw⟩ <;>
      simp [hw, rejected, accepted]
  · simp [verifyChainID_of_verified v h]

/-- An operation whose verification fails returns what `verifyChainID` left and
its error, without any further call. -/
theorem Op.run_of_unverified [strings.Lowering] (op : Op) (v : verifiedCachedClient)
    (h : v.verifyChainID.2.1 = false) :
    op.run v = (v.verifyChainID.1, v.verifyChainID.2.2) := by
  rcases hv : v.verifyChainID with ⟨v1, b, e⟩
  rw [hv] at h
  simp only at h
  subst h
  cases op <;>
    simp [Op.run, verifiedCachedClient.SendTx, verifiedCachedClient.SimulateTx,
      verifiedCachedClient.SignatureStatuses, verifiedCachedClient.Balance,
      verifiedCachedClient.SlotHeight, verifiedCachedClient.LatestBlockhash,
      verifiedCachedClient.ChainID, verifiedCachedClient.GetFeeForMessage,
      verifiedCachedClient.GetAccountInfoWithOpts, hv]

end solana

namespace solana

/-- Run on an unverified verifier whose peer keeps reporting a name other than
the lowercased expected id, every operation is rejected with the mismatch
message, and the only calls made on the peer are `ChainID` fetches. -/
theorem runOps_mismatch [strings.Lowering] (Y : String) (ops : List Op) :
    ∀ v : verifiedCachedClient, v.chainIDVerified = false →
      (∀ n, v.ReaderWriter.ChainID n = (Y, none)) →
      Y ≠ strings.ToLower v.expectedChainID →
      (runOps v ops).1.chainIDVerified = false ∧
      (runOps v ops).1.ReaderWriter = v.ReaderWriter ∧
      (runOps v ops).1.expectedChainID = v.expectedChainID ∧
      (runOps v ops).1.nodeURL = v.nodeURL ∧
      (runOps v ops).1.calls = v.calls ++ List.replicate ops.length client.Call.ChainID ∧
      (runOps v ops).2 = List.replicate ops.length (some (mismatchMessage v Y)) := by
  induction ops with
  | nil => intro v hunv _ _; simp [runOps, hunv]
  | cons op rest ih =>
    intro v hunv hpeer hne
    have hver : v.verifyChainID = (rejected v Y, false, some (mismatchMessage v Y)) := by
      rw [verifyChainID_of_unverified v hunv]
      exact writeSection_mismatch v Y (hpeer v.now) hne
    have hrun : op.run v = (rejected v Y, some (mismatchMessage v Y)) := by
      rw [Op.run_of_unverified op v (by rw [hver]), hver]
    have h := ih (rejected v Y) rfl hpeer hne
    simp only [runOps, hrun]
    obtain ⟨h1, h2, h3, h4, h5, h6⟩ := h
    refine ⟨h1, h2, h3, h4, ?_, ?_⟩
    · rw [h5]
      simp [rejected, List.replicate_succ]
    · rw [h6]
      simp [List.replicate_succ, mismatchMessage, rejected]

/-- Run on an unverified verifier whose peer never again reports the
lowercased expected id without error, every operation fails and the verifier
stays unverified. -/
theorem runOps_all_fail [strings.Lowering] (ops : List Op) :
    ∀ v : verifiedCachedClient, v.chainIDVerified = false →
      (∀ n, v.now ≤ n →
        v.ReaderWriter.ChainID n ≠ (strings.ToLower v.expectedChainID, none)) →
      (runOps v ops).1.chainIDVerified = false ∧
      (runOps v ops).2.length = ops.length ∧
      ∀ r ∈ (runOps v ops).2, r ≠ none := by
  induction ops with
  | nil => intro v hunv _; simp [runOps, hunv]
  | cons op rest ih =>
    intro v hunv hbad
    have hver : ∃ s e, v.verifyChainID = (rejected v s, false, some e) := by
      rw [verifyChainID_of_unverified v hunv]
      rcases writeSection_cases v with ⟨s, e, -, hw⟩ | ⟨s, -, -, hw⟩ | ⟨s, hc, hm, -⟩
      · exact ⟨s, _, hw⟩
      · exact ⟨s, _, hw⟩
      · exact absurd (hm ▸ hc) (hbad v.now (le_refl _))
    obtain ⟨s, e, hver⟩ := hver
    have hrun : op.run v = (rejected v s, some e) := by
      rw [Op.run_of_unverified op v (by rw [hver]), hver]
    have h := ih (rejected v s) rfl (fun n hn => hbad n (by
      have : (rejected v s).now = v.now + 1 := by
        simp [rejected, verifiedCachedClient.now]
      omega))
    simp only [runOps, hrun]
    obtain ⟨h1, h2, h3⟩ := h
    refine ⟨h1, by simp [h2], ?_⟩
    intro r hr
    rcases List.mem_cons.1 hr with rfl | hr
    · simp
    · exact h3 r hr

/-- Run without interference, an operation on a verified verifier leaves it
verified. -/
theorem Op.run_keeps_verified [strings.Lowering] (op : Op) (v : verifiedCachedClient)
    (h : v.chainIDVerified = true) : (op.run v).1.chainIDVerified = true := by
  have hv := verifyChainID_of_verified v h
  cases op <;>
    simp [Op.run, verifiedCachedClient.SendTx, verifiedCachedClient.SimulateTx,
      verifiedCachedClient.SignatureStatuses, verifiedCachedClient.Balance,
      verifiedCachedClient.SlotHeight, verifiedCachedClient.LatestBlockhash,
      verifiedCachedClient.ChainID, verifiedCachedClient.GetFeeForMessage,
      verifiedCachedClient.GetAccountInfoWithOpts, verifiedCachedClient.record, hv, h]

/-- C1, evaluated on the code: on a verifier expecting `mainnet` whose peer
reports `devnet`, the nine operations declared on the verifier fail (here
`Balance` and `SendTx`) and leave the flag false, but `GetLatestBlock`,
`GetBlock` and `GetBlocksWithLimit`, which the verifier inherits from the
wrapped peer, return the peer's successful result. -/
theorem unverified_block_reads_reach_peer :
    ((mainnetVerifier (steadyPeer "devnet")).Balance "payer").2 =
      (0, some "client returned mismatched chain id (expected: mainnet, got: devnet): http://rpc.example") ∧
    ((mainnetVerifier (steadyPeer "devnet")).SendTx solanago.sampleTx).2.2 =
      some "client returned mismatched chain id (expected: mainnet, got: devnet): http://rpc.example" ∧
    ((mainnetVerifier (steadyPeer "devnet")).Balance "payer").1.chainIDVerified = false ∧
    (mainnetVerifier (steadyPeer "devnet")).GetLatestBlock.2 =
      (some ⟨"hash", some 7, some 1700000000⟩, none) ∧
    (mainnetVerifier (steadyPeer "devnet")).GetLatestBlock.1.chainIDVerified = false ∧
    ((mainnetVerifier (steadyPeer "devnet")).GetBlock 12).2 =
      (some ⟨"hash", some 12, some 1700000000⟩, none) ∧
    ((mainnetVerifier (steadyPeer "devnet")).GetBlocksWithLimit 5 1).2 = (some [5], none) ∧
    (((mainnetVerifier (steadyPeer "devnet")).Balance "payer").1.GetBlock 12).2 =
      (some ⟨"hash", some 12, some 1700000000⟩, none) := by
  decide

/-- C2, evaluated on the code: two callers of `verifyChainID` both see the flag
false; the first verifies the peer (flag true); the second, whose fetch fails,
then runs its write-locked section without re-reading the flag and sets it back
to false. -/
theorem interleaved_verify_resets_flag :
    (twoCallers.run [0, 1]).pcs = [VerifyPc.awaitingLock, VerifyPc.awaitingLock] ∧
    (twoCallers.run [0, 1, 0]).v.chainIDVerified = true ∧
    (twoCallers.run [0, 1, 0]).pcs = [VerifyPc.returned true none, VerifyPc.awaitingLock] ∧
    (twoCallers.run [0, 1, 0, 1]).v.chainIDVerified = false := by
  decide

/-- C3, as stated, fails: a peer reporting `Mainnet` has the same lowercase as
the expected id `mainnet`, and `verifyChainID` rejects it. -/
theorem verifyChainID_rejects_uppercase_report :
    strings.ToLower "Mainnet" = strings.ToLower "mainnet" ∧
    (mainnetVerifier (steadyPeer "Mainnet")).verifyChainID.2 =
      (false, some "client returned mismatched chain id (expected: mainnet, got: Mainnet): http://rpc.example") := by
  decide

/-- C3, amended: `verifyChainID` returns true with a nil error exactly when the
verifier is already verified, or the fetch succeeds and the name the peer
reports, as reported, equals the lowercase of the expected chain id. -/
theorem verifyChainID_succeeds_iff [strings.Lowering] (v : verifiedCachedClient) :
    (v.verifyChainID.2.1 = true ∧ v.verifyChainID.2.2 = none) ↔
      (v.chainIDVerified = true ∨
        ((v.ReaderWriter.ChainID v.now).2 = none ∧
          (v.ReaderWriter.ChainID v.now).1 = strings.ToLower v.expectedChainID)) := by
  cases h : v.chainIDVerified
  · rw [verifyChainID_of_unverified v h]
    rcases writeSection_cases v with ⟨s, e, hc, hw⟩ | ⟨s, hc, hm, hw⟩ | ⟨s, hc, hm, hw⟩
    · simp [hw, hc]
    · simp [hw, hc, hm]
    · simp [hw, hc, hm]
  · simp [verifyChainID_of_verified v h]

/-- C4: on an unverified verifier whose peer always reports `Y`, different from
the lowercased expected id `X`, every operation of any sequence (calls of
`Balance` and of `verifyChainID` among them) fails with the same error
`client returned mismatched chain id (expected: X, got: Y): <url>`, the flag
stays false, the peer receives `ChainID` fetches only, and a further `Balance`
returns 0 with that error. -/
theorem mismatch_fails_identically [strings.Lowering] (v : verifiedCachedClient) (Y : String) (ops : List Op)
    (hunv : v.chainIDVerified = false)
    (hpeer : ∀ n, v.ReaderWriter.ChainID n = (Y, none))
    (hne : Y ≠ strings.ToLower v.expectedChainID) :
    (runOps v ops).1.chainIDVerified = false ∧
    (runOps v ops).2 = List.replicate ops.length
      (some ("client returned mismatched chain id (expected: " ++
        strings.ToLower v.expectedChainID ++ ", got: " ++ Y ++ "): " ++ v.nodeURL)) ∧
    (runOps v ops).1.calls = v.calls ++ List.replicate ops.length client.Call.ChainID ∧
    (∀ addr, ((runOps v ops).1.Balance addr).2 =
      (0, some ("client returned mismatched chain id (expected: " ++
        strings.ToLower v.expectedChainID ++ ", got: " ++ Y ++ "): " ++ v.nodeURL))) ∧
    (∀ addr, ((runOps v ops).1.Balance addr).1.calls =
      v.calls ++ List.replicate (ops.length + 1) client.Call.ChainID) := by
  obtain ⟨h1, h2, h3, h4, h5, h6⟩ := runOps_mismatch Y ops v hunv hpeer hne
  have hlast := fun addr =>
    runOps_mismatch Y [Op.Balance addr] (runOps v ops).1 h1 (by rw [h2]; exact hpeer)
      (by rw [h3]; exact hne)
  refine ⟨h1, h6, h5, ?_, ?_⟩
  · intro addr
    have hv : (runOps v ops).1.verifyChainID =
        (rejected (runOps v ops).1 Y, false, some (mismatchMessage (runOps v ops).1 Y)) := by
      rw [verifyChainID_of_unverified _ h1]
      exact writeSection_mismatch _ Y (by rw [h2]; exact hpeer _) (by rw [h3]; exact hne)
    simp [verifiedCachedClient.Balance, hv, mismatchMessage, h3, h4]
  · intro addr
    have := (hlast addr).2.2.2.2.1
    simp only [runOps, Op.run] at this
    rw [this, h5, List.replicate_succ' ops.length]
    simp

/-- C4, at a concrete input: a verifier expecting `mainnet` on a peer reporting
`devnet`, after `Balance`, `verifyChainID`, `Balance`. -/
theorem mismatch_fails_identically_witness :
    (mainnetVerifier (steadyPeer "devnet")).chainIDVerified = false ∧
    "devnet" ≠ strings.ToLower (mainnetVerifier (steadyPeer "devnet")).expectedChainID ∧
    (runOps (mainnetVerifier (steadyPeer "devnet"))
      [Op.Balance "payer", Op.verifyChainID, Op.Balance "payer"]).2 =
      List.replicate 3 (some ("client returned mismatched chain id (expected: " ++
        strings.ToLower "mainnet" ++ ", got: " ++ "devnet" ++ "): " ++ "http://rpc.example")) :=
  ⟨rfl, by decide,
    (mismatch_fails_identically (mainnetVerifier (steadyPeer "devnet")) "devnet"
      [Op.Balance "payer", Op.verifyChainID, Op.Balance "payer"] rfl (fun _ => rfl)
      (by decide)).2.1⟩

end solana

namespace solana

/-- C5, as stated, fails: the first `Balance` on a verifier expecting `mainnet`
fails with a chain-id mismatch (the peer reported `devnet`); the peer then
reports `mainnet`, and the second `Balance` on the same verifier succeeds with
the peer's balance. -/
theorem rejected_peer_recovers :
    ((mainnetVerifier (scriptedPeer ["devnet", "mainnet"])).Balance "payer").2 =
      (0, some "client returned mismatched chain id (expected: mainnet, got: devnet): http://rpc.example") ∧
    (((mainnetVerifier (scriptedPeer ["devnet", "mainnet"])).Balance "payer").1.Balance
      "payer").2 = (1000, none) ∧
    (((mainnetVerifier (scriptedPeer ["devnet", "mainnet"])).Balance "payer").1.Balance
      "payer").1.chainIDVerified = true := by
  decide

/-- C5, amended: when the verification of an operation fails, the operation
fails with the verification error and leaves the verifier unverified; every
later operation that verifies the chain id (the nine methods declared on the
verifier, and `verifyChainID`) fetches the peer's chain id again, so all of
them fail for every sequence of later answers that are errors or names other
than the lowercased expected id, and the next verification succeeds when the
next answer is the lowercased expected id; `GetLatestBlock`, `GetBlock` and
`GetBlocksWithLimit`, which verify nothing, return on the rejected verifier
whatever the wrapped peer returns and leave it unverified. -/
theorem rejection_lasts_while_mismatch_lasts [strings.Lowering] (v : verifiedCachedClient) (op : Op)
    (ops : List Op) (hfail : v.verifyChainID.2.1 = false) :
    (op.run v).2 = v.verifyChainID.2.2 ∧ (op.run v).2 ≠ none ∧
    (op.run v).1.chainIDVerified = false ∧
    ((∀ n, (op.run v).1.now ≤ n →
        v.ReaderWriter.ChainID n ≠ (strings.ToLower v.expectedChainID, none)) →
      (runOps (op.run v).1 ops).1.chainIDVerified = false ∧
      (runOps (op.run v).1 ops).2.length = ops.length ∧
      ∀ r ∈ (runOps (op.run v).1 ops).2, r ≠ none) ∧
    (v.ReaderWriter.ChainID (op.run v).1.now = (strings.ToLower v.expectedChainID, none) →
      (op.run v).1.verifyChainID.2 = (true, none)) ∧
    ((op.run v).1.GetLatestBlock.2 = v.ReaderWriter.GetLatestBlock (op.run v).1.now ∧
      (∀ slot, ((op.run v).1.GetBlock slot).2 =
        v.ReaderWriter.GetBlock (op.run v).1.now slot) ∧
      (∀ startSlot limit, ((op.run v).1.GetBlocksWithLimit startSlot limit).2 =
        v.ReaderWriter.GetBlocksWithLimit (op.run v).1.now startSlot limit) ∧
      (op.run v).1.GetLatestBlock.1.chainIDVerified = false ∧
      (∀ slot, ((op.run v).1.GetBlock slot).1.chainIDVerified = false) ∧
      (∀ startSlot limit,
        ((op.run v).1.GetBlocksWithLimit startSlot limit).1.chainIDVerified = false)) := by
  have hrun := Op.run_of_unverified op v hfail
  have hflag : v.verifyChainID.1.chainIDVerified = false := by
    rw [verifyChainID_flag, hfail]
  obtain ⟨hrw, hexp, -⟩ := verifyChainID_frame v
  have herr : v.verifyChainID.2.2 ≠ none := by
    intro h
    rw [(verifyChainID_err v).1 h] at hfail
    exact Bool.noConfusion hfail
  rw [hrun]
  refine ⟨rfl, herr, hflag, ?_, ?_, ?_⟩
  · intro hbad
    exact runOps_all_fail ops v.verifyChainID.1 hflag (by rw [hrw, hexp]; exact hbad)
  · intro hnext
    rw [verifyChainID_of_unverified _ hflag,
      writeSection_match _ (strings.ToLower v.expectedChainID) (by rw [hrw]; exact hnext)
        (by rw [hexp])]
  · refine ⟨?_, ?_, ?_, hflag, fun _ => hflag, fun _ _ => hflag⟩
    · show v.verifyChainID.1.ReaderWriter.GetLatestBlock _ = _
      rw [hrw]
    · intro slot
      show v.verifyChainID.1.ReaderWriter.GetBlock _ slot = _
      rw [hrw]
    · intro startSlot limit
      show v.verifyChainID.1.ReaderWriter.GetBlocksWithLimit _ startSlot limit = _
      rw [hrw]

/-- C5, amended, at concrete inputs: the first `Balance` on a verifier
expecting `mainnet` fails because the peer reports `devnet`; as the peer then
reports `mainnet`, the next verification succeeds; on a peer that keeps
reporting `devnet`, a later `SlotHeight` and a later `SendTx` fail, and a later
`GetBlock` returns the peer's block. -/
theorem rejection_lasts_while_mismatch_lasts_witness :
    (mainnetVerifier (scriptedPeer ["devnet", "mainnet"])).verifyChainID.2.1 = false ∧
    ((Op.Balance "payer").run (mainnetVerifier (scriptedPeer ["devnet", "mainnet"]))).2 ≠ none ∧
    ((Op.Balance "payer").run
      (mainnetVerifier (scriptedPeer ["devnet", "mainnet"]))).1.verifyChainID.2 = (true, none) ∧
    (∀ r ∈ (runOps ((Op.Balance "payer").run (mainnetVerifier (steadyPeer "devnet"))).1
      [Op.SlotHeight, Op.SendTx solanago.sampleTx]).2, r ≠ none) ∧
    (((Op.Balance "payer").run (mainnetVerifier (steadyPeer "devnet"))).1.GetBlock 12).2 =
      (some ⟨"hash", some 12, some 1700000000⟩, none) :=
  ⟨by decide,
    (rejection_lasts_while_mismatch_lasts (mainnetVerifier (scriptedPeer ["devnet", "mainnet"]))
      (Op.Balance "payer") [] (by decide)).2.1,
    (rejection_lasts_while_mismatch_lasts (mainnetVerifier (scriptedPeer ["devnet", "mainnet"]))
      (Op.Balance "payer") [] (by decide)).2.2.2.2.1 (by decide),
    ((rejection_lasts_while_mismatch_lasts (mainnetVerifier (steadyPeer "devnet"))
      (Op.Balance "payer") [Op.SlotHeight, Op.SendTx solanago.sampleTx] (by decide)).2.2.2.1
      (fun _ _ h => absurd
        (show ("devnet" : String) = strings.ToLower "mainnet" from congrArg Prod.fst h)
        (by decide))).2.2,
    ((rejection_lasts_while_mismatch_lasts (mainnetVerifier (steadyPeer "devnet"))
      (Op.Balance "payer") [] (by decide)).2.2.2.2.2.2.1 12).trans (by decide)⟩

end solana

/-! ## The RPC peer -/

namespace client

/-- C6: `Client.ChainID` maps the genesis hash the RPC returns through the
fixed table (devnet, testnet, mainnet, and `localnet` for every other hash),
and returns the empty name with the RPC's error when the call fails. -/
theorem Client_ChainID_table (c : Client) (hash : solanago.Hash) (err : Option Error)
    (h : c.rpc.GetGenesisHash = (hash, err)) :
    (err = none → hash = "EtWTRABZaYq6iMfeYKouRu166VU2xqa1wcaWoxPkrZBG" →
      c.ChainID.out = some ("devnet", none)) ∧
    (err = none → hash = "4uhcVJyU9pJkvQyS88uRDiswHXSCkY3zQawwpjk2NsNY" →
      c.ChainID.out = some ("testnet", none)) ∧
    (err = none → hash = "5eykt4UsFv8P8NJdTREpY1vzqKqZKvdpKuc147dw2N9d" →
      c.ChainID.out = some ("mainnet", none)) ∧
    (err = none → hash ≠ "EtWTRABZaYq6iMfeYKouRu166VU2xqa1wcaWoxPkrZBG" →
      hash ≠ "4uhcVJyU9pJkvQyS88uRDiswHXSCkY3zQawwpjk2NsNY" →
      hash ≠ "5eykt4UsFv8P8NJdTREpY1vzqKqZKvdpKuc147dw2N9d" →
      c.ChainID.out = some ("localnet", none)) ∧
    (∀ e, err = some e → c.ChainID.out = some ("", some e)) := by
  refine ⟨?_, ?_, ?_, ?_, ?_⟩
  · rintro rfl rfl
    simp [Client.ChainID, h, DevnetGenesisHash]
  · rintro rfl rfl
    have h1 : ¬ ("4uhcVJyU9pJkvQyS88uRDiswHXSCkY3zQawwpjk2NsNY" : String) = DevnetGenesisHash := by
      decide
    simp [Client.ChainID, h, h1, TestnetGenesisHash]
  · rintro rfl rfl
    have h1 : ¬ ("5eykt4UsFv8P8NJdTREpY1vzqKqZKvdpKuc147dw2N9d" : String) = DevnetGenesisHash := by
      decide
    have h2 : ¬ ("5eykt4UsFv8P8NJdTREpY1vzqKqZKvdpKuc147dw2N9d" : String) = TestnetGenesisHash := by
      decide
    simp [Client.ChainID, h, h1, h2, MainnetGenesisHash]
  · rintro rfl h1 h2 h3
    have h1' : ¬ hash = DevnetGenesisHash := h1
    have h2' : ¬ hash = TestnetGenesisHash := h2
    have h3' : ¬ hash = MainnetGenesisHash := h3
    simp [Client.ChainID, h, h1', h2', h3']
  · rintro e rfl
    simp [Client.ChainID, h]

/-- C6, at a concrete input: the RPC returns the mainnet genesis hash. -/
theorem Client_ChainID_table_witness :
    (sampleClient { GetGenesisHash := ("5eykt4UsFv8P8NJdTREpY1vzqKqZKvdpKuc147dw2N9d", none) }
      ).ChainID.out = some ("mainnet", none) :=
  (Client_ChainID_table
    (sampleClient { GetGenesisHash := ("5eykt4UsFv8P8NJdTREpY1vzqKqZKvdpKuc147dw2N9d", none) })
    "5eykt4UsFv8P8NJdTREpY1vzqKqZKvdpKuc147dw2N9d" none rfl).2.2.1 rfl rfl

end client

namespace client

/-- The events of `Client.Balance` do not depend on the RPC's answer. -/
theorem Client.Balance_events (c : Client) (addr : solanago.PublicKey) :
    (c.Balance addr).events =
      [Event.latency "balance", Event.WithTimeout c.contextDuration,
        Event.Do ("GetBalance(" ++ addr ++ ")"),
        Event.Rpc (Request.GetBalance addr c.commitment)] := by
  unfold Client.Balance
  rcases c.rpc.GetBalance addr c.commitment with ⟨_ | res, _ | e⟩ <;> rfl

/-- The single-flight key of `Balance` determines the address. -/
theorem Balance_key_injective (c : Client) (a b : solanago.PublicKey) :
    CoalescedCall.key c (CoalescedCall.Balance a) = CoalescedCall.key c (CoalescedCall.Balance b)
      ↔ a = b := by
  simp [CoalescedCall.key, CoalescedCall.events, Client.Balance_events, doKeys, String.ext_iff]

/-- C10, evaluated on the code: the single-flight key of
`SlotHeightWithCommitment` is `GetSlotHeight` for every commitment, that of
`GetBlock` is `GetBlockWithOpts` for every slot and is also the key under which
`GetLatestBlock` fetches its block, and that of `GetBlocksWithLimit` is
`GetBlocksWithLimit` for every start and limit; only `Balance` puts its
argument in the key. -/
theorem coalescer_keys_ignore_arguments (c : Client) (commitment : rpc.CommitmentType)
    (slot startSlot limit : Nat) :
    CoalescedCall.key c (CoalescedCall.SlotHeightWithCommitment commitment) =
      some "GetSlotHeight" ∧
    CoalescedCall.key c (CoalescedCall.GetBlock slot) = some "GetBlockWithOpts" ∧
    CoalescedCall.key c (CoalescedCall.GetBlocksWithLimit startSlot limit) =
      some "GetBlocksWithLimit" ∧
    CoalescedCall.key (sampleClient { GetSlot := fun _ => (9, none) })
      CoalescedCall.GetLatestBlock = some "GetBlockWithOpts" ∧
    CoalescedCall.key (sampleClient { GetSlot := fun _ => (9, none) })
      (CoalescedCall.SlotHeightWithCommitment rpc.CommitmentType.processed) =
      CoalescedCall.key (sampleClient { GetSlot := fun _ => (9, none) })
        (CoalescedCall.SlotHeightWithCommitment rpc.CommitmentType.finalized) ∧
    CoalescedCall.key (sampleClient { GetSlot := fun _ => (9, none) }) (CoalescedCall.GetBlock 1) =
      CoalescedCall.key (sampleClient { GetSlot := fun _ => (9, none) })
        (CoalescedCall.GetBlock 2) ∧
    CoalescedCall.key (sampleClient { GetSlot := fun _ => (9, none) })
      (CoalescedCall.GetBlocksWithLimit 1 10) =
      CoalescedCall.key (sampleClient { GetSlot := fun _ => (9, none) })
        (CoalescedCall.GetBlocksWithLimit 50 2) ∧
    CoalescedCall.key c (CoalescedCall.Balance "payer") = some "GetBalance(payer)" := by
  refine ⟨?_, ?_, ?_, by decide, by decide, by decide, by decide, ?_⟩
  · simp [CoalescedCall.key, CoalescedCall.events, Client.SlotHeightWithCommitment, doKeys]
  · simp [CoalescedCall.key, CoalescedCall.events, Client.GetBlock, doKeys]
  · simp [CoalescedCall.key, CoalescedCall.events, Client.GetBlocksWithLimit, doKeys]
  · simp only [CoalescedCall.key, CoalescedCall.events, Client.Balance_events, doKeys]
    decide

end client

/-! ## The chain façade -/

namespace solana

/-- While `amount + fee` stays below `2 ^ 64`, `solanaValidateBalance` on a
reader that reports `balance` and `fee` succeeds exactly when
`balance ≥ amount + fee`. -/
theorem solanaValidateBalance_without_wrap [strings.Lowering] (balance amount fee : Nat)
    (h : amount + fee < uint64Size) :
    solanaValidateBalance (fundedReader balance fee) "payer" amount "msg" = none ↔
      amount + fee ≤ balance := by
  have hv : ∀ (v : verifiedCachedClient), v.chainIDVerified = true →
      v.verifyChainID = (v, true, none) := verifyChainID_of_verified
  simp [solanaValidateBalance, fundedReader, Handle.Balance, Handle.GetFeeForMessage,
    verifiedCachedClient.Balance, verifiedCachedClient.GetFeeForMessage, hv,
    verifiedCachedClient.record, Nat.mod_eq_of_lt h]

/-- C7, evaluated on the code: with balance 5000, amount `2 ^ 64 - 1` and fee
5000 the `uint64` sum `amount + fee` wraps to 4999, and
`solanaValidateBalance` succeeds although the balance is below amount plus
fee. -/
theorem solanaValidateBalance_accepts_wrapped_sum :
    solanaValidateBalance (fundedReader 5000 5000) "payer" 18446744073709551615 "msg" = none ∧
    18446744073709551615 < uint64Size ∧
    5000 < 18446744073709551615 + 5000 ∧
    (18446744073709551615 + 5000) % uint64Size = 4999 := by
  decide

/-- The loop of `newChain` puts an endpoint among the live nodes only when its
`SendOnly` flag is false, and among the send-only nodes only when it is
true. -/
theorem splitNodes_sound (env : Env) (id : String) (l : List (Option config.Node)) :
    ∀ (i : Nat) (nodes : List mn.Node) (sendOnlyNodes : List mn.SendOnlyNode),
      newChain.splitNodes env id i l = some ((nodes, sendOnlyNodes), none) →
      (∀ n ∈ nodes, i ≤ n.order ∧ ∃ e, l[n.order - i]? = some (some e) ∧ e.SendOnly = false ∧
        e.URL = some n.url ∧ e.Name = some n.name ∧ n.rpc.url = n.url) ∧
      (∀ s ∈ sendOnlyNodes, ∃ e, some e ∈ l ∧ e.SendOnly = true ∧
        e.URL = some s.url ∧ e.Name = some s.name ∧ s.rpc.url = s.url) := by
  induction l with
  | nil =>
    intro i nodes sendOnlyNodes h
    simp [newChain.splitNodes] at h
    obtain ⟨rfl, rfl⟩ := h
    simp
  | cons nodeInfo rest ih =>
    intro i nodes sendOnlyNodes h
    rcases nodeInfo with _ | info
    · simp [newChain.splitNodes] at h
    · rcases hN : info.Name with _ | name
      · simp [newChain.splitNodes, hN] at h
      rcases hU : info.URL with _ | url
      · simp [newChain.splitNodes, hN, hU] at h
      rcases hE : env.NewMultiNodeClientErr url with _ | err
      · rcases hR : newChain.splitNodes env id (i + 1) rest with _ | ⟨⟨ns, ss⟩, _ | err⟩
        · simp [newChain.splitNodes, hN, hU, hE, hR] at h
        · obtain ⟨ihn, ihs⟩ := ih (i + 1) ns ss hR
          have hn' : ∀ n ∈ ns, i ≤ n.order ∧ ∃ e, (some info :: rest)[n.order - i]? = some (some e) ∧
              e.SendOnly = false ∧ e.URL = some n.url ∧ e.Name = some n.name ∧
              n.rpc.url = n.url := by
            intro n hn
            obtain ⟨hle, e, he, hrest⟩ := ihn n hn
            refine ⟨by omega, e, ?_, hrest⟩
            have : n.order - i = (n.order - (i + 1)) + 1 := by omega
            rw [this, List.getElem?_cons_succ]
            exact he
          have hs' : ∀ s ∈ ss, ∃ e, some e ∈ some info :: rest ∧ e.SendOnly = true ∧
              e.URL = some s.url ∧ e.Name = some s.name ∧ s.rpc.url = s.url := by
            intro s hs
            obtain ⟨e, he, hrest⟩ := ihs s hs
            exact ⟨e, List.mem_cons_of_mem _ he, hrest⟩
          cases hS : info.SendOnly
          · simp [newChain.splitNodes, hN, hU, hE, hR, hS] at h
            obtain ⟨rfl, rfl⟩ := h
            refine ⟨?_, hs'⟩
            intro n hn
            rcases List.mem_cons.1 hn with rfl | hn
            · exact ⟨le_refl _, info, by simp, hS, hU, hN, rfl⟩
            · exact hn' n hn
          · simp [newChain.splitNodes, hN, hU, hE, hR, hS] at h
            obtain ⟨rfl, rfl⟩ := h
            refine ⟨hn', ?_⟩
            intro s hs
            rcases List.mem_cons.1 hs with rfl | hs
            · exact ⟨info, by simp, hS, hU, hN, rfl⟩
            · exact hs' s hs
        · simp [newChain.splitNodes, hN, hU, hE, hR] at h
      · simp [newChain.splitNodes, hN, hU, hE] at h

end solana

namespace solana

/-- C8, evaluated on the code: in single-node mode, with a send-only endpoint
as the only configured node, `getClient` succeeds and returns the verifier of
that send-only endpoint; over the endpoint list of `poolConfig` (one live, one
send-only endpoint) and the permutation `[1, 0]` it returns the send-only
endpoint as well, while in multi-node mode `newChain` puts that same endpoint
in the send-only list of the pool and only the live endpoint among the nodes
that are selected from. -/
theorem singleNode_reader_on_sendOnly :
    ((singleNodeChain [some ⟨some "backup", some "http://send-only.example", true⟩]).getClient
      (steadyEnv "mainnet") [0]).map (fun r => r.2.2) = some none ∧
    ((singleNodeChain [some ⟨some "backup", some "http://send-only.example", true⟩]).getClient
      (steadyEnv "mainnet") [0]).map (fun r => r.2.1.map Handle.url) =
        some (some "http://send-only.example") ∧
    ((singleNodeChain [some ⟨some "backup", some "http://send-only.example", true⟩]).cfg.ListNodes.map
      (Option.map config.Node.SendOnly)) = [some true] ∧
    ((singleNodeChain poolConfig.Nodes).getClient (steadyEnv "mainnet") [1, 0]).map
      (fun r => (r.2.1.map Handle.url, r.2.2)) = some (some "http://send-only.example", none) ∧
    poolConfig.Nodes.map (Option.map (fun n => (n.URL, n.SendOnly))) =
      [some (some "http://rpc.example", false), some (some "http://send-only.example", true)] ∧
    (newChain (steadyEnv "mainnet") "mainnet" poolConfig).map
      (fun r => (r.1.bind (fun ch => ch.multiNode.map (fun m =>
        (m.nodes.map (fun n => n.url), m.sendOnlyNodes.map (fun n => n.url)))), r.2)) =
      some (some (["http://rpc.example"], ["http://send-only.example"]), none) := by
  refine ⟨by decide, by decide, by decide, by decide, by decide, by decide⟩

/-- In multi-node mode the chain `newChain` builds has a pool whose selectable
nodes are endpoints of the configuration with `SendOnly` false (each at its
own index), whose send-only nodes are endpoints with `SendOnly` true, and
`getClient` returns, for every permutation, whatever the pool's `SelectRPC`
returns (which node that is, is the pool's business). -/
theorem multiNode_selectable_nodes_not_sendOnly (env : Env) (id : String)
    (cfg : config.TOMLConfig) (ch : chain) (perm : List Nat)
    (hen : cfg.MultiNode.Enabled = true)
    (hnew : newChain env id cfg = some (some ch, none)) :
    ∃ m, ch.multiNode = some m ∧
      (∀ n ∈ m.nodes, ∃ e, cfg.ListNodes[n.order]? = some (some e) ∧ e.SendOnly = false ∧
        e.URL = some n.url ∧ e.Name = some n.name ∧ n.rpc.url = n.url) ∧
      (∀ s ∈ m.sendOnlyNodes, ∃ e, some e ∈ cfg.ListNodes ∧ e.SendOnly = true ∧
        e.URL = some s.url ∧ e.Name = some s.name ∧ s.rpc.url = s.url) ∧
      (ch.getClient env perm).map (fun r => r.2.2) = some (env.SelectRPC (some m)).2 ∧
      (ch.getClient env perm).map (fun r => r.2.1.map Handle.url) =
        some ((env.SelectRPC (some m)).1.map (fun r => r.url)) := by
  unfold newChain at hnew
  simp only [hen, if_true] at hnew
  rcases hR : newChain.splitNodes env id 0 cfg.ListNodes with _ | ⟨⟨ns, ss⟩, _ | err⟩
  · simp [hR] at hnew
  · simp [hR] at hnew
    obtain ⟨hn, hs⟩ := splitNodes_sound env id cfg.ListNodes 0 ns ss hR
    subst hnew
    refine ⟨_, rfl, ?_, hs, ?_, ?_⟩
    · intro n hmem
      obtain ⟨-, e, he, hrest⟩ := hn n hmem
      exact ⟨e, by simpa using he, hrest⟩
    · simp only [chain.getClient, hen, if_true]
      rcases env.SelectRPC _ with ⟨_ | r, err⟩ <;> rfl
    · simp only [chain.getClient, hen, if_true]
      rcases env.SelectRPC _ with ⟨_ | r, err⟩ <;> rfl
  · simp [hR] at hnew

/-- The pool of `newChain` at a concrete input: a configuration in multi-node
mode with one live and one send-only endpoint. -/
theorem multiNode_selectable_nodes_not_sendOnly_witness :
    poolConfig.MultiNode.Enabled = true ∧
    ∃ m, poolChain.multiNode = some m ∧
      (∀ n ∈ m.nodes, ∃ e, poolConfig.ListNodes[n.order]? = some (some e) ∧
        e.SendOnly = false ∧ e.URL = some n.url ∧ e.Name = some n.name ∧ n.rpc.url = n.url) ∧
      (∀ s ∈ m.sendOnlyNodes, ∃ e, some e ∈ poolConfig.ListNodes ∧ e.SendOnly = true ∧
        e.URL = some s.url ∧ e.Name = some s.name ∧ s.rpc.url = s.url) ∧
      (poolChain.getClient (steadyEnv "mainnet") []).map (fun r => r.2.2) =
        some ((steadyEnv "mainnet").SelectRPC (some m)).2 ∧
      (poolChain.getClient (steadyEnv "mainnet") []).map (fun r => r.2.1.map Handle.url) =
        some (((steadyEnv "mainnet").SelectRPC (some m)).1.map (fun r => r.url)) :=
  ⟨rfl, multiNode_selectable_nodes_not_sendOnly (steadyEnv "mainnet") "mainnet" poolConfig
    poolChain [] rfl rfl⟩

/-- When the selected client fails to return the latest block, `LatestHead`
returns the empty head and a nil error. -/
theorem LatestHead_of_block_error (c : chain) (env : Env) (perm : List Nat) (sc : Handle)
    (e : Error) (hsc : (c.getClient env perm).map Prod.snd = some (some sc, none))
    (hblock : sc.GetLatestBlock.2.2 = some e) :
    c.LatestHead env perm = some (types.Head.zero, none) := by
  unfold chain.LatestHead
  rw [hsc]
  rcases hb : sc.GetLatestBlock.2 with ⟨b, err⟩
  rw [hb] at hblock
  simp only at hblock
  subst hblock
  simp only [hb]

/-- C9, evaluated on the code: on a chain whose only endpoint fails to fetch
the latest block, `getClient` succeeds, the client's `GetLatestBlock` returns
an error, and `LatestHead` returns the empty head with a nil error. -/
theorem LatestHead_swallows_block_error :
    ((singleNodeChain [some ⟨some "primary", some "http://rpc.example", false⟩]).getClient
      blocklessEnv [0]).map (fun r => r.2.2) = some none ∧
    (mainnetVerifier (blocklessEnv.net "http://rpc.example")).GetLatestBlock.2 =
      (none, some "GetLatestBlock.SlotHeight: timeout") ∧
    (singleNodeChain [some ⟨some "primary", some "http://rpc.example", false⟩]).LatestHead
      blocklessEnv [0] = some (types.Head.zero, none) ∧
    (singleNodeChain []).LatestHead blocklessEnv [] =
      some (types.Head.zero, some "no nodes available") := by
  decide

end solana

/-! ## The RPC peer: coalescing, timeouts, payloads -/

namespace client

/-- The events of `Client.ChainID` up to the optional warning. -/
theorem Client.ChainID_events (c : Client) :
    ∃ tail, c.ChainID.events =
      [Event.latency "chain_id", Event.WithTimeout c.contextDuration,
        Event.Do "GetGenesisHash", Event.Rpc Request.GetGenesisHash] ++ tail ∧
      (tail = [] ∨ ∃ msg, tail = [Event.Warnf msg]) := by
  unfold Client.ChainID
  rcases c.rpc.GetGenesisHash with ⟨hash, _ | e⟩
  · simp only
    split_ifs
    · exact ⟨[], rfl, Or.inl rfl⟩
    · exact ⟨[], rfl, Or.inl rfl⟩
    · exact ⟨[], rfl, Or.inl rfl⟩
    · exact ⟨_, rfl, Or.inr ⟨_, rfl⟩⟩
  · exact ⟨[], rfl, Or.inl rfl⟩

/-- The events of `Client.GetFeeForMessage` do not depend on the answer. -/
theorem Client.GetFeeForMessage_events (c : Client) (msg : String) :
    (c.GetFeeForMessage msg).events =
      [Event.latency "fee_for_message", Event.WithTimeout c.contextDuration,
        Event.Rpc (Request.GetFeeForMessage msg c.commitment)] := by
  unfold Client.GetFeeForMessage
  rcases c.rpc.GetFeeForMessage msg c.commitment with ⟨_ | ⟨_ | fee⟩, _ | e⟩ <;> rfl

/-- The events of `Client.SignatureStatuses` do not depend on the answer. -/
theorem Client.SignatureStatuses_events (c : Client) (sigs : List solanago.Signature) :
    (c.SignatureStatuses sigs).events =
      [Event.latency "signature_statuses", Event.WithTimeout c.contextDuration,
        Event.Rpc (Request.GetSignatureStatuses false sigs)] := by
  unfold Client.SignatureStatuses
  rcases c.rpc.GetSignatureStatuses false sigs with ⟨_ | ⟨_ | st⟩, _ | e⟩ <;> rfl

/-- The events of `Client.SimulateTx` do not depend on the answer. -/
theorem Client.SimulateTx_events (c : Client) (tx : solanago.Transaction)
    (opts : Option rpc.SimulateTransactionOpts) :
    (c.SimulateTx tx opts).events =
      [Event.latency "simulate_tx", Event.WithTimeout c.contextDuration,
        Event.Rpc (Request.SimulateTransactionWithOpts tx (some (simulateOpts c opts)))] := by
  unfold Client.SimulateTx
  simp only []
  rcases c.rpc.SimulateTransactionWithOpts tx _ with ⟨_ | ⟨_ | st⟩, _ | e⟩ <;>
    cases opts <;> rfl

/-- The events of `Client.GetLatestBlock`: the slot request, and the block
request when the slot request succeeded. -/
theorem Client.GetLatestBlock_events (c : Client) :
    c.GetLatestBlock.events =
      [Event.latency "slot_height", Event.WithTimeout c.contextDuration,
        Event.Do "GetSlotHeight", Event.Rpc (Request.GetSlot c.commitment)] ++
      (if (c.rpc.GetSlot c.commitment).2 = none then
        [Event.latency "latest_block", Event.WithTimeout c.txTimeout,
          Event.Do "GetBlockWithOpts",
          Event.Rpc (Request.GetBlockWithOpts (c.rpc.GetSlot c.commitment).1
            (some { Commitment := c.commitment, MaxSupportedTransactionVersion := some 0 }))]
      else []) := by
  unfold Client.GetLatestBlock Client.SlotHeightWithCommitment
  rcases c.rpc.GetSlot c.commitment with ⟨slot, _ | e⟩ <;> simp

end client

namespace client

/-- C11, as stated, fails: `GetFeeForMessage`, `SignatureStatuses` and
`GetAccountInfoWithOpts` issue their request without any call of
`requestGroup.Do`. -/
theorem uncoalesced_reads :
    requests ((sampleClient {}).GetFeeForMessage "msg").events =
      [Request.GetFeeForMessage "msg" rpc.CommitmentType.confirmed] ∧
    doKeys ((sampleClient {}).GetFeeForMessage "msg").events = [] ∧
    throughRequestGroup ((sampleClient {}).GetFeeForMessage "msg").events = false ∧
    requests ((sampleClient {}).SignatureStatuses [[1]]).events =
      [Request.GetSignatureStatuses false [[1]]] ∧
    doKeys ((sampleClient {}).SignatureStatuses [[1]]).events = [] ∧
    throughRequestGroup ((sampleClient {}).SignatureStatuses [[1]]).events = false ∧
    requests ((sampleClient {}).GetAccountInfoWithOpts "account" (some {})).events =
      [Request.GetAccountInfoWithOpts "account"
        (some { Commitment := rpc.CommitmentType.confirmed })] ∧
    doKeys ((sampleClient {}).GetAccountInfoWithOpts "account" (some {})).events = [] ∧
    throughRequestGroup ((sampleClient {}).GetAccountInfoWithOpts "account" (some {})).events =
      false := by
  decide

/-- C11, amended: `Balance`, `SlotHeight` (with any commitment),
`LatestBlockhash`, `ChainID`, `GetLatestBlock`, `GetBlock` and
`GetBlocksWithLimit` issue every request they make through
`requestGroup.Do`; `GetFeeForMessage`, `SignatureStatuses` and
`GetAccountInfoWithOpts`, like `SendTx` and `SimulateTx`, issue their request
directly, without the request group. -/
theorem coalesced_operations (c : Client) (addr : solanago.PublicKey)
    (commitment : rpc.CommitmentType) (slot startSlot limit : Nat) (msg : String)
    (sigs : List solanago.Signature) (tx : solanago.Transaction)
    (simOpts : Option rpc.SimulateTransactionOpts) (opts : rpc.GetAccountInfoOpts) :
    (throughRequestGroup (c.Balance addr).events = true ∧
      requests (c.Balance addr).events = [Request.GetBalance addr c.commitment]) ∧
    (throughRequestGroup (c.SlotHeightWithCommitment commitment).events = true ∧
      requests (c.SlotHeightWithCommitment commitment).events = [Request.GetSlot commitment]) ∧
    (throughRequestGroup c.SlotHeight.events = true ∧
      requests c.SlotHeight.events = [Request.GetSlot rpc.CommitmentProcessed]) ∧
    (throughRequestGroup c.LatestBlockhash.events = true ∧
      requests c.LatestBlockhash.events = [Request.GetLatestBlockhash c.commitment]) ∧
    (throughRequestGroup c.ChainID.events = true ∧
      requests c.ChainID.events = [Request.GetGenesisHash]) ∧
    (throughRequestGroup c.GetLatestBlock.events = true ∧
      (requests c.GetLatestBlock.events).head? = some (Request.GetSlot c.commitment)) ∧
    (throughRequestGroup (c.GetBlock slot).events = true ∧
      requests (c.GetBlock slot).events =
        [Request.GetBlockWithOpts slot
          (some { Commitment := c.commitment, MaxSupportedTransactionVersion := some 0 })]) ∧
    (throughRequestGroup (c.GetBlocksWithLimit startSlot limit).events = true ∧
      requests (c.GetBlocksWithLimit startSlot limit).events =
        [Request.GetBlocksWithLimit startSlot limit c.commitment]) ∧
    (doKeys (c.GetFeeForMessage msg).events = [] ∧
      requests (c.GetFeeForMessage msg).events = [Request.GetFeeForMessage msg c.commitment]) ∧
    (doKeys (c.SignatureStatuses sigs).events = [] ∧
      requests (c.SignatureStatuses sigs).events = [Request.GetSignatureStatuses false sigs]) ∧
    (doKeys (c.GetAccountInfoWithOpts addr (some opts)).events = [] ∧
      requests (c.GetAccountInfoWithOpts addr (some opts)).events =
        [Request.GetAccountInfoWithOpts addr (some { opts with Commitment := c.commitment })]) ∧
    (doKeys (c.SendTx tx).events = [] ∧
      requests (c.SendTx tx).events =
        [Request.SendTransactionWithOpts tx
          { SkipPreflight := c.skipPreflight, PreflightCommitment := c.commitment,
            MaxRetries := c.maxRetries }]) ∧
    (doKeys (c.SimulateTx tx simOpts).events = [] ∧
      requests (c.SimulateTx tx simOpts).events =
        [Request.SimulateTransactionWithOpts tx (some (simulateOpts c simOpts))]) := by
  refine ⟨?_, ?_, ?_, ?_, ?_, ?_, ?_, ?_, ?_, ?_, ?_, ?_, ?_⟩
  · simp [Client.Balance_events, throughRequestGroup, requests]
  · simp [Client.SlotHeightWithCommitment, throughRequestGroup, requests]
  · simp [Client.SlotHeight, Client.SlotHeightWithCommitment, throughRequestGroup, requests]
  · simp [Client.LatestBlockhash, throughRequestGroup, requests]
  · obtain ⟨tail, h, rfl | ⟨m, rfl⟩⟩ := Client.ChainID_events c <;>
      simp [h, throughRequestGroup, requests]
  · rw [Client.GetLatestBlock_events]
    split_ifs <;> simp [throughRequestGroup, requests]
  · simp [Client.GetBlock, throughRequestGroup, requests]
  · simp [Client.GetBlocksWithLimit, throughRequestGroup, requests]
  · simp [Client.GetFeeForMessage_events, doKeys, requests]
  · simp [Client.SignatureStatuses_events, doKeys, requests]
  · simp [Client.GetAccountInfoWithOpts, doKeys, requests]
  · simp [Client.SendTx, doKeys, requests]
  · simp [Client.SimulateTx_events, doKeys, requests]

/-- C12, as stated, fails: with a request timeout of 30 s and a transaction
timeout of 60 s, the reads `GetBlock` and `GetBlocksWithLimit` and the block
request of `GetLatestBlock` run under the transaction timeout. -/
theorem block_reads_use_txTimeout :
    (sampleClient {}).contextDuration = 30000000000 ∧
    (sampleClient {}).txTimeout = 60000000000 ∧
    requestTimeouts ((sampleClient {}).GetBlock 7).events = [some 60000000000] ∧
    requestTimeouts ((sampleClient {}).GetBlocksWithLimit 1 10).events = [some 60000000000] ∧
    requestTimeouts (sampleClient { GetSlot := fun _ => (9, none) }).GetLatestBlock.events =
      [some 30000000000, some 60000000000] := by
  decide

/-- C12, amended: `Balance`, `SlotHeight`, `LatestBlockhash`, `ChainID`,
`GetFeeForMessage`, `SignatureStatuses`, `SimulateTx`,
`GetAccountInfoWithOpts` and the slot request of `GetLatestBlock` run under the
request timeout `contextDuration`; `SendTx`, `GetBlock`, `GetBlocksWithLimit`
and the block request of `GetLatestBlock` run under `txTimeout`. -/
theorem operation_timeouts (c : Client) (addr : solanago.PublicKey)
    (commitment : rpc.CommitmentType) (slot startSlot limit : Nat) (msg : String)
    (sigs : List solanago.Signature) (tx : solanago.Transaction)
    (simOpts : Option rpc.SimulateTransactionOpts) (opts : rpc.GetAccountInfoOpts) :
    requestTimeouts (c.Balance addr).events = [some c.contextDuration] ∧
    requestTimeouts (c.SlotHeightWithCommitment commitment).events = [some c.contextDuration] ∧
    requestTimeouts c.SlotHeight.events = [some c.contextDuration] ∧
    requestTimeouts c.LatestBlockhash.events = [some c.contextDuration] ∧
    requestTimeouts c.ChainID.events = [some c.contextDuration] ∧
    requestTimeouts (c.GetFeeForMessage msg).events = [some c.contextDuration] ∧
    requestTimeouts (c.SignatureStatuses sigs).events = [some c.contextDuration] ∧
    requestTimeouts (c.SimulateTx tx simOpts).events = [some c.contextDuration] ∧
    requestTimeouts (c.GetAccountInfoWithOpts addr (some opts)).events =
      [some c.contextDuration] ∧
    requestTimeouts c.GetLatestBlock.events =
      (if (c.rpc.GetSlot c.commitment).2 = none then [some c.contextDuration, some c.txTimeout]
       else [some c.contextDuration]) ∧
    requestTimeouts (c.GetBlock slot).events = [some c.txTimeout] ∧
    requestTimeouts (c.GetBlocksWithLimit startSlot limit).events = [some c.txTimeout] ∧
    requestTimeouts (c.SendTx tx).events = [some c.txTimeout] := by
  refine ⟨?_, ?_, ?_, ?_, ?_, ?_, ?_, ?_, ?_, ?_, ?_, ?_, ?_⟩
  · simp [Client.Balance_events, requestTimeouts, timeoutsFrom]
  · simp [Client.SlotHeightWithCommitment, requestTimeouts, timeoutsFrom]
  · simp [Client.SlotHeight, Client.SlotHeightWithCommitment, requestTimeouts, timeoutsFrom]
  · simp [Client.LatestBlockhash, requestTimeouts, timeoutsFrom]
  · obtain ⟨tail, h, rfl | ⟨m, rfl⟩⟩ := Client.ChainID_events c <;>
      simp [h, requestTimeouts, timeoutsFrom]
  · simp [Client.GetFeeForMessage_events, requestTimeouts, timeoutsFrom]
  · simp [Client.SignatureStatuses_events, requestTimeouts, timeoutsFrom]
  · simp [Client.SimulateTx_events, requestTimeouts, timeoutsFrom]
  · simp [Client.GetAccountInfoWithOpts, requestTimeouts, timeoutsFrom]
  · rw [Client.GetLatestBlock_events]
    split_ifs <;> simp [requestTimeouts, timeoutsFrom]
  · simp [Client.GetBlock, requestTimeouts, timeoutsFrom]
  · simp [Client.GetBlocksWithLimit, requestTimeouts, timeoutsFrom]
  · simp [Client.SendTx, requestTimeouts, timeoutsFrom]

/-- C13, evaluated on the code: when the RPC reports success with an absent
payload, `Balance` panics (nil dereference), `LatestBlockhash` and
`GetBlocksWithLimit` return a nil result with a nil error, and only
`GetFeeForMessage`, `SignatureStatuses` and `SimulateTx` return a `nil pointer`
error (also when the payload is present and its value is absent).  `GetBlock`
and `GetLatestBlock` check nothing either: they return whatever the RPC
returns, a nil block with a nil error included; the library's client answers
an absent block with an error, which they hand on, as `SignatureStatuses`
wraps the error the library returns for absent statuses. -/
theorem nil_payload_outcomes :
    ((sampleClient nilRemote).Balance "payer").out = none ∧
    (sampleClient nilRemote).LatestBlockhash.out = some (none, none) ∧
    ((sampleClient nilRemote).GetBlocksWithLimit 1 10).out = some (none, none) ∧
    (∀ (c : Client) (slot : Nat),
      (c.GetBlock slot).out =
        some (c.rpc.GetBlockWithOpts slot (some ⟨c.commitment, some 0⟩))) ∧
    (∀ (c : Client) (slot : Nat), c.rpc.GetSlot c.commitment = (slot, none) →
      c.GetLatestBlock.out =
        some (c.rpc.GetBlockWithOpts slot (some ⟨c.commitment, some 0⟩))) ∧
    (∀ (c : Client) (slot : Nat),
      c.rpc.GetBlockWithOpts slot (some ⟨c.commitment, some 0⟩) = (none, none) →
      (c.GetBlock slot).out = some (none, none) ∧
      (c.rpc.GetSlot c.commitment = (slot, none) → c.GetLatestBlock.out = some (none, none))) ∧
    (∀ (c : Client) (sigs : List solanago.Signature),
      c.rpc.GetSignatureStatuses false sigs = (none, none) →
      (c.SignatureStatuses sigs).out =
        some (none, some "nil pointer in GetSignatureStatuses")) ∧
    (sampleClient nilRemote).GetLatestBlock.out = some (none, some "not confirmed") ∧
    ((sampleClient nilRemote).GetBlock 7).out = some (none, some "not confirmed") ∧
    ((sampleClient nilRemote).SignatureStatuses [[1]]).out =
      some (none, some "error in GetSignatureStatuses: not found") ∧
    ((sampleClient nilRemote).GetFeeForMessage "msg").out =
      some (0, some "nil pointer in GetFeeForMessage") ∧
    ((sampleClient nilRemote).SimulateTx solanago.sampleTx none).out =
      some (none, some "nil pointer in SimulateTransactionWithOpts") ∧
    ((sampleClient nilValueRemote).GetFeeForMessage "msg").out =
      some (0, some "nil pointer in GetFeeForMessage") ∧
    ((sampleClient nilValueRemote).SignatureStatuses [[1]]).out =
      some (none, some "nil pointer in GetSignatureStatuses") ∧
    ((sampleClient nilValueRemote).SimulateTx solanago.sampleTx none).out =
      some (none, some "nil pointer in SimulateTransactionWithOpts") := by
  have hblock : ∀ (c : Client) (slot : Nat), c.rpc.GetSlot c.commitment = (slot, none) →
      c.GetLatestBlock.out =
        some (c.rpc.GetBlockWithOpts slot (some ⟨c.commitment, some 0⟩)) := by
    intro c slot hslot
    simp only [Client.GetLatestBlock, Client.SlotHeightWithCommitment, hslot]
  refine ⟨by decide, by decide, by decide, fun c slot => rfl, hblock, ?_, ?_, by decide,
    by decide, by decide, by decide, by decide, by decide, by decide, by decide⟩
  · intro c slot h
    refine ⟨?_, fun hslot => ?_⟩
    · show some (c.rpc.GetBlockWithOpts slot (some ⟨c.commitment, some 0⟩)) = _
      rw [h]
    · rw [hblock c slot hslot, h]
  · intro c sigs h
    simp only [Client.SignatureStatuses, h]

end client

namespace client

/-- C17: for every non-nil `opts`, `GetAccountInfoWithOpts` issues one request,
whose options carry the peer's commitment whatever the caller supplied and the
caller's encoding, data slice and minimum context slot unchanged, and returns
the answer to that request. -/
theorem GetAccountInfoWithOpts_overrides_commitment (c : Client) (addr : solanago.PublicKey)
    (opts : rpc.GetAccountInfoOpts) :
    ∃ sent : rpc.GetAccountInfoOpts,
      requests (c.GetAccountInfoWithOpts addr (some opts)).events =
        [Request.GetAccountInfoWithOpts addr (some sent)] ∧
      sent.Commitment = c.commitment ∧
      sent.Encoding = opts.Encoding ∧
      sent.DataSlice = opts.DataSlice ∧
      sent.MinContextSlot = opts.MinContextSlot ∧
      (c.GetAccountInfoWithOpts addr (some opts)).out =
        some (c.rpc.GetAccountInfoWithOpts addr (some sent)) := by
  refine ⟨{ opts with Commitment := c.commitment }, ?_, rfl, rfl, rfl, rfl, ?_⟩
  · simp [Client.GetAccountInfoWithOpts, requests]
  · simp [Client.GetAccountInfoWithOpts]

/-- C18: `SimulateTx` with nil `opts` simulates with `SigVerify` true, the
peer's commitment and every other option at its zero value; with non-nil `opts`
it passes them unchanged; it never panics, returns the value of the result when
the RPC succeeds with a non-nil result holding a non-nil value, and an error
with a nil result exactly when the RPC fails or the result or its value is
nil. -/
theorem SimulateTx_contract (c : Client) (tx : solanago.Transaction)
    (opts : rpc.SimulateTransactionOpts) :
    requests (c.SimulateTx tx none).events =
      [Request.SimulateTransactionWithOpts tx
        (some { SigVerify := true, Commitment := c.commitment,
                ReplaceRecentBlockhash := false, Accounts := none })] ∧
    requests (c.SimulateTx tx (some opts)).events =
      [Request.SimulateTransactionWithOpts tx (some opts)] ∧
    (∀ o : Option rpc.SimulateTransactionOpts, ∃ r, (c.SimulateTx tx o).out = some r ∧
      (∀ value, c.rpc.SimulateTransactionWithOpts tx (some (simulateOpts c o)) =
          (some ⟨some value⟩, none) → r = (some value, none)) ∧
      (r.2 ≠ none ↔
        (c.rpc.SimulateTransactionWithOpts tx (some (simulateOpts c o))).2 ≠ none ∨
        (c.rpc.SimulateTransactionWithOpts tx (some (simulateOpts c o))).1 = none ∨
        (c.rpc.SimulateTransactionWithOpts tx (some (simulateOpts c o))).1 = some ⟨none⟩) ∧
      (r.2 ≠ none → r.1 = none)) := by
  refine ⟨?_, ?_, ?_⟩
  · simp [Client.SimulateTx_events, requests, simulateOpts]
  · simp [Client.SimulateTx_events, requests, simulateOpts]
  · intro o
    have hopts : (match o with
        | none => ({ SigVerify := true, Commitment := c.commitment } :
            rpc.SimulateTransactionOpts)
        | some o => o) = simulateOpts c o := by cases o <;> rfl
    unfold Client.SimulateTx
    simp only [hopts]
    rcases c.rpc.SimulateTransactionWithOpts tx (some (simulateOpts c o)) with
      ⟨_ | ⟨_ | value⟩, _ | e⟩ <;> simp

/-- C19: `GetFeeForMessage` asks for the fee at the peer's commitment, never
panics, returns exactly the fee the RPC reports when the call succeeds with a
non-null value, and returns fee 0 with an error exactly when the call fails, the
result is nil or its value is null. -/
theorem GetFeeForMessage_contract (c : Client) (msg : String) :
    requests (c.GetFeeForMessage msg).events = [Request.GetFeeForMessage msg c.commitment] ∧
    ∃ r, (c.GetFeeForMessage msg).out = some r ∧
      (∀ fee, c.rpc.GetFeeForMessage msg c.commitment = (some ⟨some fee⟩, none) →
        r = (fee, none)) ∧
      (r.2 ≠ none ↔
        (c.rpc.GetFeeForMessage msg c.commitment).2 ≠ none ∨
        (c.rpc.GetFeeForMessage msg c.commitment).1 = none ∨
        (c.rpc.GetFeeForMessage msg c.commitment).1 = some ⟨none⟩) ∧
      (r.2 ≠ none → r.1 = 0) := by
  refine ⟨by simp [Client.GetFeeForMessage_events, requests], ?_⟩
  unfold Client.GetFeeForMessage
  rcases c.rpc.GetFeeForMessage msg c.commitment with ⟨_ | ⟨_ | fee⟩, _ | e⟩ <;> simp

end client

/-! ## The latest head -/

namespace strconv

/-- The character of a decimal digit is `48` plus the digit. -/
theorem digitChar_toNat (m : Nat) (hm : m < 10) : (Nat.digitChar m).toNat = m + 48 := by
  interval_cases m <;> rfl

/-- Parsing the digits `Nat.toDigitsCore` puts in front of `ds` shifts the
accumulator and adds the number. -/
theorem parseDigits_toDigitsCore (fuel : Nat) :
    ∀ (n : Nat) (ds : List Char) (acc : Nat), n < fuel →
      ∃ k, parseDigits acc (Nat.toDigitsCore 10 fuel n ds) =
        parseDigits (acc * 10 ^ k + n) ds := by
  induction fuel with
  | zero => intro n ds acc h; omega
  | succ fuel ih =>
    intro n ds acc h
    have hd : (Nat.digitChar (n % 10)).toNat = n % 10 + 48 :=
      digitChar_toNat (n % 10) (Nat.mod_lt n (by norm_num))
    have hlt : 48 ≤ n % 10 + 48 ∧ n % 10 + 48 ≤ 57 := by omega
    have hstep : ∀ a, parseDigits a (Nat.digitChar (n % 10) :: ds) =
        parseDigits (a * 10 + n % 10) ds := by
      intro a
      simp only [parseDigits, hd, hlt, and_self, if_true, Nat.add_sub_cancel]
    simp only [Nat.toDigitsCore]
    by_cases h0 : n / 10 = 0
    · simp only [h0, if_true]
      refine ⟨1, ?_⟩
      rw [hstep]
      have : n % 10 = n := Nat.mod_eq_of_lt (by omega)
      rw [this, pow_one]
    · simp only [h0, if_false]
      obtain ⟨k, hk⟩ := ih (n / 10) (Nat.digitChar (n % 10) :: ds) acc (by omega)
      refine ⟨k + 1, ?_⟩
      rw [hk, hstep]
      congr 1
      rw [pow_succ]
      nlinarith [Nat.div_add_mod n 10]

/-- The decimal rendering of a number is not empty. -/
theorem toDigits_ne_nil (n : Nat) : Nat.toDigits 10 n ≠ [] := by
  unfold Nat.toDigits
  simp only [Nat.toDigitsCore]
  split_ifs
  · simp
  · intro h
    have := Nat.toDigitsCore_lens_eq 10 n (n / 10) (Nat.digitChar (n % 10)) []
    rw [h] at this
    simp at this

/-- Parsing the base-10 rendering of a number gives the number back. -/
theorem parseDecimal_toString (n : Nat) : parseDecimal (toString n) = some n := by
  have hdata : (toString n).data = Nat.toDigits 10 n := rfl
  unfold parseDecimal
  rw [hdata, if_neg (toDigits_ne_nil n)]
  obtain ⟨k, hk⟩ := parseDigits_toDigitsCore (n + 1) n [] 0 (by omega)
  unfold Nat.toDigits
  rw [hk]
  simp [parseDigits]

end strconv

namespace solana

/-- The conversion `uint64(x)` keeps a non-negative value below `2 ^ 64`. -/
theorem uint64OfInt_of_nonneg (t : Int) (h0 : 0 ≤ t) (h1 : t < 2 ^ 64) :
    uint64OfInt t = t.toNat := by
  unfold uint64OfInt
  rw [Int.emod_eq_of_lt h0 h1]

/-- C20: when the selected client returns a latest block with block height `h`
and a non-negative block time `t`, `LatestHead` succeeds with `Height` the
base-10 rendering of `h` (which parses back to `h`), `Hash` the text encoding
of the block hash and `Timestamp = t`; it fails when the block height is
absent, and fails when the block time is absent. -/
theorem LatestHead_of_block (c : chain) (env : Env) (perm : List Nat) (sc : Handle)
    (block : rpc.GetBlockResult)
    (hsc : (c.getClient env perm).map Prod.snd = some (some sc, none))
    (hblock : sc.GetLatestBlock.2 = (some block, none)) :
    (∀ (h : Nat) (t : Int), block.BlockHeight = some h → block.BlockTime = some t →
      0 ≤ t → t < 2 ^ 63 →
      ∃ head, c.LatestHead env perm = some (head, none) ∧
        head.Height = toString h ∧
        strconv.parseDecimal head.Height = some h ∧
        head.Hash = (MarshalText block.Blockhash).1 ∧
        (head.Timestamp : Int) = t) ∧
    (block.BlockHeight = none →
      c.LatestHead env perm =
        some (types.Head.zero, some "client returned nil latest block height")) ∧
    (block.BlockTime = none → ∃ e, c.LatestHead env perm = some (types.Head.zero, some e)) := by
  have hL : c.LatestHead env perm =
      match block.BlockHeight with
      | none => some (types.Head.zero, some "client returned nil latest block height")
      | some height =>
        match block.BlockTime with
        | none => some (types.Head.zero, some "client returned nil block time")
        | some blockTime =>
          some ({ Height := toString height, Hash := (MarshalText block.Blockhash).1,
                  Timestamp := uint64OfInt blockTime }, none) := by
    unfold chain.LatestHead
    rw [hsc]
    simp only [hblock]
    rfl
  refine ⟨?_, ?_, ?_⟩
  · intro h t hh ht h0 h1
    rw [hL, hh, ht]
    refine ⟨_, rfl, rfl, strconv.parseDecimal_toString h, rfl, ?_⟩
    simp only
    rw [uint64OfInt_of_nonneg t h0 (by omega)]
    exact Int.toNat_of_nonneg h0
  · intro hh
    rw [hL, hh]
  · intro ht
    rw [hL]
    rcases block.BlockHeight with _ | height
    · exact ⟨_, rfl⟩
    · rw [ht]
      exact ⟨_, rfl⟩

/-- C20, at a concrete input: a single-node chain whose endpoint reports a
latest block of height 7 at time 1700000000. -/
theorem LatestHead_of_block_witness :
    ((singleNodeChain [some ⟨some "primary", some "http://rpc.example", false⟩]).LatestHead
      (steadyEnv "mainnet") [0]) =
      some (⟨"7", [104, 97, 115, 104], 1700000000⟩, none) ∧
    ∃ head, (singleNodeChain [some ⟨some "primary", some "http://rpc.example", false⟩]).LatestHead
        (steadyEnv "mainnet") [0] = some (head, none) ∧
      head.Height = toString 7 ∧
      strconv.parseDecimal head.Height = some 7 ∧
      head.Hash = (MarshalText "hash").1 ∧
      (head.Timestamp : Int) = 1700000000 :=
  ⟨by decide,
    (LatestHead_of_block
      (singleNodeChain [some ⟨some "primary", some "http://rpc.example", false⟩])
      (steadyEnv "mainnet") [0]
      (Handle.verified (newVerifier "http://rpc.example" "mainnet" (steadyPeer "mainnet")))
      ⟨"hash", some 7, some 1700000000⟩ rfl rfl).1 7 1700000000 rfl rfl (by decide)
      (by decide)⟩

end solana

/-! ## The peer registry -/

namespace solana

/-- For a node that is nil or lacks a name or a URL, `verifiedClient` fails and
leaves the chain as it is. -/
theorem verifiedClient_of_not_constructible (c : chain) (env : Env)
    (node : Option config.Node) (h : constructible node = none) :
    ∃ e, c.verifiedClient env node = (c, (none, some e)) := by
  rcases node with _ | node
  · exact ⟨_, rfl⟩
  · unfold constructible at h
    unfold chain.verifiedClient
    rcases hN : node.Name with _ | name <;> rcases hU : node.URL with _ | url <;>
      simp [hN, hU] at h ⊢

/-- For a node with a name and a URL, `verifiedClient` answers with the cached
verifier of the URL, or with a fresh one that it appends to the cache. -/
theorem verifiedClient_of_constructible (c : chain) (env : Env)
    (node : Option config.Node) (url : String) (h : constructible node = some url) :
    c.verifiedClient env node =
      ((c.lookupOrInsert env url).1, (some (c.lookupOrInsert env url).2, none)) := by
  rcases node with _ | node
  · simp [constructible] at h
  · unfold constructible at h
    unfold chain.verifiedClient chain.lookupOrInsert
    rcases hN : node.Name with _ | name <;> rcases hU : node.URL with _ | url1 <;>
      simp [hN, hU] at h ⊢
    subst h
    rcases hl : c.clientCache.lookup url1 with _ | cl
    · simp [client.NewClient, newVerifier]
    · simp

/-- The loop of `getClient` answers with the verifier of the first
constructible node in the order of the indexes, with nil when every node tried
is present and fails, and panics when a nil node comes first; nodes that fail
leave the chain as it is. -/
theorem tryNodes_eq (env : Env) (nodes : List (Option config.Node)) (perm : List Nat) :
    ∀ c : chain, c.tryNodes env nodes perm =
      match firstConstructible nodes perm with
      | none => none
      | some none => some (c, none)
      | some (some url) =>
        some ((c.lookupOrInsert env url).1, some (c.lookupOrInsert env url).2) := by
  induction perm with
  | nil => intro c; rfl
  | cons i rest ih =>
    intro c
    unfold chain.tryNodes firstConstructible
    rcases hn : nodes[i]? with _ | _ | node
    · rfl
    · rfl
    · simp only []
      rcases hc : constructible (some node) with _ | url
      · obtain ⟨e, he⟩ := verifiedClient_of_not_constructible c env (some node) hc
        simp only [he]
        exact ih c
      · rw [verifiedClient_of_constructible c env _ url hc]

/-- Every index of the list leads to a node that is present and not
constructible exactly when `firstConstructible` ends without a node and
without a panic. -/
theorem firstConstructible_eq_some_none (nodes : List (Option config.Node)) (perm : List Nat) :
    firstConstructible nodes perm = some none ↔
      ∀ i ∈ perm, ∃ node, nodes[i]? = some (some node) ∧ constructible (some node) = none := by
  induction perm with
  | nil => simp [firstConstructible]
  | cons i rest ih =>
    unfold firstConstructible
    rcases hn : nodes[i]? with _ | _ | node
    · simp only []
      constructor
      · intro h
        cases h
      · intro h
        obtain ⟨node, hnode, -⟩ := h i (List.mem_cons_self _ _)
        rw [hn] at hnode
        cases hnode
    · simp only []
      constructor
      · intro h
        cases h
      · intro h
        obtain ⟨node, hnode, -⟩ := h i (List.mem_cons_self _ _)
        rw [hn] at hnode
        cases hnode
    · simp only []
      rcases hc : constructible (some node) with _ | url
      · simp only []
        rw [ih]
        constructor
        · intro h j hj
          rcases List.mem_cons.1 hj with rfl | hj
          · exact ⟨node, hn, hc⟩
          · exact h j hj
        · intro h j hj
          exact h j (List.mem_cons_of_mem _ hj)
      · simp only []
        constructor
        · intro h
          cases h
        · intro h
          obtain ⟨node1, hnode, hc1⟩ := h i (List.mem_cons_self _ _)
          rw [hn] at hnode
          cases hnode
          rw [hc] at hc1
          cases hc1

/-- The loop panics exactly when some index leads to a nil node (or lies
outside the list) and every index before it leads to a node that is present
and not constructible. -/
theorem firstConstructible_eq_none (nodes : List (Option config.Node)) (perm : List Nat) :
    firstConstructible nodes perm = none ↔
      ∃ before i after, perm = before ++ i :: after ∧
        (nodes[i]? = none ∨ nodes[i]? = some none) ∧
        ∀ j ∈ before, ∃ node, nodes[j]? = some (some node) ∧
          constructible (some node) = none := by
  induction perm with
  | nil => simp [firstConstructible]
  | cons i rest ih =>
    unfold firstConstructible
    rcases hn : nodes[i]? with _ | _ | node
    · simp only []
      constructor
      · intro _
        exact ⟨[], i, rest, rfl, Or.inl hn, by simp⟩
      · intro _
        trivial
    · simp only []
      constructor
      · intro _
        exact ⟨[], i, rest, rfl, Or.inr hn, by simp⟩
      · intro _
        trivial
    · simp only []
      rcases hc : constructible (some node) with _ | url
      · simp only []
        rw [ih]
        constructor
        · rintro ⟨before, k, after, hperm, hk, hbefore⟩
          refine ⟨i :: before, k, after, by rw [hperm]; rfl, hk, ?_⟩
          intro j hj1
          rcases List.mem_cons.1 hj1 with rfl | hj1
          · exact ⟨node, hn, hc⟩
          · exact hbefore j hj1
        · rintro ⟨before, k, after, hperm, hk, hbefore⟩
          rcases before with _ | ⟨b, before⟩
          · simp only [List.nil_append, List.cons.injEq] at hperm
            obtain ⟨rfl, -⟩ := hperm
            rw [hn] at hk
            rcases hk with hk | hk <;> cases hk
          · simp only [List.cons_append, List.cons.injEq] at hperm
            obtain ⟨rfl, hrest⟩ := hperm
            exact ⟨before, k, after, hrest, hk,
              fun j hj1 => hbefore j (List.mem_cons_of_mem _ hj1)⟩
      · simp only []
        constructor
        · intro h
          cases h
        · rintro ⟨before, k, after, hperm, hk, hbefore⟩
          rcases before with _ | ⟨b, before⟩
          · simp only [List.nil_append, List.cons.injEq] at hperm
            obtain ⟨rfl, -⟩ := hperm
            rw [hn] at hk
            rcases hk with hk | hk <;> cases hk
          · simp only [List.cons_append, List.cons.injEq] at hperm
            obtain ⟨rfl, -⟩ := hperm
            obtain ⟨node1, hnode, hc1⟩ := hbefore i (List.mem_cons_self _ _)
            rw [hn] at hnode
            cases hnode
            rw [hc] at hc1
            cases hc1

/-- Over a permutation of the indexes, the loop ends without a node and without
a panic exactly when every node of the list is present and not constructible. -/
theorem firstConstructible_perm_eq_some_none (nodes : List (Option config.Node))
    (perm : List Nat) (hperm : perm.Perm (List.range nodes.length)) :
    firstConstructible nodes perm = some none ↔
      ∀ node ∈ nodes, ∃ n, node = some n ∧ constructible (some n) = none := by
  rw [firstConstructible_eq_some_none]
  constructor
  · intro h node hmem
    obtain ⟨i, hi, rfl⟩ := List.getElem_of_mem hmem
    obtain ⟨n, hn, hc⟩ := h i (hperm.mem_iff.2 (List.mem_range.2 hi))
    rw [List.getElem?_eq_getElem hi] at hn
    exact ⟨n, Option.some.inj hn, hc⟩
  · intro h i hi
    have hlt : i < nodes.length := List.mem_range.1 (hperm.mem_iff.1 hi)
    obtain ⟨n, hn, hc⟩ := h nodes[i] (List.getElem_mem hlt)
    exact ⟨n, by rw [List.getElem?_eq_getElem hlt, hn], hc⟩

/-- In single-node mode `getClient` is the search for the first constructible
endpoint. -/
theorem getClient_of_singleNode (c : chain) (env : Env) (perm : List Nat)
    (hsingle : c.cfg.MultiNode.Enabled = false) :
    c.getClient env perm =
      if c.cfg.ListNodes.length = 0 then some (c, (none, some "no nodes available"))
      else match firstConstructible c.cfg.ListNodes perm with
        | none => none
        | some none => some (c, (none, some "no node valid nodes available"))
        | some (some url) => some ((c.lookupOrInsert env url).1,
            (some (Handle.verified (c.lookupOrInsert env url).2), none)) := by
  unfold chain.getClient
  simp only [hsingle, Bool.false_eq_true, if_false]
  split_ifs with h0
  · rfl
  · rw [tryNodes_eq]
    rcases firstConstructible c.cfg.ListNodes perm with _ | _ | url <;> rfl

/-- In single-node mode `getClient` fails with `no nodes available` on an empty
endpoint list, fails with `no node valid nodes available` when the list is not
empty and every tried endpoint is present and not constructible, panics when a
nil endpoint is tried before any constructible one, and otherwise returns the
verifier of the first constructible endpoint in the order of the permutation;
over a permutation of the endpoints it returns an error exactly when every
endpoint is present and not constructible. -/
theorem getClient_singleNode (c : chain) (env : Env) (perm : List Nat)
    (hsingle : c.cfg.MultiNode.Enabled = false) :
    (c.cfg.ListNodes = [] →
      c.getClient env perm = some (c, (none, some "no nodes available"))) ∧
    (c.cfg.ListNodes ≠ [] → firstConstructible c.cfg.ListNodes perm = some none →
      c.getClient env perm = some (c, (none, some "no node valid nodes available"))) ∧
    (∀ url, c.cfg.ListNodes ≠ [] →
      firstConstructible c.cfg.ListNodes perm = some (some url) →
      c.getClient env perm =
        some ((c.lookupOrInsert env url).1,
          (some (Handle.verified (c.lookupOrInsert env url).2), none))) ∧
    (c.cfg.ListNodes ≠ [] → firstConstructible c.cfg.ListNodes perm = none →
      c.getClient env perm = none) ∧
    (perm.Perm (List.range c.cfg.ListNodes.length) →
      ((∃ r e, c.getClient env perm = some r ∧ r.2.2 = some e) ↔
        ∀ node ∈ c.cfg.ListNodes, ∃ n, node = some n ∧ constructible (some n) = none)) := by
  have hget := getClient_of_singleNode c env perm hsingle
  refine ⟨?_, ?_, ?_, ?_, ?_⟩
  · intro h
    rw [hget, h]
    rfl
  · intro h hnone
    rw [hget, if_neg (by simpa using h), hnone]
  · intro url h hsome
    rw [hget, if_neg (by simpa using h), hsome]
  · intro h hnone
    rw [hget, if_neg (by simpa using h), hnone]
  · intro hperm
    rw [← firstConstructible_perm_eq_some_none _ _ hperm, hget]
    by_cases h0 : c.cfg.ListNodes.length = 0
    · have hnil : c.cfg.ListNodes = [] := List.length_eq_zero.1 h0
      have hp : perm = [] := by
        rw [hnil] at hperm
        simpa using hperm
      simp [h0, hp, firstConstructible]
    · rw [if_neg h0]
      rcases firstConstructible c.cfg.ListNodes perm with _ | _ | url <;> simp

/-- C14, evaluated on the code: with an empty endpoint list `getClient` fails
with `no nodes available`; with a non-empty list whose only endpoint has no
name it fails with the message `no node valid nodes available`, not
`no valid nodes available`; with a second, constructible endpoint it returns
that endpoint's verifier for both permutations; and with a nil endpoint before
a constructible one it panics, where it returns the constructible endpoint's
verifier when that one is tried first. -/
theorem getClient_error_messages :
    ((singleNodeChain []).getClient (steadyEnv "mainnet") []).map (fun r => r.2.2) =
      some (some "no nodes available") ∧
    ((singleNodeChain [some ⟨none, some "http://rpc.example", false⟩]).getClient
      (steadyEnv "mainnet") [0]).map (fun r => r.2.2) =
        some (some "no node valid nodes available") ∧
    ((singleNodeChain [some ⟨none, some "http://rpc.example", false⟩]).getClient
      (steadyEnv "mainnet") [0]).map (fun r => r.2.2) ≠
        some (some "no valid nodes available") ∧
    ((singleNodeChain [some ⟨none, some "http://a.example", false⟩,
        some ⟨some "b", some "http://b.example", false⟩]).getClient
      (steadyEnv "mainnet") [0, 1]).map (fun r => r.2.1.map Handle.url) =
        some (some "http://b.example") ∧
    ((singleNodeChain [some ⟨none, some "http://a.example", false⟩,
        some ⟨some "b", some "http://b.example", false⟩]).getClient
      (steadyEnv "mainnet") [1, 0]).map (fun r => r.2.1.map Handle.url) =
        some (some "http://b.example") ∧
    ((singleNodeChain [none, some ⟨some "b", some "http://b.example", false⟩]).getClient
      (steadyEnv "mainnet") [0, 1]).map (fun r => r.2.1.map Handle.url) = none ∧
    ((singleNodeChain [none, some ⟨some "b", some "http://b.example", false⟩]).getClient
      (steadyEnv "mainnet") [1, 0]).map (fun r => r.2.1.map Handle.url) =
        some (some "http://b.example") := by
  refine ⟨by decide, by decide, by decide, by decide, by decide, by decide, by decide⟩

end solana

namespace solana

/-- A request for a URL appends at most one fresh entry to the cache. -/
theorem lookupOrInsert_extends (c : chain) (env : Env) (url : String) :
    c.extendedBy (c.lookupOrInsert env url).1 := by
  unfold chain.lookupOrInsert
  rcases hl : c.clientCache.lookup url with _ | cl
  · refine ⟨rfl, rfl, [(url, newVerifier url c.id (env.net url))], rfl, ?_⟩
    intro p hp
    rw [List.mem_singleton] at hp
    subst hp
    exact ⟨rfl, rfl, rfl, rfl, rfl⟩
  · exact ⟨rfl, rfl, [], by simp, by simp⟩

/-- A request for a URL keeps the URLs of the cache distinct. -/
theorem lookupOrInsert_nodup (c : chain) (env : Env) (url : String)
    (h : c.cachedURLs.Nodup) : (c.lookupOrInsert env url).1.cachedURLs.Nodup := by
  unfold chain.lookupOrInsert
  rcases hl : c.clientCache.lookup url with _ | cl
  · have hnot : url ∉ c.clientCache.map Prod.fst := by
      rw [List.lookup_eq_none_iff] at hl
      intro hmem
      obtain ⟨p, hp, hpu⟩ := List.mem_map.1 hmem
      have := hl p hp
      simp [hpu] at this
    simp only [chain.cachedURLs, List.map_append, List.map_cons, List.map_nil]
    rw [List.nodup_append]
    refine ⟨h, List.nodup_singleton _, ?_⟩
    intro a ha hb
    rw [List.mem_singleton] at hb
    subst hb
    exact hnot ha
  · exact h

/-- The cached verifier of a URL is what a request for the URL answers with,
and the request leaves the chain as it is. -/
theorem lookupOrInsert_of_cached (c : chain) (env : Env) (url : String)
    (cl : verifiedCachedClient) (h : c.clientCache.lookup url = some cl) :
    c.lookupOrInsert env url = (c, cl) := by
  unfold chain.lookupOrInsert
  rw [h]

/-- After a request for a URL the cache holds, for that URL, the verifier the
request answered with. -/
theorem lookupOrInsert_lookup (c : chain) (env : Env) (url : String) :
    (c.lookupOrInsert env url).1.clientCache.lookup url = some (c.lookupOrInsert env url).2 := by
  unfold chain.lookupOrInsert
  rcases hl : c.clientCache.lookup url with _ | cl
  · simp [List.lookup_append, hl]
  · simpa using hl

/-- Extension of the registry is reflexive. -/
theorem extendedBy_refl (c : chain) : c.extendedBy c :=
  ⟨rfl, rfl, [], by simp, by simp⟩

/-- Extension of the registry is transitive. -/
theorem extendedBy_trans (a b c : chain) (hab : a.extendedBy b) (hbc : b.extendedBy c) :
    a.extendedBy c := by
  obtain ⟨hid, hcfg, e1, hc1, hf1⟩ := hab
  obtain ⟨hid2, hcfg2, e2, hc2, hf2⟩ := hbc
  refine ⟨hid2.trans hid, hcfg2.trans hcfg, e1 ++ e2, by rw [hc2, hc1, List.append_assoc], ?_⟩
  intro p hp
  rcases List.mem_append.1 hp with hp | hp
  · exact hf1 p hp
  · have := hf2 p hp
    rwa [hid] at this

/-- An entry of the cache stays, with the same verifier, in every extension. -/
theorem extendedBy_lookup (c c1 : chain) (h : c.extendedBy c1) (url : String)
    (cl : verifiedCachedClient) (hl : c.clientCache.lookup url = some cl) :
    c1.clientCache.lookup url = some cl := by
  obtain ⟨-, -, extra, hc, -⟩ := h
  rw [hc, List.lookup_append, hl]
  rfl

/-- In multi-node mode `getClient` leaves the chain as it is. -/
theorem getClient_of_multiNode (c : chain) (env : Env) (perm : List Nat)
    (hmulti : c.cfg.MultiNode.Enabled = true) :
    ∃ r, c.getClient env perm = some (c, r) ∧ ∀ v, r.1 ≠ some (Handle.verified v) := by
  unfold chain.getClient
  simp only [hmulti, if_true]
  rcases env.SelectRPC c.multiNode with ⟨_ | r, err⟩
  · exact ⟨_, rfl, by simp⟩
  · exact ⟨_, rfl, by simp⟩

/-- A call on the registry leaves the chain as it is and returns no verifier,
or is a request for some URL that answers with the verifier the call
returns. -/
theorem RegistryCall.run_cases (env : Env) (call : RegistryCall) (c : chain) :
    call.run env c = (c, none) ∨
      ∃ url, call.run env c = ((c.lookupOrInsert env url).1, some (c.lookupOrInsert env url).2) := by
  cases call with
  | verifiedClient node =>
    rcases hc : constructible node with _ | url
    · obtain ⟨e, he⟩ := verifiedClient_of_not_constructible c env node hc
      left
      simp [RegistryCall.run, he]
    · right
      exact ⟨url, by simp [RegistryCall.run, verifiedClient_of_constructible c env node url hc]⟩
  | Reader perm =>
    cases hm : c.cfg.MultiNode.Enabled
    · have hg := getClient_of_singleNode c env perm hm
      by_cases h0 : c.cfg.ListNodes.length = 0
      · left
        simp [RegistryCall.run, chain.Reader, hg, h0]
      · rcases hf : firstConstructible c.cfg.ListNodes perm with _ | _ | url
        · left
          simp [RegistryCall.run, chain.Reader, hg, h0, hf]
        · left
          simp [RegistryCall.run, chain.Reader, hg, h0, hf]
        · right
          exact ⟨url, by simp [RegistryCall.run, chain.Reader, hg, h0, hf]⟩
    · left
      obtain ⟨r, hr, hv⟩ := getClient_of_multiNode c env perm hm
      rcases r with ⟨_ | _ | m, err⟩
      · simp [RegistryCall.run, chain.Reader, hr]
      · exact absurd rfl (hv _)
      · simp [RegistryCall.run, chain.Reader, hr]

/-- Every sequence of calls on the registry extends it and keeps the URLs of
the cache distinct. -/
theorem runRegistry_extends (env : Env) (calls : List RegistryCall) :
    ∀ c : chain, c.extendedBy (runRegistry env c calls) ∧
      (c.cachedURLs.Nodup → (runRegistry env c calls).cachedURLs.Nodup) := by
  induction calls with
  | nil => intro c; exact ⟨extendedBy_refl c, fun h => h⟩
  | cons call rest ih =>
    intro c
    have hstep : c.extendedBy (call.run env c).1 ∧
        (c.cachedURLs.Nodup → (call.run env c).1.cachedURLs.Nodup) := by
      rcases RegistryCall.run_cases env call c with h | ⟨url, h⟩
      · rw [h]
        exact ⟨extendedBy_refl c, fun h => h⟩
      · rw [h]
        exact ⟨lookupOrInsert_extends c env url, lookupOrInsert_nodup c env url⟩
    obtain ⟨h1, h2⟩ := ih (call.run env c).1
    exact ⟨extendedBy_trans _ _ _ hstep.1 h1, fun h => h2 (hstep.2 h)⟩

end solana

namespace solana

/-- C15: after any sequence of `verifiedClient` and `Reader()` calls on a
single-node chain whose cache holds at most one verifier per URL, the cache
still holds at most one verifier per URL; it is the old cache followed by new
entries, each unverified, expecting the chain id and stored under its own URL;
and a verifier the cache holds for a URL is still there after any later calls
and is what `verifiedClient` then returns for every node with that URL,
whatever the node's name. -/
theorem registry_idempotent (c : chain) (env : Env) (calls later : List RegistryCall)
    (hsingle : c.cfg.MultiNode.Enabled = false) (hnodup : c.cachedURLs.Nodup) :
    (runRegistry env c calls).cfg.MultiNode.Enabled = false ∧
    (runRegistry env c calls).cachedURLs.Nodup ∧
    (∃ extra, (runRegistry env c calls).clientCache = c.clientCache ++ extra ∧
      ∀ p ∈ extra, p.2.chainIDVerified = false ∧ p.2.expectedChainID = c.id ∧
        p.2.nodeURL = p.1) ∧
    (∀ url cl, (runRegistry env c calls).clientCache.lookup url = some cl →
      (runRegistry env (runRegistry env c calls) later).clientCache.lookup url = some cl ∧
      ∀ node, constructible node = some url →
        (runRegistry env (runRegistry env c calls) later).verifiedClient env node =
          (runRegistry env (runRegistry env c calls) later, (some cl, none))) ∧
    (∀ (call : RegistryCall) (v : verifiedCachedClient),
      (call.run env (runRegistry env c calls)).2 = some v →
      ∃ url, (call.run env (runRegistry env c calls)).1.clientCache.lookup url = some v) := by
  obtain ⟨⟨hid, hcfg, extra, hcache, hfresh⟩, hnd⟩ := runRegistry_extends env calls c
  refine ⟨by rw [hcfg]; exact hsingle, hnd hnodup, ⟨extra, hcache, ?_⟩, ?_, ?_⟩
  · intro p hp
    obtain ⟨h1, h2, h3, -, -⟩ := hfresh p hp
    exact ⟨h1, h2, h3⟩
  · intro url cl hl
    have hlater := (runRegistry_extends env later (runRegistry env c calls)).1
    have hl2 := extendedBy_lookup _ _ hlater url cl hl
    refine ⟨hl2, ?_⟩
    intro node hnode
    rw [verifiedClient_of_constructible _ env node url hnode,
      lookupOrInsert_of_cached _ env url cl hl2]
  · intro call v hv
    rcases RegistryCall.run_cases env call (runRegistry env c calls) with h | ⟨url, h⟩
    · rw [h] at hv
      cases hv
    · refine ⟨url, ?_⟩
      rw [h] at hv ⊢
      rw [← Option.some.inj hv]
      exact lookupOrInsert_lookup _ env url

/-- C15, at a concrete input: on a chain with endpoints `a` and `b`, `Reader()`
twice (once per permutation), then `verifiedClient` for a node named `c` that
shares the URL of `a`: the cache holds one verifier per URL. -/
theorem registry_idempotent_witness :
    twoNodeChain.cfg.MultiNode.Enabled = false ∧
    twoNodeChain.cachedURLs.Nodup ∧
    (runRegistry (steadyEnv "mainnet") twoNodeChain
      [RegistryCall.Reader [0, 1], RegistryCall.Reader [1, 0], RegistryCall.Reader [0, 1],
        RegistryCall.verifiedClient (some ⟨some "c", some "http://a.example", false⟩)]
      ).cachedURLs = ["http://a.example", "http://b.example"] ∧
    (runRegistry (steadyEnv "mainnet") twoNodeChain
      [RegistryCall.Reader [0, 1], RegistryCall.Reader [1, 0], RegistryCall.Reader [0, 1],
        RegistryCall.verifiedClient (some ⟨some "c", some "http://a.example", false⟩)]
      ).cachedURLs.Nodup :=
  ⟨rfl, by decide, by decide,
    (registry_idempotent twoNodeChain (steadyEnv "mainnet")
      [RegistryCall.Reader [0, 1], RegistryCall.Reader [1, 0], RegistryCall.Reader [0, 1],
        RegistryCall.verifiedClient (some ⟨some "c", some "http://a.example", false⟩)] []
      rfl (by decide)).2.1⟩

end solana

/-! ## Transact -/

namespace solana

/-- A successful `sendTx` made exactly one call of `Enqueue`, with the empty
account id, no transaction id, the options of `sendTxOptions`, and the
transaction built from one transfer instruction. -/
theorem sendTx_success [strings.Lowering] (c : chain) (env : Env) (txEnv : TxEnv) (perm : List Nat)
    (sender recipient : String) (amount : Int) (balanceCheck : Bool) (out : SendTxOutcome)
    (h : c.sendTx env txEnv perm sender recipient amount balanceCheck = some out)
    (hok : out.err = none) :
    0 ≤ amount ∧ amount < (uint64Size : Int) ∧
    ∃ blockhash, out.enqueued =
      [{ accountID := "",
         tx := { Message :=
                   { Instructions := [solanago.Instruction.systemTransfer amount.toNat
                       (txEnv.PublicKeyFromBase58 sender).1
                       (txEnv.PublicKeyFromBase58 recipient).1],
                     RecentBlockhash := blockhash,
                     FeePayer := (txEnv.PublicKeyFromBase58 sender).1 },
                 Signatures := [] },
         txID := none, txCfgs := sendTxOptions }] := by
  unfold chain.sendTx at h
  rcases hr : (c.Reader env perm).map Prod.snd with _ | ⟨reader, _ | e⟩
  · simp [hr] at h
  · rcases hf : txEnv.PublicKeyFromBase58 sender with ⟨fromKey, _ | e⟩
    · rcases ht : txEnv.PublicKeyFromBase58 recipient with ⟨toKey, _ | e⟩
      · by_cases ha : 0 ≤ amount ∧ amount < (uint64Size : Int)
        · rcases hb : reader.map Handle.LatestBlockhash with
            _ | ⟨reader1, _ | blockhash, _ | e⟩
          · simp [hr, hf, ht, ha, hb] at h
          · simp [hr, hf, ht, ha, hb] at h
          · simp [hr, hf, ht, ha, hb] at h
            subst h
            simp at hok
          · rcases hv : blockhash.Value with _ | value
            · simp [hr, hf, ht, ha, hb, hv] at h
            · simp only [hr, hf, ht, ha, hb, hv, solanago.NewTransaction, List.length_singleton,
                Nat.one_ne_zero, if_false, not_true_eq_false] at h
              rcases hbal : (if balanceCheck then
                  solanaValidateBalance reader1 fromKey amount.toNat
                    (txEnv.ToBase64
                      { Instructions := [solanago.Instruction.systemTransfer amount.toNat
                          fromKey toKey],
                        RecentBlockhash := value.Blockhash, FeePayer := fromKey })
                else none) with _ | e
              · simp only [hbal] at h
                rcases hen : txEnv.EnqueueErr
                    { accountID := "",
                      tx := { Message :=
                                { Instructions := [solanago.Instruction.systemTransfer
                                    amount.toNat fromKey toKey],
                                  RecentBlockhash := value.Blockhash, FeePayer := fromKey },
                              Signatures := [] },
                      txID := none, txCfgs := sendTxOptions } with _ | e
                · simp only [hen] at h
                  have := Option.some.inj h
                  subst this
                  exact ⟨ha.1, ha.2, value.Blockhash, rfl⟩
                · simp only [hen] at h
                  have := Option.some.inj h
                  subst this
                  simp at hok
              · simp only [hbal] at h
                have := Option.some.inj h
                subst this
                simp at hok
          · simp [hr, hf, ht, ha, hb] at h
            subst h
            simp at hok
        · simp [hr, hf, ht, ha] at h
          subst h
          simp at hok
      · simp [hr, hf, ht] at h
        subst h
        simp at hok
    · simp [hr, hf] at h
      subst h
      simp at hok
  · simp [hr] at h
    subst h
    simp at hok

end solana

namespace solana

/-- C16: the options `Transact` passes to `Enqueue`, applied in order to an
empty `TxConfig`, give compute-unit limit 500 and maximum, minimum and base
compute-unit price and fee-bump period 0; applied to any configuration they
change these five fields only, each setter changing its own field; and a
successful `Transact` enqueues one transaction whose only instruction is the
system transfer of the given amount from the from-key to the to-key, with the
from-key as payer. -/
theorem Transact_enqueues_single_transfer [strings.Lowering] (c : chain) (env : Env) (txEnv : TxEnv)
    (perm : List Nat) (sender recipient : String) (amount : Int) (balanceCheck : Bool)
    (out : SendTxOutcome)
    (h : c.Transact env txEnv perm sender recipient amount balanceCheck = some out)
    (hok : out.err = none) :
    txm.applyAll sendTxOptions txm.TxConfig.empty =
      { Timeout := 0, FeeBumpPeriod := 0, BaseComputeUnitPrice := 0, ComputeUnitPriceMin := 0,
        ComputeUnitPriceMax := 0, ComputeUnitLimit := 500 } ∧
    (∀ cfg : txm.TxConfig, txm.applyAll sendTxOptions cfg =
      { Timeout := cfg.Timeout, FeeBumpPeriod := 0, BaseComputeUnitPrice := 0,
        ComputeUnitPriceMin := 0, ComputeUnitPriceMax := 0, ComputeUnitLimit := 500 }) ∧
    (∀ (cfg : txm.TxConfig) (v : Nat),
      txm.SetComputeUnitLimit v cfg = { cfg with ComputeUnitLimit := v } ∧
      txm.SetComputeUnitPriceMax v cfg = { cfg with ComputeUnitPriceMax := v } ∧
      txm.SetComputeUnitPriceMin v cfg = { cfg with ComputeUnitPriceMin := v } ∧
      txm.SetBaseComputeUnitPrice v cfg = { cfg with BaseComputeUnitPrice := v } ∧
      txm.SetFeeBumpPeriod v cfg = { cfg with FeeBumpPeriod := v }) ∧
    ((amount.toNat : Int) = amount ∧ amount.toNat < uint64Size) ∧
    ∃ call, out.enqueued = [call] ∧ call.txCfgs = sendTxOptions ∧
      call.tx.Message.Instructions =
        [solanago.Instruction.systemTransfer amount.toNat
          (txEnv.PublicKeyFromBase58 sender).1 (txEnv.PublicKeyFromBase58 recipient).1] ∧
      call.tx.Message.FeePayer = (txEnv.PublicKeyFromBase58 sender).1 := by
  obtain ⟨h0, h1, blockhash, henq⟩ :=
    sendTx_success c env txEnv perm sender recipient amount balanceCheck out h hok
  refine ⟨rfl, fun cfg => rfl, fun cfg v => ⟨rfl, rfl, rfl, rfl, rfl⟩, ⟨?_, ?_⟩, ?_⟩
  · exact Int.toNat_of_nonneg h0
  · have : ((amount.toNat : Nat) : Int) < (uint64Size : Int) := by
      rw [Int.toNat_of_nonneg h0]; exact h1
    exact_mod_cast this
  · exact ⟨_, henq, rfl, rfl, rfl⟩

/-- C16, at a concrete input: a checked transfer of 7 lamports from `alice` to
`bob`. -/
theorem Transact_enqueues_single_transfer_witness :
    transferOutcome.err = none ∧
    ∃ call, transferOutcome.enqueued = [call] ∧ call.txCfgs = sendTxOptions ∧
      call.tx.Message.Instructions =
        [solanago.Instruction.systemTransfer (7 : Int).toNat
          (({} : TxEnv).PublicKeyFromBase58 "alice").1
          (({} : TxEnv).PublicKeyFromBase58 "bob").1] ∧
      call.tx.Message.FeePayer = (({} : TxEnv).PublicKeyFromBase58 "alice").1 :=
  ⟨rfl,
    (Transact_enqueues_single_transfer transferChain transferEnv {} [0] "alice" "bob" 7 true
      transferOutcome rfl rfl).2.2.2.2⟩

end solana

/-! ## Node statuses -/

namespace solana

/-- When every node of the page converts, the loop of `listNodeStatuses`
appends their statuses in order and returns no error. -/
theorem collectNodeStatuses_of_ok
    (NodeStatus : Option config.Node → String → Result types.NodeStatus) (chainID : String)
    (nodes : List (Option config.Node)) :
    ∀ stats : List types.NodeStatus,
      (∀ node ∈ nodes, (NodeStatus node chainID).2 = none) →
      collectNodeStatuses NodeStatus chainID nodes stats =
        (stats ++ nodes.map (fun node => (NodeStatus node chainID).1), none) := by
  induction nodes with
  | nil => intro stats _; simp [collectNodeStatuses]
  | cons node rest ih =>
    intro stats h
    have hn : (NodeStatus node chainID).2 = none := h node (List.mem_cons_self _ _)
    have hrest : ∀ n ∈ rest, (NodeStatus n chainID).2 = none :=
      fun n hn => h n (List.mem_cons_of_mem _ hn)
    unfold collectNodeStatuses
    rcases hs : NodeStatus node chainID with ⟨stat, _ | e⟩
    · simp only [ih (stats ++ [stat]) hrest]
      simp [hs]
    · rw [hs] at hn
      cases hn

/-- C21: for `0 ≤ start ≤ end`, `listNodeStatuses(start, end)` does not panic
and returns the number of configured nodes as total; when `start` is at or
beyond the total it returns no status and the out-of-range error (so with no
nodes there is no valid first page); otherwise, when every node of the page
converts, it returns without error the statuses of
`nodes[start .. min(end, total))` in configuration order,
`min(end, total) − start` of them. -/
theorem listNodeStatuses_page (c : chain)
    (NodeStatus : Option config.Node → String → Result types.NodeStatus) (start stop : Nat)
    (h : start ≤ stop) :
    ∃ stats err, c.listNodeStatuses NodeStatus start stop =
        some (stats, (c.cfg.Nodes.length : Int), err) ∧
      (c.cfg.Nodes.length ≤ start → stats = [] ∧ err = some chains.ErrOutOfRange) ∧
      (start < c.cfg.Nodes.length →
        (∀ node ∈ (c.cfg.Nodes.drop start).take (min stop c.cfg.Nodes.length - start),
          (NodeStatus node c.id).2 = none) →
        err = none ∧
        stats = ((c.cfg.Nodes.drop start).take (min stop c.cfg.Nodes.length - start)).map
          (fun node => (NodeStatus node c.id).1) ∧
        stats.length = min stop c.cfg.Nodes.length - start) := by
  unfold chain.listNodeStatuses
  by_cases hge : (start : Int) ≥ (c.cfg.Nodes.length : Int)
  · have hle : c.cfg.Nodes.length ≤ start := by exact_mod_cast hge
    simp only [hge, if_true]
    exact ⟨[], _, rfl, fun _ => ⟨rfl, rfl⟩, fun hlt => absurd hle (by omega)⟩
  · have hlt : start < c.cfg.Nodes.length := by
      by_contra hcon
      exact hge (by exact_mod_cast Nat.le_of_not_lt hcon)
    simp only [hge, if_false]
    have hstop : (if (stop : Int) > (c.cfg.Nodes.length : Int) then (c.cfg.Nodes.length : Int)
        else (stop : Int)) = ((min stop c.cfg.Nodes.length : Nat) : Int) := by
      by_cases hs : (stop : Int) > (c.cfg.Nodes.length : Int)
      · have : c.cfg.Nodes.length < stop := by exact_mod_cast hs
        rw [if_pos hs, Nat.min_eq_right (by omega)]
      · have : stop ≤ c.cfg.Nodes.length := by
          by_contra hcon
          exact hs (by exact_mod_cast Nat.lt_of_not_le hcon)
        rw [if_neg hs, Nat.min_eq_left this]
    rw [hstop]
    have hnopanic : ¬ ((start : Int) < 0 ∨ ((min stop c.cfg.Nodes.length : Nat) : Int) < start) := by
      have : start ≤ min stop c.cfg.Nodes.length := by
        rw [Nat.le_min]; exact ⟨h, by omega⟩
      omega
    simp only [hnopanic, if_false]
    have hstart : (start : Int).toNat = start := Int.toNat_natCast start
    have hlen : (((min stop c.cfg.Nodes.length : Nat) : Int) - (start : Int)).toNat =
        min stop c.cfg.Nodes.length - start := by omega
    rw [hstart, hlen]
    refine ⟨_, _, rfl, fun hle => absurd hle (by omega), ?_⟩
    intro _ hok
    rw [collectNodeStatuses_of_ok NodeStatus c.id _ [] hok]
    refine ⟨rfl, by simp, ?_⟩
    simp only [List.nil_append, List.length_map, List.length_take, List.length_drop]
    have : start ≤ min stop c.cfg.Nodes.length := by
      rw [Nat.le_min]; exact ⟨h, by omega⟩
    have : min stop c.cfg.Nodes.length ≤ c.cfg.Nodes.length := Nat.min_le_right _ _
    omega

/-- C21, at a concrete input: the page `[1, 5)` of a chain with two nodes. -/
theorem listNodeStatuses_page_witness :
    twoNodeChain.listNodeStatuses plainNodeStatus 1 5 =
      some ([⟨"mainnet", "b", "http://b.example", ""⟩], 2, none) ∧
    (singleNodeChain []).listNodeStatuses plainNodeStatus 0 10 =
      some ([], 0, some "out of range") ∧
    ∃ stats err, twoNodeChain.listNodeStatuses plainNodeStatus (1 : Nat) (5 : Nat) =
        some (stats, (twoNodeChain.cfg.Nodes.length : Int), err) ∧
      (twoNodeChain.cfg.Nodes.length ≤ 1 → stats = [] ∧ err = some chains.ErrOutOfRange) ∧
      (1 < twoNodeChain.cfg.Nodes.length →
        (∀ node ∈ (twoNodeChain.cfg.Nodes.drop 1).take (min 5 twoNodeChain.cfg.Nodes.length - 1),
          (plainNodeStatus node twoNodeChain.id).2 = none) →
        err = none ∧
        stats = ((twoNodeChain.cfg.Nodes.drop 1).take
          (min 5 twoNodeChain.cfg.Nodes.length - 1)).map
          (fun node => (plainNodeStatus node twoNodeChain.id).1) ∧
        stats.length = min 5 twoNodeChain.cfg.Nodes.length - 1) :=
  ⟨by decide, by decide, listNodeStatuses_page twoNodeChain plainNodeStatus 1 5 (by decide)⟩

end solana

/-! ## The contract tracker -/

namespace solana

/-- Below the largest `Duration`, a timeout is exceeded by the saturated
difference exactly when it is exceeded by the difference. -/
theorem Since_gt_iff (now t timeout : Int) (hmin : time.minDuration ≤ timeout)
    (hmax : timeout < time.maxDuration) :
    time.Since now t > timeout ↔ now - t > timeout := by
  unfold time.Since time.Sub
  unfold time.minDuration at hmin
  unfold time.maxDuration at hmax
  simp only [time.maxDuration, time.minDuration]
  split_ifs <;> omega

/-- C22, as stated, fails: on a tracker that has stored no state yet and whose
stale timeout is the largest duration, at an instant two thousand years after
the zero time, `now − stateTime` exceeds the timeout while `ReadState` and
`ReadAnswer` return no error (`time.Since` saturates at the largest
duration). -/
theorem saturated_age_is_never_stale :
    63900000000000000000 - patientTracker.stateTime > patientTracker.staleTimeout ∧
    time.Since 63900000000000000000 patientTracker.stateTime = 9223372036854775807 ∧
    (patientTracker.ReadState 63900000000000000000).2.2 = none ∧
    63900000000000000000 - patientTracker.ansTime > patientTracker.staleTimeout ∧
    (patientTracker.ReadAnswer 63900000000000000000).2.2 = none := by
  refine ⟨by decide, by decide, by decide, by decide, by decide⟩

/-- C22, amended: `ReadState` leaves the tracker as it is, returns the stored
state, and returns an error exactly when `time.Since(stateTime)`, the
difference `now − stateTime` saturated to the range of `Duration`, is strictly
greater than the stale timeout; for a stale timeout below the largest duration
this is exactly `now − stateTime > staleTimeout`. `ReadAnswer` does the same
with the stored answer and `ansTime`. -/
theorem readers_report_staleness (c : ContractTracker) (now : Int) :
    ((c.ReadState now).1 = c ∧ (c.ReadState now).2.1 = c.state ∧
      ((c.ReadState now).2.2 ≠ none ↔ time.Since now c.stateTime > c.staleTimeout) ∧
      (time.minDuration ≤ c.staleTimeout → c.staleTimeout < time.maxDuration →
        ((c.ReadState now).2.2 ≠ none ↔ now - c.stateTime > c.staleTimeout))) ∧
    ((c.ReadAnswer now).1 = c ∧ (c.ReadAnswer now).2.1 = c.answer ∧
      ((c.ReadAnswer now).2.2 ≠ none ↔ time.Since now c.ansTime > c.staleTimeout) ∧
      (time.minDuration ≤ c.staleTimeout → c.staleTimeout < time.maxDuration →
        ((c.ReadAnswer now).2.2 ≠ none ↔ now - c.ansTime > c.staleTimeout))) := by
  have hS : (c.ReadState now).2.2 ≠ none ↔ time.Since now c.stateTime > c.staleTimeout := by
    unfold ContractTracker.ReadState
    by_cases h : time.Since now c.stateTime > c.staleTimeout <;> simp [h]
  have hA : (c.ReadAnswer now).2.2 ≠ none ↔ time.Since now c.ansTime > c.staleTimeout := by
    unfold ContractTracker.ReadAnswer
    by_cases h : time.Since now c.ansTime > c.staleTimeout <;> simp [h]
  refine ⟨⟨rfl, rfl, hS, ?_⟩, ⟨rfl, rfl, hA, ?_⟩⟩
  · intro hmin hmax
    rw [hS]
    exact Since_gt_iff now c.stateTime c.staleTimeout hmin hmax
  · intro hmin hmax
    rw [hA]
    exact Since_gt_iff now c.ansTime c.staleTimeout hmin hmax

/-- C22, amended, at concrete inputs: a timeout of one minute is not exceeded
after exactly one minute and is exceeded one nanosecond later. -/
theorem readers_report_staleness_witness :
    (minuteTracker.ReadState 60000001000).2.2 = none ∧
    (minuteTracker.ReadState 60000001001).2.2 =
      some "error in ReadState: stale state data, polling is likely experiencing errors" ∧
    ((minuteTracker.ReadState 60000001001).2.2 ≠ none ↔
      60000001001 - minuteTracker.stateTime > minuteTracker.staleTimeout) :=
  ⟨by decide, by decide,
    (readers_report_staleness minuteTracker 60000001001).1.2.2.2 (by decide) (by decide)⟩

/-- For a header with `LiveCursor < LiveLength < 2 ^ 32` the index of the
latest answer is `(LiveCursor + LiveLength − 1) mod LiveLength`. -/
theorem latestCursor_eq (header : TransmissionsHeader)
    (hcur : header.LiveCursor < header.LiveLength) (hlen : header.LiveLength < 2 ^ 32) :
    latestCursor header = (header.LiveCursor + header.LiveLength - 1) % header.LiveLength := by
  unfold latestCursor uint32Size
  by_cases h0 : header.LiveCursor = 0
  · simp only [h0, if_true, Nat.zero_add]
    rw [Nat.mod_eq_of_lt (a := header.LiveLength - 1) (by omega)]
    have : header.LiveLength + 2 ^ 32 - 1 = (header.LiveLength - 1) + 2 ^ 32 := by omega
    rw [this, Nat.add_mod_right, Nat.mod_eq_of_lt (by omega)]
  · simp only [h0, if_false]
    have h1 : header.LiveCursor + 2 ^ 32 - 1 = (header.LiveCursor - 1) + 2 ^ 32 := by omega
    have h2 : header.LiveCursor + header.LiveLength - 1 =
        (header.LiveCursor - 1) + header.LiveLength := by omega
    rw [h1, Nat.add_mod_right, Nat.mod_eq_of_lt (by omega), h2, Nat.add_mod_right,
      Nat.mod_eq_of_lt (by omega)]

end solana

namespace solana

/-- After a successful first request whose answer decodes to the header,
`GetLatestTransmission` with a header of version 2 requests
`TransmissionLen` bytes at `transmissionOffset`. -/
theorem GetLatestTransmission_requests (remote : rpc.Client) (layout : FeedLayout)
    (account : solanago.PublicKey) (rpcCommitment : rpc.CommitmentType)
    (res : rpc.GetAccountInfoResult) (acct : rpc.Account) (header : TransmissionsHeader)
    (hfetch : remote.GetAccountInfoWithOpts account
      (some { Encoding := "base64", Commitment := rpcCommitment,
              DataSlice := some { Offset := some 8, Length := some layout.HeaderLen } }) =
      (some res, none))
    (hval : res.Value = some acct) (hdec : layout.decodeHeader acct.Data = (header, none))
    (hver : header.Version = 2) :
    (GetLatestTransmission remote layout account rpcCommitment).requests =
      [{ Encoding := "base64", Commitment := rpcCommitment,
         DataSlice := some { Offset := some 8, Length := some layout.HeaderLen } },
       { Encoding := "base64", Commitment := rpcCommitment,
         DataSlice := some { Offset := some (transmissionOffset layout header),
                             Length := some layout.TransmissionLen } }] := by
  unfold GetLatestTransmission
  simp only [hfetch, Option.bind, hval, hdec, hver, ne_eq, not_true_eq_false, if_false]
  rcases remote.GetAccountInfoWithOpts account
      (some { Encoding := "base64", Commitment := rpcCommitment,
              DataSlice := some { Offset := some (transmissionOffset layout header),
                                  Length := some layout.TransmissionLen } }) with
    ⟨_ | r2, _ | e⟩
  · rfl
  · rfl
  · simp only
    rcases r2.Value with _ | account2
    · rfl
    · simp only
      rcases layout.decodeTransmission account2.Data with ⟨t, _ | e⟩ <;> rfl
  · rfl

/-- C23: for a fetched and decoded header of version 2 with
`LiveCursor < LiveLength` (32-bit values) and a transmission length of at most
`2 ^ 32` bytes, `GetLatestTransmission` reads the latest answer at the ring
index `(LiveCursor + LiveLength − 1) mod LiveLength`, which is below
`LiveLength` (and is `LiveLength − 1` for cursor 0): its second request asks
for `TransmissionLen` bytes at offset `8 + 192 + index × TransmissionLen`,
neither the 32-bit decrement nor the 64-bit offset wrapping around, and what
it returns is what that request answers: the answer and the timestamp of the
transmission decoded from those bytes, with the slot of the response, or the
error of the request, or the error of the decoder. -/
theorem latest_transmission_slice (remote : rpc.Client) (layout : FeedLayout)
    (account : solanago.PublicKey) (rpcCommitment : rpc.CommitmentType)
    (res : rpc.GetAccountInfoResult) (acct : rpc.Account) (header : TransmissionsHeader)
    (hfetch : remote.GetAccountInfoWithOpts account
      (some { Encoding := "base64", Commitment := rpcCommitment,
              DataSlice := some { Offset := some 8, Length := some layout.HeaderLen } }) =
      (some res, none))
    (hval : res.Value = some acct) (hdec : layout.decodeHeader acct.Data = (header, none))
    (hver : header.Version = 2)
    (hcur : header.LiveCursor < header.LiveLength) (hlen : header.LiveLength < 2 ^ 32)
    (hT : layout.TransmissionLen ≤ 2 ^ 32) :
    (header.LiveCursor + header.LiveLength - 1) % header.LiveLength < header.LiveLength ∧
    (header.LiveCursor = 0 →
      (header.LiveCursor + header.LiveLength - 1) % header.LiveLength =
        header.LiveLength - 1) ∧
    8 + 192 + (header.LiveCursor + header.LiveLength - 1) % header.LiveLength *
      layout.TransmissionLen < 2 ^ 64 ∧
    (GetLatestTransmission remote layout account rpcCommitment).requests =
      [{ Encoding := "base64", Commitment := rpcCommitment,
         DataSlice := some { Offset := some 8, Length := some layout.HeaderLen } },
       { Encoding := "base64", Commitment := rpcCommitment,
         DataSlice := some
           { Offset := some (8 + 192 +
               (header.LiveCursor + header.LiveLength - 1) % header.LiveLength *
                 layout.TransmissionLen),
             Length := some layout.TransmissionLen } }] ∧
    (∀ (res2 : rpc.GetAccountInfoResult) (acct2 : rpc.Account) (t : Transmission),
      remote.GetAccountInfoWithOpts account
        (some { Encoding := "base64", Commitment := rpcCommitment,
                DataSlice := some
                  { Offset := some (8 + 192 +
                      (header.LiveCursor + header.LiveLength - 1) % header.LiveLength *
                        layout.TransmissionLen),
                    Length := some layout.TransmissionLen } }) = (some res2, none) →
      res2.Value = some acct2 → layout.decodeTransmission acct2.Data = (t, none) →
      (GetLatestTransmission remote layout account rpcCommitment).out =
        some ({ Data := some t.Answer, Timestamp := t.Timestamp }, res2.Slot, none)) ∧
    (∀ (res2 : Option rpc.GetAccountInfoResult) (e : Error),
      remote.GetAccountInfoWithOpts account
        (some { Encoding := "base64", Commitment := rpcCommitment,
                DataSlice := some
                  { Offset := some (8 + 192 +
                      (header.LiveCursor + header.LiveLength - 1) % header.LiveLength *
                        layout.TransmissionLen),
                    Length := some layout.TransmissionLen } }) = (res2, some e) →
      (GetLatestTransmission remote layout account rpcCommitment).out =
        some (Answer.zero, 0, some ("error on rpc.GetAccountInfo [transmission]: " ++ e))) ∧
    (∀ (res2 : rpc.GetAccountInfoResult) (acct2 : rpc.Account) (t : Transmission) (e : Error),
      remote.GetAccountInfoWithOpts account
        (some { Encoding := "base64", Commitment := rpcCommitment,
                DataSlice := some
                  { Offset := some (8 + 192 +
                      (header.LiveCursor + header.LiveLength - 1) % header.LiveLength *
                        layout.TransmissionLen),
                    Length := some layout.TransmissionLen } }) = (some res2, none) →
      res2.Value = some acct2 → layout.decodeTransmission acct2.Data = (t, some e) →
      (GetLatestTransmission remote layout account rpcCommitment).out =
        some (Answer.zero, 0, some ("failed to decode transmission: " ++ e))) := by
  have hidx := latestCursor_eq header hcur hlen
  have hlt : (header.LiveCursor + header.LiveLength - 1) % header.LiveLength <
      header.LiveLength := Nat.mod_lt _ (by omega)
  have hbound : (header.LiveCursor + header.LiveLength - 1) % header.LiveLength *
      layout.TransmissionLen ≤ (2 ^ 32 - 1) * 2 ^ 32 :=
    Nat.mul_le_mul (by omega) hT
  have hsum : 8 + 192 + (header.LiveCursor + header.LiveLength - 1) % header.LiveLength *
      layout.TransmissionLen < 2 ^ 64 := by
    have : (2 ^ 32 - 1) * 2 ^ 32 + 200 < 2 ^ 64 := by norm_num
    omega
  have hoff : transmissionOffset layout header =
      8 + 192 + (header.LiveCursor + header.LiveLength - 1) % header.LiveLength *
        layout.TransmissionLen := by
    unfold transmissionOffset uint64Size
    rw [hidx, Nat.mod_eq_of_lt (a := _ * layout.TransmissionLen) (by omega),
      Nat.mod_eq_of_lt hsum]
  refine ⟨hlt, ?_, hsum, ?_, ?_, ?_, ?_⟩
  · intro h0
    rw [h0, Nat.zero_add]
    exact Nat.mod_eq_of_lt (by omega)
  · rw [GetLatestTransmission_requests remote layout account rpcCommitment res acct header
      hfetch hval hdec hver, hoff]
  · intro res2 acct2 t h2 hv2 hd2
    unfold GetLatestTransmission
    simp only [hfetch, Option.bind, hval, hdec, hver, ne_eq, not_true_eq_false, if_false,
      hoff, h2, hv2, hd2]
  · intro res2 e h2
    unfold GetLatestTransmission
    simp only [hfetch, Option.bind, hval, hdec, hver, ne_eq, not_true_eq_false, if_false,
      hoff, h2]
    rfl
  · intro res2 acct2 t e h2 hv2 hd2
    unfold GetLatestTransmission
    simp only [hfetch, Option.bind, hval, hdec, hver, ne_eq, not_true_eq_false, if_false,
      hoff, h2, hv2, hd2]
    rfl

/-- C23, at concrete inputs: on an account whose ring of 5 transmissions holds
answer `10 + i` with timestamp `20 + i` at index `i`, a header with cursor 0
makes the request ask for 48 bytes at offset 392 and the function return the
answer at index 4; with cursor 3 it returns the answer at index 2. -/
theorem latest_transmission_slice_witness :
    (GetLatestTransmission (feedRemote [2, 5, 0]) sampleLayout "feed"
      rpc.CommitmentType.confirmed).requests =
      [{ Encoding := "base64", Commitment := rpc.CommitmentType.confirmed,
         DataSlice := some { Offset := some 8, Length := some 192 } },
       { Encoding := "base64", Commitment := rpc.CommitmentType.confirmed,
         DataSlice := some { Offset := some 392, Length := some 48 } }] ∧
    (GetLatestTransmission (feedRemote [2, 5, 0]) sampleLayout "feed"
      rpc.CommitmentType.confirmed).requests =
      [{ Encoding := "base64", Commitment := rpc.CommitmentType.confirmed,
         DataSlice := some { Offset := some 8, Length := some sampleLayout.HeaderLen } },
       { Encoding := "base64", Commitment := rpc.CommitmentType.confirmed,
         DataSlice := some
           { Offset := some (8 + 192 + (0 + 5 - 1) % 5 * sampleLayout.TransmissionLen),
             Length := some sampleLayout.TransmissionLen } }] ∧
    (GetLatestTransmission (sliceRemote (ringAccount 0)) sampleLayout "feed"
      rpc.CommitmentType.confirmed).out = some (⟨some 14, 24⟩, 100, none) ∧
    (GetLatestTransmission (sliceRemote (ringAccount 3)) sampleLayout "feed"
      rpc.CommitmentType.confirmed).out = some (⟨some 12, 22⟩, 100, none) ∧
    (GetLatestTransmission (sliceRemote (ringAccount 0)) sampleLayout "feed"
      rpc.CommitmentType.confirmed).requests.map
        (fun o => o.DataSlice.map (fun d => (d.Offset, d.Length))) =
      [some (some 8, some 192), some (some 392, some 48)] :=
  ⟨by decide,
    (latest_transmission_slice (feedRemote [2, 5, 0]) sampleLayout "feed"
      rpc.CommitmentType.confirmed ⟨100, some ⟨1, "store", [2, 5, 0]⟩⟩ ⟨1, "store", [2, 5, 0]⟩
      ⟨2, 5, 0⟩ rfl rfl rfl rfl (by decide) (by decide) (by decide)).2.2.2.1,
    (latest_transmission_slice (sliceRemote (ringAccount 0)) sampleLayout "feed"
      rpc.CommitmentType.confirmed
      ⟨100, some ⟨1, "store", ((ringAccount 0).drop 8).take 192⟩⟩
      ⟨1, "store", ((ringAccount 0).drop 8).take 192⟩
      ⟨2, 5, 0⟩ rfl rfl (by decide) rfl (by decide) (by decide) (by decide)).2.2.2.2.1
      ⟨100, some ⟨1, "store", ((ringAccount 0).drop 392).take 48⟩⟩
      ⟨1, "store", ((ringAccount 0).drop 392).take 48⟩ ⟨14, 24⟩ rfl rfl (by decide),
    (latest_transmission_slice (sliceRemote (ringAccount 3)) sampleLayout "feed"
      rpc.CommitmentType.confirmed
      ⟨100, some ⟨1, "store", ((ringAccount 3).drop 8).take 192⟩⟩
      ⟨1, "store", ((ringAccount 3).drop 8).take 192⟩
      ⟨2, 5, 3⟩ rfl rfl (by decide) rfl (by decide) (by decide) (by decide)).2.2.2.2.1
      ⟨100, some ⟨1, "store", ((ringAccount 3).drop 296).take 48⟩⟩
      ⟨1, "store", ((ringAccount 3).drop 296).take 48⟩ ⟨12, 22⟩ rfl rfl (by decide),
    by decide⟩

/-- Whenever the header is fetched and decoded and its version is not 2,
`GetLatestTransmission` returns the zero answer, slot 0 and a nil error. -/
theorem GetLatestTransmission_of_other_version (remote : rpc.Client) (layout : FeedLayout)
    (account : solanago.PublicKey) (rpcCommitment : rpc.CommitmentType)
    (res : rpc.GetAccountInfoResult) (acct : rpc.Account) (header : TransmissionsHeader)
    (hfetch : remote.GetAccountInfoWithOpts account
      (some { Encoding := "base64", Commitment := rpcCommitment,
              DataSlice := some { Offset := some 8, Length := some layout.HeaderLen } }) =
      (some res, none))
    (hval : res.Value = some acct) (hdec : layout.decodeHeader acct.Data = (header, none))
    (hver : header.Version ≠ 2) :
    (GetLatestTransmission remote layout account rpcCommitment).out =
      some (Answer.zero, 0, none) := by
  unfold GetLatestTransmission
  simp only [hfetch, Option.bind, hval, hdec, hver, ne_eq, not_false_eq_true, if_true]
  rfl

/-- C24, evaluated on the code: for a fetched and decoded header of version 1,
`GetLatestTransmission` wraps a nil error and returns the zero answer with a nil
error, after the header request only. -/
theorem other_version_returns_nil_error :
    sampleLayout.decodeHeader [1, 5, 0] = (⟨1, 5, 0⟩, none) ∧
    errors.Wrapf none "can't parse feed version 1" = none ∧
    (GetLatestTransmission (feedRemote [1, 5, 0]) sampleLayout "feed"
      rpc.CommitmentType.confirmed).out = some (Answer.zero, 0, none) ∧
    (GetLatestTransmission (feedRemote [1, 5, 0]) sampleLayout "feed"
      rpc.CommitmentType.confirmed).requests =
      [{ Encoding := "base64", Commitment := rpc.CommitmentType.confirmed,
         DataSlice := some { Offset := some 8, Length := some 192 } }] ∧
    (GetLatestTransmission (feedRemote [2, 5, 0]) sampleLayout "feed"
      rpc.CommitmentType.confirmed).out = some (⟨some 7, 9⟩, 100, none) := by
  refine ⟨by decide, by decide, by decide, by decide, by decide⟩

end solana

/-! ## Transact: the order of the checks -/

namespace solana

/-- The size of `uint64` as an integer. -/
theorem uint64Size_cast : ((uint64Size : Nat) : Int) = 2 ^ 64 := by
  unfold uint64Size
  norm_num

/-- When `Reader` panics (a nil endpoint is tried first), `sendTx` panics. -/
theorem sendTx_of_reader_panic [strings.Lowering] (c : chain) (env : Env) (txEnv : TxEnv) (perm : List Nat)
    (sender recipient : String) (amount : Int) (balanceCheck : Bool)
    (hr : c.Reader env perm = none) :
    c.sendTx env txEnv perm sender recipient amount balanceCheck = none := by
  unfold chain.sendTx
  rw [hr]
  rfl

/-- When the reader cannot be obtained, `sendTx` fails with
`chain unreachable`, whatever the keys and the amount. -/
theorem sendTx_of_reader_error [strings.Lowering] (c : chain) (env : Env) (txEnv : TxEnv) (perm : List Nat)
    (sender recipient : String) (amount : Int) (balanceCheck : Bool) (reader : Option Handle)
    (e : Error) (hr : (c.Reader env perm).map Prod.snd = some (reader, some e)) :
    c.sendTx env txEnv perm sender recipient amount balanceCheck =
      some ⟨some ("chain unreachable: " ++ e), [], false⟩ := by
  unfold chain.sendTx
  rw [hr]

/-- With a reader, an invalid from-key makes `sendTx` fail with
`failed to parse from key`, whatever the to-key and the amount. -/
theorem sendTx_of_from_error [strings.Lowering] (c : chain) (env : Env) (txEnv : TxEnv) (perm : List Nat)
    (sender recipient : String) (amount : Int) (balanceCheck : Bool) (reader : Option Handle)
    (e : Error) (hr : (c.Reader env perm).map Prod.snd = some (reader, none))
    (hf : (txEnv.PublicKeyFromBase58 sender).2 = some e) :
    c.sendTx env txEnv perm sender recipient amount balanceCheck =
      some ⟨some ("failed to parse from key: " ++ e), [], false⟩ := by
  unfold chain.sendTx
  rw [hr]
  rcases hF : txEnv.PublicKeyFromBase58 sender with ⟨fromKey, ef⟩
  rw [hF] at hf
  simp only at hf
  subst hf
  rfl

/-- With a reader and a valid from-key, an invalid to-key makes `sendTx` fail
with `failed to parse to key`, whatever the amount. -/
theorem sendTx_of_to_error [strings.Lowering] (c : chain) (env : Env) (txEnv : TxEnv) (perm : List Nat)
    (sender recipient : String) (amount : Int) (balanceCheck : Bool) (reader : Option Handle)
    (e : Error) (hr : (c.Reader env perm).map Prod.snd = some (reader, none))
    (hf : (txEnv.PublicKeyFromBase58 sender).2 = none)
    (ht : (txEnv.PublicKeyFromBase58 recipient).2 = some e) :
    c.sendTx env txEnv perm sender recipient amount balanceCheck =
      some ⟨some ("failed to parse to key: " ++ e), [], false⟩ := by
  unfold chain.sendTx
  rw [hr]
  rcases hF : txEnv.PublicKeyFromBase58 sender with ⟨fromKey, ef⟩
  rw [hF] at hf
  simp only at hf
  subst hf
  rcases hT : txEnv.PublicKeyFromBase58 recipient with ⟨toKey, et⟩
  rw [hT] at ht
  simp only at ht
  subst ht
  rfl

/-- With a reader and valid keys, an amount outside `[0, 2 ^ 64)` makes
`sendTx` fail with the overflow error. -/
theorem sendTx_of_amount_error [strings.Lowering] (c : chain) (env : Env) (txEnv : TxEnv) (perm : List Nat)
    (sender recipient : String) (amount : Int) (balanceCheck : Bool) (reader : Option Handle)
    (hr : (c.Reader env perm).map Prod.snd = some (reader, none))
    (hf : (txEnv.PublicKeyFromBase58 sender).2 = none)
    (ht : (txEnv.PublicKeyFromBase58 recipient).2 = none)
    (ha : amount < 0 ∨ 2 ^ 64 ≤ amount) :
    c.sendTx env txEnv perm sender recipient amount balanceCheck =
      some ⟨some ("amount " ++ toString amount ++ " overflows uint64"), [], false⟩ := by
  unfold chain.sendTx
  rw [hr]
  rcases hF : txEnv.PublicKeyFromBase58 sender with ⟨fromKey, ef⟩
  rw [hF] at hf
  simp only at hf
  subst hf
  rcases hT : txEnv.PublicKeyFromBase58 recipient with ⟨toKey, et⟩
  rw [hT] at ht
  simp only at ht
  subst ht
  have hbad : ¬ (0 ≤ amount ∧ amount < (uint64Size : Int)) := by
    rw [uint64Size_cast]
    omega
  simp only [hbad, not_false_eq_true, if_true]

/-- When `Reader` returns, an amount outside `[0, 2 ^ 64)` makes `sendTx` fail
without panic, without fetching a blockhash and without enqueuing. -/
theorem sendTx_of_bad_amount [strings.Lowering] (c : chain) (env : Env) (txEnv : TxEnv) (perm : List Nat)
    (sender recipient : String) (amount : Int) (balanceCheck : Bool)
    (r : chain × Result (Option Handle)) (hR : c.Reader env perm = some r)
    (ha : amount < 0 ∨ 2 ^ 64 ≤ amount) :
    ∃ out, c.sendTx env txEnv perm sender recipient amount balanceCheck = some out ∧
      out.err ≠ none ∧ out.enqueued = [] ∧ out.fetchedBlockhash = false := by
  obtain ⟨c1, reader, er⟩ := r
  have hr : (c.Reader env perm).map Prod.snd = some (reader, er) := by rw [hR]; rfl
  rcases er with _ | e
  · rcases hf : (txEnv.PublicKeyFromBase58 sender).2 with _ | e
    · rcases ht : (txEnv.PublicKeyFromBase58 recipient).2 with _ | e
      · exact ⟨_, sendTx_of_amount_error c env txEnv perm sender recipient amount balanceCheck
          reader hr hf ht ha, by simp, rfl, rfl⟩
      · exact ⟨_, sendTx_of_to_error c env txEnv perm sender recipient amount balanceCheck
          reader e hr hf ht, by simp, rfl, rfl⟩
    · exact ⟨_, sendTx_of_from_error c env txEnv perm sender recipient amount balanceCheck
        reader e hr hf, by simp, rfl, rfl⟩
  · exact ⟨_, sendTx_of_reader_error c env txEnv perm sender recipient amount balanceCheck
      reader e hr, by simp, rfl, rfl⟩

/-- With a reader, valid keys and an amount in range, a failing blockhash fetch
makes `sendTx` fail with `failed to get latest block hash`. -/
theorem sendTx_of_blockhash_error [strings.Lowering] (c : chain) (env : Env) (txEnv : TxEnv) (perm : List Nat)
    (sender recipient : String) (amount : Int) (balanceCheck : Bool) (reader : Handle)
    (e : Error)
    (hr : (c.Reader env perm).map Prod.snd = some (some reader, none))
    (hf : (txEnv.PublicKeyFromBase58 sender).2 = none)
    (ht : (txEnv.PublicKeyFromBase58 recipient).2 = none)
    (ha : 0 ≤ amount ∧ amount < 2 ^ 64)
    (hb : reader.LatestBlockhash.2.2 = some e) :
    c.sendTx env txEnv perm sender recipient amount balanceCheck =
      some ⟨some ("failed to get latest block hash: " ++ e), [], true⟩ := by
  unfold chain.sendTx
  rw [hr]
  rcases hF : txEnv.PublicKeyFromBase58 sender with ⟨fromKey, ef⟩
  rw [hF] at hf
  simp only at hf
  subst hf
  rcases hT : txEnv.PublicKeyFromBase58 recipient with ⟨toKey, et⟩
  rw [hT] at ht
  simp only at ht
  subst ht
  have hgood : (0 ≤ amount ∧ amount < (uint64Size : Int)) := by
    rw [uint64Size_cast]
    exact ha
  rcases hB : reader.LatestBlockhash with ⟨reader1, blockhash, eb⟩
  rw [hB] at hb
  simp only at hb
  subst hb
  dsimp only
  rw [if_neg (not_not.2 hgood)]
  simp only [Option.map, hB]

/-- With a reader, valid keys, an amount in range and a latest blockhash, a
failing balance validation makes a checked `sendTx` fail with
`failed to validate balance`, after the blockhash fetch and without
enqueuing. -/
theorem sendTx_of_balance_error [strings.Lowering] (c : chain) (env : Env) (txEnv : TxEnv) (perm : List Nat)
    (sender recipient : String) (amount : Int) (reader reader1 : Handle)
    (blockhash : rpc.GetLatestBlockhashResult) (value : rpc.LatestBlockhashValue) (e : Error)
    (hr : (c.Reader env perm).map Prod.snd = some (some reader, none))
    (hf : (txEnv.PublicKeyFromBase58 sender).2 = none)
    (ht : (txEnv.PublicKeyFromBase58 recipient).2 = none)
    (ha : 0 ≤ amount ∧ amount < 2 ^ 64)
    (hb : reader.LatestBlockhash = (reader1, (some blockhash, none)))
    (hv : blockhash.Value = some value)
    (hbal : solanaValidateBalance reader1 (txEnv.PublicKeyFromBase58 sender).1 amount.toNat
      (txEnv.ToBase64
        { Instructions := [solanago.Instruction.systemTransfer amount.toNat
            (txEnv.PublicKeyFromBase58 sender).1 (txEnv.PublicKeyFromBase58 recipient).1],
          RecentBlockhash := value.Blockhash,
          FeePayer := (txEnv.PublicKeyFromBase58 sender).1 }) = some e) :
    c.sendTx env txEnv perm sender recipient amount true =
      some ⟨some ("failed to validate balance: " ++ e), [], true⟩ := by
  unfold chain.sendTx
  rw [hr]
  rcases hF : txEnv.PublicKeyFromBase58 sender with ⟨fromKey, ef⟩
  rw [hF] at hf hbal
  simp only at hf hbal
  subst hf
  rcases hT : txEnv.PublicKeyFromBase58 recipient with ⟨toKey, et⟩
  rw [hT] at ht hbal
  simp only at ht hbal
  subst ht
  have hgood : (0 ≤ amount ∧ amount < (uint64Size : Int)) := by
    rw [uint64Size_cast]
    exact ha
  dsimp only
  rw [if_neg (not_not.2 hgood)]
  simp only [Option.map, hb, hv, solanago.NewTransaction, List.length_singleton,
    Nat.one_ne_zero, if_false, if_true, hbal]

/-- With a reader, valid keys, an amount in range, a latest blockhash and a
balance validation that passes or is not asked for, `sendTx` calls `Enqueue`
once, with the transfer of exactly that amount, and returns what `Enqueue`
returns. -/
theorem sendTx_of_checks_passed [strings.Lowering] (c : chain) (env : Env) (txEnv : TxEnv) (perm : List Nat)
    (sender recipient : String) (amount : Int) (balanceCheck : Bool) (reader reader1 : Handle)
    (blockhash : rpc.GetLatestBlockhashResult) (value : rpc.LatestBlockhashValue)
    (hr : (c.Reader env perm).map Prod.snd = some (some reader, none))
    (hf : (txEnv.PublicKeyFromBase58 sender).2 = none)
    (ht : (txEnv.PublicKeyFromBase58 recipient).2 = none)
    (ha : 0 ≤ amount ∧ amount < 2 ^ 64)
    (hb : reader.LatestBlockhash = (reader1, (some blockhash, none)))
    (hv : blockhash.Value = some value)
    (hbal : balanceCheck = true →
      solanaValidateBalance reader1 (txEnv.PublicKeyFromBase58 sender).1 amount.toNat
        (txEnv.ToBase64
          { Instructions := [solanago.Instruction.systemTransfer amount.toNat
              (txEnv.PublicKeyFromBase58 sender).1 (txEnv.PublicKeyFromBase58 recipient).1],
            RecentBlockhash := value.Blockhash,
            FeePayer := (txEnv.PublicKeyFromBase58 sender).1 }) = none) :
    c.sendTx env txEnv perm sender recipient amount balanceCheck =
      some ⟨(txEnv.EnqueueErr (transferCall amount.toNat (txEnv.PublicKeyFromBase58 sender).1
                (txEnv.PublicKeyFromBase58 recipient).1 value.Blockhash)).map
              (fun err => "transaction failed: " ++ err),
            [transferCall amount.toNat (txEnv.PublicKeyFromBase58 sender).1
              (txEnv.PublicKeyFromBase58 recipient).1 value.Blockhash], true⟩ := by
  unfold chain.sendTx
  rw [hr]
  rcases hF : txEnv.PublicKeyFromBase58 sender with ⟨fromKey, ef⟩
  rw [hF] at hf hbal
  simp only at hf hbal
  subst hf
  rcases hT : txEnv.PublicKeyFromBase58 recipient with ⟨toKey, et⟩
  rw [hT] at ht hbal
  simp only at ht hbal
  subst ht
  have hgood : (0 ≤ amount ∧ amount < (uint64Size : Int)) := by
    rw [uint64Size_cast]
    exact ha
  have hbal1 : (if balanceCheck then
      solanaValidateBalance reader1 fromKey amount.toNat
        (txEnv.ToBase64
          { Instructions := [solanago.Instruction.systemTransfer amount.toNat fromKey toKey],
            RecentBlockhash := value.Blockhash, FeePayer := fromKey })
      else none) = none := by
    cases balanceCheck
    · rfl
    · simpa using hbal rfl
  dsimp only
  rw [if_neg (not_not.2 hgood)]
  simp only [Option.map, hb, hv, solanago.NewTransaction, List.length_singleton,
    Nat.one_ne_zero, if_false, hbal1, transferCall]
  rcases txEnv.EnqueueErr _ with _ | err <;> rfl

end solana

namespace solana

/-- C25: when `Reader` returns, for every amount that is negative or at least
`2 ^ 64`, `Transact` fails without fetching a blockhash and without enqueuing,
with the `overflows uint64` error once the reader and both keys are valid
(when `Reader` panics on a nil endpoint, `Transact` panics); for every amount
in `[0, 2 ^ 64)` with valid keys, once the blockhash is fetched and the balance
validation passes or is not asked for, `Transact` makes one call of `Enqueue`
whose transfer instruction carries exactly that amount, and succeeds when
`Enqueue` does; a successful `Transact` has an amount in `[0, 2 ^ 64)` and
enqueued the transfer of exactly that amount; and the checks fail in the order
reader, from-key, to-key, amount, blockhash, balance: each failure is reported
whatever the later inputs are, and when the balance validation of a checked
transfer fails nothing is enqueued. -/
theorem Transact_check_order [strings.Lowering] (c : chain) (env : Env) (txEnv : TxEnv) (perm : List Nat)
    (sender recipient : String) (amount : Int) (balanceCheck : Bool) :
    (c.Reader env perm = none →
      c.Transact env txEnv perm sender recipient amount balanceCheck = none) ∧
    ((amount < 0 ∨ 2 ^ 64 ≤ amount) → ∀ r, c.Reader env perm = some r →
      ∃ out, c.Transact env txEnv perm sender recipient amount balanceCheck = some out ∧
        out.err ≠ none ∧ out.enqueued = [] ∧ out.fetchedBlockhash = false) ∧
    ((amount < 0 ∨ 2 ^ 64 ≤ amount) →
      ∀ reader, (c.Reader env perm).map Prod.snd = some (reader, none) →
      (txEnv.PublicKeyFromBase58 sender).2 = none →
      (txEnv.PublicKeyFromBase58 recipient).2 = none →
      c.Transact env txEnv perm sender recipient amount balanceCheck =
        some ⟨some ("amount " ++ toString amount ++ " overflows uint64"), [], false⟩) ∧
    (∀ reader reader1 blockhash value,
      (c.Reader env perm).map Prod.snd = some (some reader, none) →
      (txEnv.PublicKeyFromBase58 sender).2 = none →
      (txEnv.PublicKeyFromBase58 recipient).2 = none →
      (0 ≤ amount ∧ amount < 2 ^ 64) →
      reader.LatestBlockhash = (reader1, (some blockhash, none)) →
      blockhash.Value = some value →
      (balanceCheck = true →
        solanaValidateBalance reader1 (txEnv.PublicKeyFromBase58 sender).1 amount.toNat
          (txEnv.ToBase64
            { Instructions := [solanago.Instruction.systemTransfer amount.toNat
                (txEnv.PublicKeyFromBase58 sender).1 (txEnv.PublicKeyFromBase58 recipient).1],
              RecentBlockhash := value.Blockhash,
              FeePayer := (txEnv.PublicKeyFromBase58 sender).1 }) = none) →
      (amount.toNat : Int) = amount ∧
      c.Transact env txEnv perm sender recipient amount balanceCheck =
        some ⟨(txEnv.EnqueueErr (transferCall amount.toNat (txEnv.PublicKeyFromBase58 sender).1
                  (txEnv.PublicKeyFromBase58 recipient).1 value.Blockhash)).map
                (fun err => "transaction failed: " ++ err),
              [transferCall amount.toNat (txEnv.PublicKeyFromBase58 sender).1
                (txEnv.PublicKeyFromBase58 recipient).1 value.Blockhash], true⟩ ∧
      (transferCall amount.toNat (txEnv.PublicKeyFromBase58 sender).1
          (txEnv.PublicKeyFromBase58 recipient).1 value.Blockhash).tx.Message.Instructions =
        [solanago.Instruction.systemTransfer amount.toNat
          (txEnv.PublicKeyFromBase58 sender).1 (txEnv.PublicKeyFromBase58 recipient).1]) ∧
    (∀ out, c.Transact env txEnv perm sender recipient amount balanceCheck = some out →
      out.err = none →
      0 ≤ amount ∧ amount < 2 ^ 64 ∧ (amount.toNat : Int) = amount ∧
      ∃ call, out.enqueued = [call] ∧
        call.tx.Message.Instructions =
          [solanago.Instruction.systemTransfer amount.toNat
            (txEnv.PublicKeyFromBase58 sender).1 (txEnv.PublicKeyFromBase58 recipient).1]) ∧
    (∀ reader e, (c.Reader env perm).map Prod.snd = some (reader, some e) →
      c.Transact env txEnv perm sender recipient amount balanceCheck =
        some ⟨some ("chain unreachable: " ++ e), [], false⟩) ∧
    (∀ reader e, (c.Reader env perm).map Prod.snd = some (reader, none) →
      (txEnv.PublicKeyFromBase58 sender).2 = some e →
      c.Transact env txEnv perm sender recipient amount balanceCheck =
        some ⟨some ("failed to parse from key: " ++ e), [], false⟩) ∧
    (∀ reader e, (c.Reader env perm).map Prod.snd = some (reader, none) →
      (txEnv.PublicKeyFromBase58 sender).2 = none →
      (txEnv.PublicKeyFromBase58 recipient).2 = some e →
      c.Transact env txEnv perm sender recipient amount balanceCheck =
        some ⟨some ("failed to parse to key: " ++ e), [], false⟩) ∧
    (∀ reader e, (c.Reader env perm).map Prod.snd = some (some reader, none) →
      (txEnv.PublicKeyFromBase58 sender).2 = none →
      (txEnv.PublicKeyFromBase58 recipient).2 = none →
      (0 ≤ amount ∧ amount < 2 ^ 64) → reader.LatestBlockhash.2.2 = some e →
      c.Transact env txEnv perm sender recipient amount balanceCheck =
        some ⟨some ("failed to get latest block hash: " ++ e), [], true⟩) ∧
    (∀ reader reader1 blockhash value e,
      (c.Reader env perm).map Prod.snd = some (some reader, none) →
      (txEnv.PublicKeyFromBase58 sender).2 = none →
      (txEnv.PublicKeyFromBase58 recipient).2 = none →
      (0 ≤ amount ∧ amount < 2 ^ 64) →
      reader.LatestBlockhash = (reader1, (some blockhash, none)) →
      blockhash.Value = some value →
      solanaValidateBalance reader1 (txEnv.PublicKeyFromBase58 sender).1 amount.toNat
        (txEnv.ToBase64
          { Instructions := [solanago.Instruction.systemTransfer amount.toNat
              (txEnv.PublicKeyFromBase58 sender).1 (txEnv.PublicKeyFromBase58 recipient).1],
            RecentBlockhash := value.Blockhash,
            FeePayer := (txEnv.PublicKeyFromBase58 sender).1 }) = some e →
      c.Transact env txEnv perm sender recipient amount true =
        some ⟨some ("failed to validate balance: " ++ e), [], true⟩) := by
  unfold chain.Transact
  refine ⟨?_, ?_, ?_, ?_, ?_, ?_, ?_, ?_, ?_, ?_⟩
  · exact sendTx_of_reader_panic c env txEnv perm sender recipient amount balanceCheck
  · intro ha r hR
    exact sendTx_of_bad_amount c env txEnv perm sender recipient amount balanceCheck r hR ha
  · intro ha reader hr hf ht
    exact sendTx_of_amount_error c env txEnv perm sender recipient amount balanceCheck reader
      hr hf ht ha
  · intro reader reader1 blockhash value hr hf ht ha hb hv hbal
    exact ⟨Int.toNat_of_nonneg ha.1,
      sendTx_of_checks_passed c env txEnv perm sender recipient amount balanceCheck reader
        reader1 blockhash value hr hf ht ha hb hv hbal, rfl⟩
  · intro out h hok
    obtain ⟨h0, h1, blockhash, henq⟩ :=
      sendTx_success c env txEnv perm sender recipient amount balanceCheck out h hok
    rw [uint64Size_cast] at h1
    exact ⟨h0, h1, Int.toNat_of_nonneg h0, _, henq, rfl⟩
  · intro reader e hr
    exact sendTx_of_reader_error c env txEnv perm sender recipient amount balanceCheck reader e hr
  · intro reader e hr hf
    exact sendTx_of_from_error c env txEnv perm sender recipient amount balanceCheck reader e
      hr hf
  · intro reader e hr hf ht
    exact sendTx_of_to_error c env txEnv perm sender recipient amount balanceCheck reader e
      hr hf ht
  · intro reader e hr hf ht ha hb
    exact sendTx_of_blockhash_error c env txEnv perm sender recipient amount balanceCheck
      reader e hr hf ht ha hb
  · intro reader reader1 blockhash value e hr hf ht ha hb hv hbal
    exact sendTx_of_balance_error c env txEnv perm sender recipient amount reader reader1
      blockhash value e hr hf ht ha hb hv hbal

/-- C25, at concrete inputs: transfers of `−1` and of `2 ^ 64` lamports from
`alice` to `bob` fail with the overflow error, before the blockhash fetch and
with nothing enqueued; a checked transfer of 7 lamports succeeds and enqueues
one transfer instruction of 7 lamports; a transfer of `2 ^ 64 − 1` lamports
without balance check enqueues that amount; and on a chain whose first
endpoint is nil, `Transact` panics. -/
theorem Transact_check_order_witness :
    transferChain.Transact transferEnv {} [0] "alice" "bob" (-1) true =
      some ⟨some ("amount " ++ toString (-1 : Int) ++ " overflows uint64"), [], false⟩ ∧
    transferChain.Transact transferEnv {} [0] "alice" "bob" 18446744073709551616 true =
      some ⟨some ("amount " ++ toString (18446744073709551616 : Int) ++ " overflows uint64"),
        [], false⟩ ∧
    toString (-1 : Int) = "-1" ∧
    transferChain.Transact transferEnv {} [0] "alice" "bob" 7 true =
      some ⟨none, [transferCall 7 "alice" "bob" "blockhash"], true⟩ ∧
    (transferCall 7 "alice" "bob" "blockhash").tx.Message.Instructions =
      [solanago.Instruction.systemTransfer 7 "alice" "bob"] ∧
    transferChain.Transact transferEnv {} [0] "alice" "bob" 18446744073709551615 false =
      some ⟨none, [transferCall 18446744073709551615 "alice" "bob" "blockhash"], true⟩ ∧
    (singleNodeChain [none, some ⟨some "primary", some "http://rpc.example", false⟩]).Transact
      transferEnv {} [0, 1] "alice" "bob" 7 true = none :=
  ⟨(Transact_check_order transferChain transferEnv {} [0] "alice" "bob" (-1) true).2.2.1
      (Or.inl (by decide)) _ rfl rfl rfl,
    (Transact_check_order transferChain transferEnv {} [0] "alice" "bob" 18446744073709551616
      true).2.2.1 (Or.inr (by decide)) _ rfl rfl rfl,
    by decide,
    ((Transact_check_order transferChain transferEnv {} [0] "alice" "bob" 7 true).2.2.2.1
      (Handle.verified (newVerifier "http://rpc.example" "mainnet"
        (transferEnv.net "http://rpc.example")))
      (Handle.LatestBlockhash (Handle.verified (newVerifier "http://rpc.example" "mainnet"
        (transferEnv.net "http://rpc.example")))).1
      ⟨some ⟨"blockhash", 100⟩⟩ ⟨"blockhash", 100⟩ rfl rfl rfl (by decide) rfl rfl
      (fun _ => rfl)).2.1,
    rfl,
    ((Transact_check_order transferChain transferEnv {} [0] "alice" "bob" 18446744073709551615
      false).2.2.2.1
      (Handle.verified (newVerifier "http://rpc.example" "mainnet"
        (transferEnv.net "http://rpc.example")))
      (Handle.LatestBlockhash (Handle.verified (newVerifier "http://rpc.example" "mainnet"
        (transferEnv.net "http://rpc.example")))).1
      ⟨some ⟨"blockhash", 100⟩⟩ ⟨"blockhash", 100⟩ rfl rfl rfl (by decide) rfl rfl
      (fun h => absurd h (by decide))).2.1,
    (Transact_check_order
      (singleNodeChain [none, some ⟨some "primary", some "http://rpc.example", false⟩])
      transferEnv {} [0, 1] "alice" "bob" 7 true).1 rfl⟩

end solana
